import Mathlib

/-! # Node-instance synchronisation server

A shallow embedding of `NodeInstanceServer`
(`src/plugins/qmldesigner/designercore/instances/nodeinstanceserver.cpp`).

* The member variables of the C++ class are the fields of the structure
  `NodeInstanceServer`; every member function is a function on that structure.
* `Q_ASSERT(c)` is embedded as failure: a member function that can hit an
  assertion returns `Option`, and `none` is the assertion failure.
* The Qt containers (`QHash`, `QList`, `QSet`) are association lists / lists.
* Calls that leave the server (the instance layer, the client channel, the
  timer facility of `QObject`) are recorded in call logs kept in the state, in
  call order.
-/

namespace QmlDesigner

/-! ## Qt containers -/

/-- A `QHash<K, V>`: the entries, most recently inserted first. `insert`
replaces the value of a key that is present, so a hash built with `insert`
from `QHash.empty` has at most one entry per key. -/
structure QHash (K V : Type) where
  entries : List (K × V)
  deriving DecidableEq, Repr

namespace QHash

variable {K V : Type} [DecidableEq K]

/-- The default-constructed hash. -/
def empty : QHash K V := ⟨[]⟩

/-- The first value stored under `k` in a list of entries. -/
def lookupIn (k : K) : List (K × V) → Option V
  | [] => none
  | (k', v) :: rest => if k' = k then some v else lookupIn k rest

/-- The value stored under `k`, if any. -/
def lookup (h : QHash K V) (k : K) : Option V := lookupIn k h.entries

/-- `QHash::contains(key)`. -/
def contains (h : QHash K V) (k : K) : Bool := (h.lookup k).isSome

/-- `QHash::value(key)`: the stored value, or a default-constructed value. -/
def value (h : QHash K V) (k : K) (dflt : V) : V := (h.lookup k).getD dflt

/-- `QHash::remove(key)`. -/
def remove (h : QHash K V) (k : K) : QHash K V :=
  ⟨h.entries.filter (fun p => !decide (p.1 = k))⟩

/-- `QHash::insert(key, value)`. -/
def insert (h : QHash K V) (k : K) (v : V) : QHash K V :=
  ⟨(k, v) :: (h.remove k).entries⟩

/-- `QHash::size()`. -/
def size (h : QHash K V) : Nat := h.entries.length

/-- `QHash::keys()`. -/
def keys (h : QHash K V) : List K := h.entries.map Prod.fst

/-- `QHash::values()`. -/
def values (h : QHash K V) : List V := h.entries.map Prod.snd

/-- `QHash::isEmpty()`. -/
def isEmpty (h : QHash K V) : Bool := h.entries.isEmpty

end QHash

/-- `QSet::insert` / the guarded `append` of `addChangedProperty`, on a list
kept in insertion order: an element already present is not added again. -/
def insertNew {α : Type} [DecidableEq α] (l : List α) (a : α) : List α :=
  if a ∈ l then l else l ++ [a]

/-- `QString::contains(str)`: `str` occurs in `s`. -/
def containsString (s str : String) : Bool :=
  s.toList.tails.any (fun t => str.toList.isPrefixOf t)

/-! ## Values exchanged with the instance layer -/

/-- A `QObject*`; `0` is the null pointer. -/
abbrev QObject := Nat

/-- A `QVariant` / expression payload; its content is never inspected by the
server. -/
abbrev QVariant := String

/-- A `QRectF`, with integer coordinates. -/
structure QRectF where
  x : Int
  y : Int
  width : Int
  height : Int
  deriving DecidableEq, Repr

/-- `QRectF::isValid()`. -/
def QRectF.isValid (r : QRectF) : Bool := decide (0 < r.width) && decide (0 < r.height)

/-- Modelled from the spec: `ServerNodeInstance` (servernodeinstance.h is not
part of the sources). "Instance: identifier (non-negative integer, unique per
live object; negative = invalid/unset), handle to an external visual object,
validity flag." -/
structure ServerNodeInstance where
  instanceId : Int
  internalObject : QObject
  isValid : Bool
  deriving DecidableEq, Repr

namespace ServerNodeInstance

/-- The default-constructed `ServerNodeInstance()`: the "invalid" sentinel. -/
def invalid : ServerNodeInstance := ⟨-1, 0, false⟩

/-- Modelled from the spec: `makeInvalid()` "marks the Instance invalid". This
is the handle that the call leaves behind; the call itself is recorded in
`instanceCalls`, from which `isValidAfter` reads the validity that the other
handles of the Instance report. -/
def makeInvalid (i : ServerNodeInstance) : ServerNodeInstance := { i with isValid := false }

end ServerNodeInstance

/-- `InstancePropertyPair`: `QPair<ServerNodeInstance, QString>`. -/
abbrev InstancePropertyPair := ServerNodeInstance × String

/-- `ObjectPropertyPair`: `QPair<QWeakPointer<QObject>, QString>`. -/
abbrev ObjectPropertyPair := QObject × String

/-- Modelled from the spec: `InstanceContainer`, one described instance of a
CreateInstances command ("instance id, ... type-name"). -/
structure InstanceContainer where
  instanceId : Int
  type : String
  deriving DecidableEq, Repr

/-- Modelled from the spec: `PropertyAbstractContainer`, one entry of a
RemoveProperties command. -/
structure PropertyAbstractContainer where
  instanceId : Int
  name : String
  deriving DecidableEq, Repr

/-- Modelled from the spec: `PropertyValueContainer`, one entry of a
ChangePropertyValues command. `dynamicTypeName` is empty for a property that
is not dynamic. -/
structure PropertyValueContainer where
  instanceId : Int
  name : String
  value : QVariant
  dynamicTypeName : String
  deriving DecidableEq, Repr

/-- `PropertyValueContainer::isDynamic()`. -/
def PropertyValueContainer.isDynamic (c : PropertyValueContainer) : Bool :=
  !c.dynamicTypeName.isEmpty

/-- Modelled from the spec: `PropertyBindingContainer`, one entry of a
ChangePropertyBindings command. -/
structure PropertyBindingContainer where
  instanceId : Int
  name : String
  expression : String
  dynamicTypeName : String
  deriving DecidableEq, Repr

/-- `PropertyBindingContainer::isDynamic()`. -/
def PropertyBindingContainer.isDynamic (c : PropertyBindingContainer) : Bool :=
  !c.dynamicTypeName.isEmpty

/-- Modelled from the spec: `ReparentContainer`, one entry of a
ReparentInstances command: "(instance, old-parent, old-parent-property,
new-parent, new-parent-property)". -/
structure ReparentContainer where
  instanceId : Int
  oldParentInstanceId : Int
  oldParentProperty : String
  newParentInstanceId : Int
  newParentProperty : String
  deriving DecidableEq, Repr

/-- Modelled from the spec: `IdContainer`, one entry of a ChangeIds command. -/
structure IdContainer where
  instanceId : Int
  id : String
  deriving DecidableEq, Repr

/-- Modelled from the spec: `AddImportCommand`: "file name ..., or raw URL",
"optional version suffix and optional alias suffix", and the import paths. -/
structure AddImportCommand where
  url : String
  fileName : String
  version : String
  /-- `alias()`; `alias` is a reserved word. -/
  aliasName : String
  importPaths : List String
  deriving DecidableEq, Repr

/-- A call made by the server on the instance layer (a `ServerNodeInstance`
member function or a `QObject` member function of its object). -/
inductive InstanceCall where
  | setId (inst : ServerNodeInstance) (id : String)
  | makeInvalid (inst : ServerNodeInstance)
  | disconnect (object : QObject)
  | installEventFilter (object : QObject)
  | doComponentComplete (inst : ServerNodeInstance)
  | updateStateVariant (state target : ServerNodeInstance) (name : String) (value : QVariant)
  | setPropertyVariant (target : ServerNodeInstance) (name : String) (value : QVariant)
  | setPropertyDynamicVariant (target : ServerNodeInstance) (name typeName : String)
      (value : QVariant)
  | updateStateBinding (state target : ServerNodeInstance) (name expression : String)
  | setPropertyBinding (target : ServerNodeInstance) (name expression : String)
  | setPropertyDynamicBinding (target : ServerNodeInstance) (name typeName expression : String)
  | resetStateProperty (state target : ServerNodeInstance) (name : String)
  | resetProperty (target : ServerNodeInstance) (name : String)
  | reparent (inst oldParent : ServerNodeInstance) (oldParentProperty : String)
      (newParent : ServerNodeInstance) (newParentProperty : String)
  | activateState (inst : ServerNodeInstance)
  | deactivateState (inst : ServerNodeInstance)
  | refreshProperty (inst : ServerNodeInstance) (name : String)
  deriving DecidableEq, Repr

/-- What the server reads from the instance layer and the declarative engine.
None of these functions is defined in the sources of the server; the server
only consumes their results. -/
structure InstanceLayer where
  /-- `ServerNodeInstance::create(this, instanceContainer)`. -/
  create : InstanceContainer → ServerNodeInstance
  /-- `qobject_cast<QGraphicsObject*>(object) != 0`. -/
  isGraphicsObject : QObject → Bool
  /-- `instance.isSubclassOf(typeName)`. -/
  isSubclassOf : ServerNodeInstance → String → Bool
  /-- `rootGraphicsObject->boundingRect()` of a graphics object. -/
  graphicsBoundingRect : QObject → QRectF
  /-- `instance.boundingRect()`. -/
  boundingRect : ServerNodeInstance → QRectF
  /-- `instance.propertyNames()`. -/
  propertyNames : ServerNodeInstance → List String
  /-- `instance.property(name).type() < QVariant::UserType`. -/
  propertyIsBuiltin : ServerNodeInstance → String → Bool
  /-- The `hasChanged` out-parameter of `instance.hasBindingForProperty`. -/
  bindingHasChanged : ServerNodeInstance → String → Bool
  /-- The result of `activeStateInstance().updateStateVariant(...)`. -/
  updateStateVariant : ServerNodeInstance → ServerNodeInstance → String → QVariant → Bool
  /-- The result of `activeStateInstance().updateStateBinding(...)`. -/
  updateStateBinding : ServerNodeInstance → ServerNodeInstance → String → String → Bool
  /-- The result of `activeStateInstance().resetStateProperty(...)`. -/
  resetStateProperty : ServerNodeInstance → ServerNodeInstance → String → Bool
  /-- The `errorString()` of the probe component of `addImport`, for the probe
  document given. -/
  importErrorString : String → String

/-! ## The graphics view -/

/-- A `QGraphicsItem` of the scene with the flags of its `QGraphicsItemPrivate`
that the server reads, and its `childItems()`. `object` is
`toGraphicsObject()` (`0` when the item is not a graphics object). -/
inductive QGraphicsItem where
  | mk (object : QObject) (dirtySceneTransform geometryChanged dirty
      notifyBoundingRectChanged dirtyChildren : Bool) (boundingRect : QRectF)
      (childItems : List QGraphicsItem)
  deriving Repr

namespace QGraphicsItem

/-- `item->toGraphicsObject()`. -/
def object : QGraphicsItem → QObject
  | mk o _ _ _ _ _ _ _ => o

/-- `d->dirtySceneTransform`. -/
def dirtySceneTransform : QGraphicsItem → Bool
  | mk _ b _ _ _ _ _ _ => b

/-- `d->geometryChanged`. -/
def geometryChanged : QGraphicsItem → Bool
  | mk _ _ b _ _ _ _ _ => b

/-- `d->dirty`. -/
def dirty : QGraphicsItem → Bool
  | mk _ _ _ b _ _ _ _ => b

/-- `d->notifyBoundingRectChanged`. -/
def notifyBoundingRectChanged : QGraphicsItem → Bool
  | mk _ _ _ _ b _ _ _ => b

/-- `d->dirtyChildren`. -/
def dirtyChildren : QGraphicsItem → Bool
  | mk _ _ _ _ _ b _ _ => b

/-- `item->boundingRect()`. -/
def boundingRect : QGraphicsItem → QRectF
  | mk _ _ _ _ _ _ r _ => r

/-- `item->childItems()`. -/
def childItems : QGraphicsItem → List QGraphicsItem
  | mk _ _ _ _ _ _ _ cs => cs

mutual
/-- `QGraphicsScenePrivate::resetDirtyItem(item)`: clears the dirty
bookkeeping of the item. Every child of a scene item is itself in
`QGraphicsView::items()`, so resetting all items resets whole subtrees. -/
def resetDirtyItem : QGraphicsItem → QGraphicsItem
  | mk o st _ _ n _ r cs => mk o st false false n false r (resetDirtyItems cs)
/-- `resetDirtyItem` on every item of a list. -/
def resetDirtyItems : List QGraphicsItem → List QGraphicsItem
  | [] => []
  | c :: cs => resetDirtyItem c :: resetDirtyItems cs
end

end QGraphicsItem

/-- The `QDeclarativeView` with its scene. -/
structure QDeclarativeView where
  /-- `items()`: the items of the scene with their dirty bookkeeping, as the
  graphics engine reports them; the engine fills and updates this list. -/
  items : List QGraphicsItem
  /-- The scene rect set with `setSceneRect`. -/
  sceneRect : QRectF
  /-- The objects added with `scene()->addItem`. -/
  sceneItems : List QObject
  /-- `QGraphicsScenePrivate::processDirtyItemsEmitted`. -/
  processDirtyItemsEmitted : Bool
  /-- The base url of `engine()`. -/
  baseUrl : String
  /-- The import paths added to `engine()`. -/
  importPaths : List String
  /-- The plugin paths added to `engine()`. -/
  pluginPaths : List String

/-! ## Outbound commands -/

/-- `InformationName` of commondefines.h, as listed in the spec. -/
inductive InformationName where
  | Position | Transform | SceneTransform | Size | BoundingRect | HasContent
  | IsMovable | IsResizable | IsInPositioner | PenWidth | Parent
  | IsAnchoredByChildren | IsAnchoredBySibling | HasAnchor | Anchor
  | InstanceTypeForProperty | HasBindingForProperty
  deriving DecidableEq, Repr

/-- An `InformationContainer`: instance id, kind and sub-key (empty when the
kind has none). The reported value is read from the instance layer and is not
kept. -/
structure InformationContainer where
  instanceId : Int
  name : InformationName
  subKey : String
  deriving DecidableEq, Repr

/-- `InformationChangedCommand`. -/
abbrev InformationChangedCommand := List InformationContainer

/-- `ValuesChangedCommand`: the (instance id, property name) of each
`PropertyValueContainer`; the value is read from the instance layer. -/
abbrev ValuesChangedCommand := List (Int × String)

/-- `PixmapChangedCommand(instanceId, renderImage)`: the instance it is built
from. -/
abbrev PixmapChangedCommand := ServerNodeInstance

/-- A call on `nodeInstanceClient()`. -/
inductive ClientCall where
  | valuesChanged (command : ValuesChangedCommand)
  | informationChanged (command : InformationChangedCommand)
  | pixmapChanged (command : PixmapChangedCommand)
  | flush
  deriving DecidableEq, Repr

/-- The `NodeInstanceClientInterface`: the pending-write backlog it reports and
the calls received so far, oldest first. -/
structure NodeInstanceClient where
  bytesToWrite : Int
  calls : List ClientCall
  deriving DecidableEq, Repr

/-! ## The timer facility of `QObject` -/

/-- The timers of the server object: `(timer id, interval in ms)` of every
running timer, and the last id handed out. -/
structure QTimers where
  running : List (Nat × Nat)
  lastId : Nat
  deriving DecidableEq, Repr

/-- `QObject::startTimer(interval)`: a fresh non-zero id. -/
def QTimers.startTimer (t : QTimers) (interval : Nat) : Nat × QTimers :=
  (t.lastId + 1, { running := (t.lastId + 1, interval) :: t.running, lastId := t.lastId + 1 })

/-- `QObject::killTimer(id)`. -/
def QTimers.killTimer (t : QTimers) (id : Nat) : QTimers :=
  { t with running := t.running.filter (fun p => !decide (p.1 = id)) }

/-! ## The server -/

/-- The state of a `NodeInstanceServer`. -/
structure NodeInstanceServer where
  m_idInstanceHash : QHash Int ServerNodeInstance
  m_objectInstanceHash : QHash QObject ServerNodeInstance
  /-- A `QMultiHash<QString, ObjectPropertyPair>`. -/
  m_fileSystemWatcherHash : List (String × ObjectPropertyPair)
  m_changedPropertyList : List InstancePropertyPair
  m_importList : List String
  m_fileUrl : String
  m_rootNodeInstance : ServerNodeInstance
  m_activeStateInstance : ServerNodeInstance
  /-- The `QWeakPointer<QDeclarativeView>`; `none` is the null pointer. -/
  m_declarativeView : Option QDeclarativeView
  m_timer : Nat
  m_slowRenderTimer : Bool
  /-- The function-local `static bool inFunction` of
  `findItemChangesAndSendChangeCommands`. -/
  inFunction : Bool
  m_nodeInstanceClient : NodeInstanceClient
  /-- The timers of this `QObject`. -/
  timers : QTimers
  /-- The calls made on the instance layer so far, oldest first. -/
  instanceCalls : List InstanceCall

namespace NodeInstanceServer

/-- The constructor `NodeInstanceServer(nodeInstanceClient)`. -/
def init : NodeInstanceServer where
  m_idInstanceHash := QHash.empty
  m_objectInstanceHash := QHash.empty
  m_fileSystemWatcherHash := []
  m_changedPropertyList := []
  m_importList := []
  m_fileUrl := ""
  m_rootNodeInstance := ServerNodeInstance.invalid
  m_activeStateInstance := ServerNodeInstance.invalid
  m_declarativeView := none
  m_timer := 0
  m_slowRenderTimer := false
  inFunction := false
  m_nodeInstanceClient := ⟨0, []⟩
  timers := ⟨[], 0⟩
  instanceCalls := []

/-- Records a call on the instance layer. -/
def call (s : NodeInstanceServer) (c : InstanceCall) : NodeInstanceServer :=
  { s with instanceCalls := s.instanceCalls ++ [c] }

/-- Records a call on `nodeInstanceClient()`. -/
def send (s : NodeInstanceServer) (c : ClientCall) : NodeInstanceServer :=
  { s with m_nodeInstanceClient :=
      { s.m_nodeInstanceClient with calls := s.m_nodeInstanceClient.calls ++ [c] } }

/-- `NodeInstanceServer::instanceForId`. -/
def instanceForId (s : NodeInstanceServer) (id : Int) : Option ServerNodeInstance :=
  if id < 0 then some ServerNodeInstance.invalid
  else if s.m_idInstanceHash.contains id then
    some (s.m_idInstanceHash.value id ServerNodeInstance.invalid)
  else none

/-- `NodeInstanceServer::hasInstanceForId`. -/
def hasInstanceForId (s : NodeInstanceServer) (id : Int) : Bool :=
  if id < 0 then false else s.m_idInstanceHash.contains id

/-- `NodeInstanceServer::instanceForObject`. -/
def instanceForObject (s : NodeInstanceServer) (object : QObject) : Option ServerNodeInstance :=
  if s.m_objectInstanceHash.contains object then
    some (s.m_objectInstanceHash.value object ServerNodeInstance.invalid)
  else none

/-- `NodeInstanceServer::hasInstanceForObject`. -/
def hasInstanceForObject (s : NodeInstanceServer) (object : QObject) : Bool :=
  if object = 0 then false else s.m_objectInstanceHash.contains object

/-- `NodeInstanceServer::stopRenderTimer`. -/
def stopRenderTimer (s : NodeInstanceServer) : NodeInstanceServer :=
  if s.m_timer ≠ 0 then
    { s with timers := s.timers.killTimer s.m_timer, m_timer := 0 }
  else s

/-- `NodeInstanceServer::startRenderTimer`. -/
def startRenderTimer (s : NodeInstanceServer) : NodeInstanceServer :=
  let s1 := if s.m_slowRenderTimer then s.stopRenderTimer else s
  let s2 := if s1.m_timer = 0 then
      { s1 with m_timer := (s1.timers.startTimer 16).1, timers := (s1.timers.startTimer 16).2 }
    else s1
  { s2 with m_slowRenderTimer := false }

/-- `NodeInstanceServer::slowDownRenderTimer`. -/
def slowDownRenderTimer (s : NodeInstanceServer) : NodeInstanceServer :=
  let s1 := if !s.m_slowRenderTimer then s.stopRenderTimer else s
  let s2 := if s1.m_timer = 0 then
      { s1 with m_timer := (s1.timers.startTimer 1000).1,
                timers := (s1.timers.startTimer 1000).2 }
    else s1
  { s2 with m_slowRenderTimer := true }

/-- `NodeInstanceServer::insertInstanceRelationship`. -/
def insertInstanceRelationship (s : NodeInstanceServer) (inst : ServerNodeInstance) :
    Option NodeInstanceServer :=
  if !inst.isValid then none
  else if s.m_idInstanceHash.contains inst.instanceId then none
  else if s.m_objectInstanceHash.contains inst.internalObject then none
  else some { s with
    m_objectInstanceHash := s.m_objectInstanceHash.insert inst.internalObject inst,
    m_idInstanceHash := s.m_idInstanceHash.insert inst.instanceId inst }

/-- `NodeInstanceServer::removeInstanceRelationsip`. -/
def removeInstanceRelationsip (s : NodeInstanceServer) (instanceId : Int) :
    Option NodeInstanceServer :=
  if s.hasInstanceForId instanceId then
    match s.instanceForId instanceId with
    | none => none
    | some inst =>
      let s1 := if inst.isValid then s.call (.setId inst "") else s
      let s2 := { s1 with m_idInstanceHash := s1.m_idInstanceHash.remove instanceId }
      let s3 := { s2 with
        m_objectInstanceHash := s2.m_objectInstanceHash.remove inst.internalObject }
      some (s3.call (.makeInvalid inst))
  else some s

/-- A `foreach` loop whose body can fail: the body is run on each element in
order and a failure ends the loop. -/
def forEach {σ α : Type} (body : σ → α → Option σ) : σ → List α → Option σ
  | s, [] => some s
  | s, a :: rest =>
    match body s a with
    | none => none
    | some s1 => forEach body s1 rest

/-- The body of the first `foreach` of `removeAllInstanceRelationships`. -/
def clearInstanceId (s : NodeInstanceServer) (inst : ServerNodeInstance) : NodeInstanceServer :=
  if inst.isValid then s.call (.setId inst "") else s

/-- The body of the second `foreach` of `removeAllInstanceRelationships`. -/
def disconnectInstance (s : NodeInstanceServer) (inst : ServerNodeInstance) :
    NodeInstanceServer :=
  let s1 := if inst.internalObject ≠ 0 then s.call (.disconnect inst.internalObject) else s
  s1.call (.makeInvalid inst)

/-- `NodeInstanceServer::removeAllInstanceRelationships`. The loops run over
copies of the registered instances. -/
def removeAllInstanceRelationships (s : NodeInstanceServer) : NodeInstanceServer :=
  let s1 := s.m_objectInstanceHash.values.foldl clearInstanceId s
  let s2 := if s1.m_rootNodeInstance.internalObject ≠ 0 then
      s1.call (.disconnect s1.m_rootNodeInstance.internalObject) else s1
  let s3 := s2.call (.makeInvalid s2.m_rootNodeInstance)
  let s4 := s3.m_objectInstanceHash.values.foldl disconnectInstance s3
  { s4 with m_idInstanceHash := QHash.empty, m_objectInstanceHash := QHash.empty }

/-- `NodeInstanceServer::clearScene`. -/
def clearScene (s : NodeInstanceServer) : NodeInstanceServer :=
  let s1 := s.stopRenderTimer
  let s2 := s1.removeAllInstanceRelationships
  let s3 := { s2 with m_fileSystemWatcherHash := [] }
  let s4 := { (s3.call (.makeInvalid s3.m_rootNodeInstance)) with
    m_rootNodeInstance := s3.m_rootNodeInstance.makeInvalid }
  let s5 := { s4 with m_changedPropertyList := [] }
  let s6 := { s5 with m_fileUrl := "" }
  { s6 with m_declarativeView := none }

/-- `NodeInstanceServer::removeInstances`, on `command.instanceIds()`. -/
def removeInstances (s : NodeInstanceServer) (instanceIds : List Int) :
    Option NodeInstanceServer :=
  (forEach removeInstanceRelationsip s instanceIds).map startRenderTimer

/-- `NodeInstanceServer::activeStateInstance`. -/
def activeStateInstance (s : NodeInstanceServer) : ServerNodeInstance := s.m_activeStateInstance

/-- `NodeInstanceServer::rootNodeInstance`. -/
def rootNodeInstance (s : NodeInstanceServer) : ServerNodeInstance := s.m_rootNodeInstance

/-- `NodeInstanceServer::setStateInstance`. -/
def setStateInstance (s : NodeInstanceServer) (stateInstance : ServerNodeInstance) :
    NodeInstanceServer :=
  { s with m_activeStateInstance := stateInstance }

/-- `NodeInstanceServer::clearStateInstance`. -/
def clearStateInstance (s : NodeInstanceServer) : NodeInstanceServer :=
  { s with m_activeStateInstance := ServerNodeInstance.invalid }

/-- `NodeInstanceServer::addChangedProperty`. -/
def addChangedProperty (s : NodeInstanceServer) (property : InstancePropertyPair) :
    NodeInstanceServer :=
  if !s.m_changedPropertyList.contains property then
    { s with m_changedPropertyList := s.m_changedPropertyList ++ [property] }
  else s

/-- `NodeInstanceServer::emitParentChanged`. -/
def emitParentChanged (s : NodeInstanceServer) (child : QObject) : Option NodeInstanceServer :=
  if s.hasInstanceForObject child then
    match s.instanceForObject child with
    | none => none
    | some inst => some (s.addChangedProperty (inst, "parent"))
  else some s

/-- `NodeInstanceServer::notifyPropertyChange`. -/
def notifyPropertyChange (s : NodeInstanceServer) (instanceid : Int) (propertyName : String) :
    Option NodeInstanceServer :=
  if s.hasInstanceForId instanceid then
    match s.instanceForId instanceid with
    | none => none
    | some inst => some (s.addChangedProperty (inst, propertyName))
  else some s

/-- `NodeInstanceServer::resetInstanceProperty`. -/
def resetInstanceProperty (L : InstanceLayer) (s : NodeInstanceServer)
    (propertyContainer : PropertyAbstractContainer) : Option NodeInstanceServer :=
  if s.hasInstanceForId propertyContainer.instanceId then
    match s.instanceForId propertyContainer.instanceId with
    | none => none
    | some inst =>
      if !inst.isValid then none
      else
        let name := propertyContainer.name
        if s.activeStateInstance.isValid && !L.isSubclassOf inst "Qt/PropertyChanges" then
          let statePropertyWasReseted := L.resetStateProperty s.activeStateInstance inst name
          let s1 := s.call (.resetStateProperty s.activeStateInstance inst name)
          if !statePropertyWasReseted then some (s1.call (.resetProperty inst name))
          else some s1
        else some (s.call (.resetProperty inst name))
  else some s

/-- `NodeInstanceServer::setInstancePropertyBinding`. -/
def setInstancePropertyBinding (L : InstanceLayer) (s : NodeInstanceServer)
    (bindingContainer : PropertyBindingContainer) : Option NodeInstanceServer :=
  if s.hasInstanceForId bindingContainer.instanceId then
    match s.instanceForId bindingContainer.instanceId with
    | none => none
    | some inst =>
      let name := bindingContainer.name
      let expression := bindingContainer.expression
      if s.activeStateInstance.isValid && !L.isSubclassOf inst "Qt/PropertyChanges" then
        let stateBindingWasUpdated :=
          L.updateStateBinding s.activeStateInstance inst name expression
        let s1 := s.call (.updateStateBinding s.activeStateInstance inst name expression)
        if !stateBindingWasUpdated then
          if bindingContainer.isDynamic then
            some (s1.call
              (.setPropertyDynamicBinding inst name bindingContainer.dynamicTypeName expression))
          else some (s1.call (.setPropertyBinding inst name expression))
        else some s1
      else
        if bindingContainer.isDynamic then
          some (s.call
            (.setPropertyDynamicBinding inst name bindingContainer.dynamicTypeName expression))
        else some (s.call (.setPropertyBinding inst name expression))
  else some s

/-- `NodeInstanceServer::setInstancePropertyVariant`. -/
def setInstancePropertyVariant (L : InstanceLayer) (s : NodeInstanceServer)
    (valueContainer : PropertyValueContainer) : Option NodeInstanceServer :=
  if s.hasInstanceForId valueContainer.instanceId then
    match s.instanceForId valueContainer.instanceId with
    | none => none
    | some inst =>
      let name := valueContainer.name
      let value := valueContainer.value
      if s.activeStateInstance.isValid && !L.isSubclassOf inst "Qt/PropertyChanges" then
        let stateValueWasUpdated := L.updateStateVariant s.activeStateInstance inst name value
        let s1 := s.call (.updateStateVariant s.activeStateInstance inst name value)
        if !stateValueWasUpdated then
          if valueContainer.isDynamic then
            some (s1.call
              (.setPropertyDynamicVariant inst name valueContainer.dynamicTypeName value))
          else some (s1.call (.setPropertyVariant inst name value))
        else some s1
      else
        if valueContainer.isDynamic then
          some (s.call
            (.setPropertyDynamicVariant inst name valueContainer.dynamicTypeName value))
        else some (s.call (.setPropertyVariant inst name value))
  else some s

/-- `NodeInstanceServer::removeProperties`, on `command.properties()`. -/
def removeProperties (L : InstanceLayer) (s : NodeInstanceServer)
    (properties : List PropertyAbstractContainer) : Option NodeInstanceServer :=
  (forEach (resetInstanceProperty L) s properties).map startRenderTimer

/-- `NodeInstanceServer::changePropertyValues`, on `command.valueChanges()`. -/
def changePropertyValues (L : InstanceLayer) (s : NodeInstanceServer)
    (valueChanges : List PropertyValueContainer) : Option NodeInstanceServer :=
  (forEach (setInstancePropertyVariant L) s valueChanges).map startRenderTimer

/-- `NodeInstanceServer::changePropertyBindings`, on `command.bindingChanges()`. -/
def changePropertyBindings (L : InstanceLayer) (s : NodeInstanceServer)
    (bindingChanges : List PropertyBindingContainer) : Option NodeInstanceServer :=
  (forEach (setInstancePropertyBinding L) s bindingChanges).map startRenderTimer

/-! ### Outbound command builders -/

/-- The nine anchor lines reported by `createAllInformationChangedCommand`, in
the order of the source. -/
def anchorLines : List String :=
  ["anchors.fill", "anchors.centerIn", "anchors.right", "anchors.top", "anchors.left",
   "anchors.bottom", "anchors.horizontalCenter", "anchors.verticalCenter", "anchors.baseline"]

/-- The entries appended by one iteration of the `foreach` of
`createAllInformationChangedCommand`. -/
def informationOf (L : InstanceLayer) (inst : ServerNodeInstance) ( initial : Bool) :
    List InformationContainer :=
  let id := inst.instanceId
  [ ⟨id, .Position, ""⟩, ⟨id, .Transform, ""⟩, ⟨id, .SceneTransform, ""⟩, ⟨id, .Size, ""⟩,
    ⟨id, .BoundingRect, ""⟩, ⟨id, .Transform, ""⟩, ⟨id, .HasContent, ""⟩,
    ⟨id, .IsMovable, ""⟩, ⟨id, .IsResizable, ""⟩, ⟨id, .IsInPositioner, ""⟩,
    ⟨id, .PenWidth, ""⟩, ⟨id, .Parent, ""⟩, ⟨id, .IsAnchoredByChildren, ""⟩,
    ⟨id, .IsAnchoredBySibling, ""⟩ ]
  ++ anchorLines.map (fun a => ⟨id, .HasAnchor, a⟩)
  ++ anchorLines.map (fun a => ⟨id, .Anchor, a⟩)
  ++ (if initial then
        (L.propertyNames inst).map (fun n => ⟨id, .InstanceTypeForProperty, n⟩)
      else [])
  ++ ((L.propertyNames inst).filter (fun n => L.bindingHasChanged inst n)).map
        (fun n => ⟨id, .HasBindingForProperty, n⟩)

/-- `NodeInstanceServer::createAllInformationChangedCommand`. -/
def createAllInformationChangedCommand (L : InstanceLayer)
    (instanceList : List ServerNodeInstance) ( initial : Bool) : InformationChangedCommand :=
  instanceList.flatMap (fun inst => informationOf L inst initial)

/-- `NodeInstanceServer::createValuesChangedCommand(const QList<ServerNodeInstance> &)`. -/
def createValuesChangedCommand (L : InstanceLayer) (instanceList : List ServerNodeInstance) :
    ValuesChangedCommand :=
  instanceList.flatMap (fun inst =>
    ((L.propertyNames inst).filter (fun n => L.propertyIsBuiltin inst n)).map
      (fun n => (inst.instanceId, n)))

/-- `NodeInstanceServer::createValuesChangedCommand(const QVector<InstancePropertyPair> &)`. -/
def createValuesChangedCommandForProperties (L : InstanceLayer)
    (propertyList : List InstancePropertyPair) : ValuesChangedCommand :=
  (propertyList.filter (fun p => p.1.isValid && L.propertyIsBuiltin p.1 p.2)).map
    (fun p => (p.1.instanceId, p.2))

/-- `NodeInstanceServer::createPixmapChangedCommand`. -/
def createPixmapChangedCommand (inst : ServerNodeInstance) : PixmapChangedCommand := inst

/-! ### Creating instances -/

/-- `m_declarativeView->setSceneRect(rect)` / `scene()->setSceneRect(rect)`. -/
def setSceneRect (s : NodeInstanceServer) (rect : QRectF) : NodeInstanceServer :=
  { s with m_declarativeView := s.m_declarativeView.map (fun v => { v with sceneRect := rect }) }

/-- `m_declarativeView->scene()->addItem(object)`. -/
def addItem (s : NodeInstanceServer) (object : QObject) : NodeInstanceServer :=
  { s with m_declarativeView :=
      s.m_declarativeView.map (fun v => { v with sceneItems := v.sceneItems ++ [object] }) }

/-- The body of the `foreach` of `createInstances`; the second component is
`instanceList`. -/
def createInstance (L : InstanceLayer) (acc : NodeInstanceServer × List ServerNodeInstance)
    (instanceContainer : InstanceContainer) :
    Option (NodeInstanceServer × List ServerNodeInstance) :=
  let inst := L.create instanceContainer
  match acc.1.insertInstanceRelationship inst with
  | none => none
  | some s1 =>
    let instanceList := acc.2 ++ [inst]
    let s2 := s1.call (.installEventFilter inst.internalObject)
    let s3 :=
      if instanceContainer.instanceId = 0 then
        let s2a := { s2 with m_rootNodeInstance := inst }
        if L.isGraphicsObject inst.internalObject then
          (s2a.addItem inst.internalObject).setSceneRect
            (L.graphicsBoundingRect inst.internalObject)
        else s2a
      else s2
    some (s3.call (.doComponentComplete inst), instanceList)

/-- `NodeInstanceServer::createInstances`, on `command.instances()`. -/
def createInstances (L : InstanceLayer) (s : NodeInstanceServer)
    (instances : List InstanceContainer) : Option NodeInstanceServer :=
  if s.m_declarativeView.isNone then none
  else
    match forEach (createInstance L) (s, []) instances with
    | none => none
    | some (s1, instanceList) =>
      let s2 := s1.send (.valuesChanged (createValuesChangedCommand L instanceList))
      let s3 := s2.send
        (.informationChanged (createAllInformationChangedCommand L instanceList true))
      let s4 := instanceList.foldl
        (fun st inst => st.send (.pixmapChanged (createPixmapChangedCommand inst))) s3
      some s4.startRenderTimer

/-! ### Change detection -/

/-- Modelled from the spec: `ServerNodeInstance::isRootNodeInstance()`, not
part of the sources: the instance is valid and is the "Root Instance: the
distinguished Instance" held in `m_rootNodeInstance`. -/
def isRootNodeInstance (s : NodeInstanceServer) (inst : ServerNodeInstance) : Bool :=
  inst.isValid && decide (s.m_rootNodeInstance = inst)

mutual
/-- `NodeInstanceServer::nonInstanceChildIsDirty`. The result is `none` when
the function is entered with a null `graphicsObject` (a child that is not a
graphics object), where the source dereferences the null pointer. -/
def nonInstanceChildIsDirty (s : NodeInstanceServer) : QGraphicsItem → Option Bool
  | .mk object _ _ _ _ dirtyChildren _ childItems =>
    if object = 0 then none
    else if dirtyChildren then nonInstanceChildIsDirtyLoop s childItems
    else some false
/-- The `foreach` over `graphicsObject->childItems()` of
`nonInstanceChildIsDirty`, followed by the final `return false`. -/
def nonInstanceChildIsDirtyLoop (s : NodeInstanceServer) : List QGraphicsItem → Option Bool
  | [] => some false
  | child :: rest =>
    if s.hasInstanceForObject child.object then nonInstanceChildIsDirtyLoop s rest
    else if child.dirty || child.dirtyChildren then some true
    else
      match nonInstanceChildIsDirty s child with
      | none => none
      | some true => some true
      | some false => nonInstanceChildIsDirtyLoop s rest
end

/-- `NodeInstanceServer::resetAllItems`. -/
def resetAllItems (s : NodeInstanceServer) : NodeInstanceServer :=
  { s with m_declarativeView := s.m_declarativeView.map (fun v =>
      { v with processDirtyItemsEmitted := true,
               items := QGraphicsItem.resetDirtyItems v.items }) }

/-- The local variables of `findItemChangesAndSendChangeCommands`. The two
`QSet`s are kept in insertion order. -/
structure DetectionLocals where
  dirtyInstanceSet : List ServerNodeInstance
  informationChangedInstanceSet : List ServerNodeInstance
  propertyChangedList : List InstancePropertyPair
  adjustSceneRect : Bool
  deriving DecidableEq, Repr

/-- The locals as declared at the start of the pass. -/
def DetectionLocals.init : DetectionLocals := ⟨[], [], [], false⟩

/-- The body of the `foreach` over `m_declarativeView->items()`. -/
def scanItem (acc : NodeInstanceServer × DetectionLocals) (item : QGraphicsItem) :
    Option (NodeInstanceServer × DetectionLocals) :=
  let s := acc.1
  let l := acc.2
  if item.object ≠ 0 && s.hasInstanceForObject item.object then
    match s.instanceForObject item.object with
    | none => none
    | some inst =>
      let l1 := if item.dirtySceneTransform || item.geometryChanged || item.dirty then
          { l with informationChangedInstanceSet :=
              insertNew l.informationChangedInstanceSet inst }
        else l
      let childDirty : Option Bool :=
        if (item.dirty && item.notifyBoundingRectChanged)
            || (item.dirty && !item.dirtySceneTransform) then some true
        else nonInstanceChildIsDirty s item
      match childDirty with
      | none => none
      | some d =>
        let l2 := if d then { l1 with dirtyInstanceSet := insertNew l1.dirtyInstanceSet inst }
          else l1
        let s1 := if item.geometryChanged && s.isRootNodeInstance inst then
            s.setSceneRect item.boundingRect
          else s
        some (s1, l2)
  else some (s, l)

/-- The body of the `foreach` over `m_changedPropertyList`. -/
def scanChangedProperty (s : NodeInstanceServer) (l : DetectionLocals)
    (property : InstancePropertyPair) : DetectionLocals :=
  let inst := property.1
  let propertyName := property.2
  let l1 := if s.isRootNodeInstance inst && (propertyName = "width" || propertyName = "height")
    then { l with adjustSceneRect := true } else l
  let l2 := if containsString propertyName "anchors"
      && decide (inst ∈ l1.informationChangedInstanceSet) then
      { l1 with informationChangedInstanceSet :=
          insertNew l1.informationChangedInstanceSet inst }
    else l1
  let l3 := if propertyName = "width" || propertyName = "height" then
      { l2 with dirtyInstanceSet := insertNew l2.dirtyInstanceSet inst }
    else l2
  if propertyName = "parent" then
    { l3 with informationChangedInstanceSet := insertNew l3.informationChangedInstanceSet inst }
  else
    { l3 with propertyChangedList := l3.propertyChangedList ++ [property] }

/-- The part of `findItemChangesAndSendChangeCommands` that runs under
`if (m_declarativeView)`, for the view `view`. -/
def detectionPass (L : InstanceLayer) (s : NodeInstanceServer) (view : QDeclarativeView) :
    Option NodeInstanceServer :=
  match forEach scanItem (s, DetectionLocals.init) view.items with
  | none => none
  | some (s1, l1) =>
    let l := s1.m_changedPropertyList.foldl (scanChangedProperty s1) l1
    let s2 := { s1 with m_changedPropertyList := [] }
    let s3 := s2.resetAllItems
    let s4 := if !l.informationChangedInstanceSet.isEmpty then
        s3.send (.informationChanged
          (createAllInformationChangedCommand L l.informationChangedInstanceSet false))
      else s3
    let s5 := if !l.propertyChangedList.isEmpty then
        s4.send (.valuesChanged (createValuesChangedCommandForProperties L l.propertyChangedList))
      else s4
    let s6 := l.dirtyInstanceSet.foldl
      (fun st inst => st.send (.pixmapChanged (createPixmapChangedCommand inst))) s5
    let s7 := if l.adjustSceneRect then
        if (L.boundingRect s6.m_rootNodeInstance).isValid then
          s6.setSceneRect (L.boundingRect s6.m_rootNodeInstance)
        else s6
      else s6
    some (s7.slowDownRenderTimer.send .flush)

/-- `NodeInstanceServer::findItemChangesAndSendChangeCommands`. -/
def findItemChangesAndSendChangeCommands (L : InstanceLayer) (s : NodeInstanceServer) :
    Option NodeInstanceServer :=
  if !s.inFunction && decide (s.m_nodeInstanceClient.bytesToWrite < 100000) then
    let s1 := { s with inFunction := true }
    let s2 : Option NodeInstanceServer :=
      match s1.m_declarativeView with
      | some view => detectionPass L s1 view
      | none => some s1
    s2.map (fun st => { st with inFunction := false })
  else some s

/-- `NodeInstanceServer::timerEvent`, for an event with the timer id
`timerId`. The `timerEvent` of the base class does nothing to the server. -/
def timerEvent (L : InstanceLayer) (s : NodeInstanceServer) (timerId : Nat) :
    Option NodeInstanceServer :=
  if timerId = s.m_timer then s.findItemChangesAndSendChangeCommands L else some s

/-! ### The remaining commands -/

/-- `NodeInstanceServer::engine() != 0`. -/
def hasEngine (s : NodeInstanceServer) : Bool := s.m_declarativeView.isSome

/-- `engine()->setBaseUrl(url)`. -/
def setBaseUrl (s : NodeInstanceServer) (url : String) : NodeInstanceServer :=
  { s with m_declarativeView := s.m_declarativeView.map (fun v => { v with baseUrl := url }) }

/-- The view made by `new QDeclarativeView` in `createScene`, after
`processDirtyItemsEmitted` is set. -/
def newView : QDeclarativeView := ⟨[], ⟨0, 0, 0, 0⟩, [], true, "", [], []⟩

/-- `NodeInstanceServer::createScene`. -/
def createScene (s : NodeInstanceServer) : Option NodeInstanceServer :=
  if s.m_declarativeView.isSome then none
  else
    let s1 := { s with m_declarativeView := some newView }
    let s2 := if !s1.m_fileUrl.isEmpty then s1.setBaseUrl s1.m_fileUrl else s1
    some s2.startRenderTimer

/-- `NodeInstanceServer::changeFileUrl`, on `command.fileUrl()`. -/
def changeFileUrl (s : NodeInstanceServer) (fileUrl : String) : NodeInstanceServer :=
  let s1 := { s with m_fileUrl := fileUrl }
  let s2 := if s1.hasEngine then s1.setBaseUrl s1.m_fileUrl else s1
  s2.startRenderTimer

/-- `NodeInstanceServer::fileUrl`. -/
def fileUrl (s : NodeInstanceServer) : String := s.m_fileUrl

/-- The body of the `foreach` of `reparentInstances`. -/
def reparentInstance (s : NodeInstanceServer) (container : ReparentContainer) :
    Option NodeInstanceServer :=
  match s.instanceForId container.instanceId with
  | none => none
  | some inst =>
    if inst.isValid then
      match s.instanceForId container.oldParentInstanceId with
      | none => none
      | some oldParent =>
        match s.instanceForId container.newParentInstanceId with
        | none => none
        | some newParent =>
          some (s.call (.reparent inst oldParent container.oldParentProperty newParent
            container.newParentProperty))
    else some s

/-- `NodeInstanceServer::reparentInstances`, on `command.reparentInstances()`. -/
def reparentInstances (s : NodeInstanceServer) (containers : List ReparentContainer) :
    Option NodeInstanceServer :=
  (forEach reparentInstance s containers).map startRenderTimer

/-- Modelled from the spec: `ServerNodeInstance::activateState()`, not part of
the sources: "activate it as the Active State Instance", through
`setStateInstance`. -/
def activateState (s : NodeInstanceServer) (inst : ServerNodeInstance) : NodeInstanceServer :=
  (s.call (.activateState inst)).setStateInstance inst

/-- Modelled from the spec: `ServerNodeInstance::deactivateState()`, not part
of the sources: "deactivate it (revert state overrides) and clear the Active
State Instance", through `clearStateInstance`. -/
def deactivateState (s : NodeInstanceServer) (inst : ServerNodeInstance) : NodeInstanceServer :=
  (s.call (.deactivateState inst)).clearStateInstance

/-- `NodeInstanceServer::changeState`, on `command.stateInstanceId()`. -/
def changeState (s : NodeInstanceServer) (stateInstanceId : Int) : Option NodeInstanceServer :=
  let s1 : Option NodeInstanceServer :=
    if s.hasInstanceForId stateInstanceId then
      match s.instanceForId stateInstanceId with
      | none => none
      | some inst => some (s.activateState inst)
    else
      if s.activeStateInstance.isValid then some (s.deactivateState s.activeStateInstance)
      else some s
  s1.map startRenderTimer

/-- The `importStatement` built by `addImport`. -/
def importStatement (command : AddImportCommand) : String :=
  let s0 := "import "
  let s1 := if !command.fileName.isEmpty then s0 ++ ("\"" ++ command.fileName ++ "\"")
    else if !command.url.isEmpty then s0 ++ command.url
    else s0
  let s2 := if !command.version.isEmpty then s1 ++ (" " ++ command.version) else s1
  if !command.aliasName.isEmpty then s2 ++ (" as " ++ command.aliasName) else s2

/-- The body of the `foreach` over `command.importPaths()` of `addImport`:
`engine()->addImportPath` and `engine()->addPluginPath`. Without a view
`engine()` is the null pointer and the calls dereference it. -/
def addImportPath (s : NodeInstanceServer) (importPath : String) : Option NodeInstanceServer :=
  match s.m_declarativeView with
  | none => none
  | some v => some { s with m_declarativeView := some { v with
      importPaths := v.importPaths ++ [importPath],
      pluginPaths := v.pluginPaths ++ [importPath] } }

/-- `NodeInstanceServer::addImport`. The probe component is local to the call;
a failed probe is written to the debug stream, which is not part of the
server. -/
def addImport (L : InstanceLayer) (s : NodeInstanceServer) (command : AddImportCommand) :
    Option NodeInstanceServer :=
  let statement := importStatement command
  let s1 := { s with m_importList := s.m_importList ++ [statement] }
  let componentString := "import Qt 4.7\n" ++ statement ++ "\n Item\x7b\x7d\n"
  match forEach addImportPath s1 command.importPaths with
  | none => none
  | some s2 =>
    if !(L.importErrorString componentString).isEmpty then some s2 else some s2

/-- `NodeInstanceServer::imports`. -/
def imports (s : NodeInstanceServer) : List String := s.m_importList

/-- The body of the `foreach` of `changeIds`. -/
def changeId (s : NodeInstanceServer) (container : IdContainer) : Option NodeInstanceServer :=
  if s.hasInstanceForId container.instanceId then
    match s.instanceForId container.instanceId with
    | none => none
    | some inst => some (s.call (.setId inst container.id))
  else some s

/-- `NodeInstanceServer::changeIds`, on `command.ids()`. -/
def changeIds (s : NodeInstanceServer) (ids : List IdContainer) : Option NodeInstanceServer :=
  (forEach changeId s ids).map startRenderTimer

/-- `NodeInstanceServer::addFilePropertyToFileSystemWatcher`. -/
def addFilePropertyToFileSystemWatcher (s : NodeInstanceServer) (object : QObject)
    (propertyName path : String) : NodeInstanceServer :=
  { s with m_fileSystemWatcherHash := (path, (object, propertyName)) :: s.m_fileSystemWatcherHash }

/-- `NodeInstanceServer::removeFilePropertyFromFileSystemWatcher`. -/
def removeFilePropertyFromFileSystemWatcher (s : NodeInstanceServer) (object : QObject)
    (propertyName path : String) : NodeInstanceServer :=
  { s with m_fileSystemWatcherHash :=
      s.m_fileSystemWatcherHash.filter (fun e => !decide (e = (path, (object, propertyName)))) }

/-- The body of the `foreach` of `refreshLocalFileProperty`. -/
def refreshFileProperty (s : NodeInstanceServer) (objectPropertyPair : ObjectPropertyPair) :
    Option NodeInstanceServer :=
  if s.hasInstanceForObject objectPropertyPair.1 then
    match s.instanceForObject objectPropertyPair.1 with
    | none => none
    | some inst => some (s.call (.refreshProperty inst objectPropertyPair.2))
  else some s

/-- `NodeInstanceServer::refreshLocalFileProperty`. The loop runs over
`m_fileSystemWatcherHash.values()`. -/
def refreshLocalFileProperty (s : NodeInstanceServer) (path : String) :
    Option NodeInstanceServer :=
  if s.m_fileSystemWatcherHash.any (fun e => decide (e.1 = path)) then
    forEach refreshFileProperty s (s.m_fileSystemWatcherHash.map Prod.snd)
  else some s

end NodeInstanceServer

/-! ## Vocabulary of the stated properties -/

/-- One call on the registry, as issued by CreateInstances
(`insertInstanceRelationship`) and RemoveInstances
(`removeInstanceRelationsip`). -/
inductive RegistryOp where
  | insert (inst : ServerNodeInstance)
  | remove (instanceId : Int)
  deriving DecidableEq, Repr

/-- Runs one registry call. -/
def applyRegistryOp (s : NodeInstanceServer) : RegistryOp → Option NodeInstanceServer
  | .insert inst => s.insertInstanceRelationship inst
  | .remove instanceId => s.removeInstanceRelationsip instanceId

/-- Runs a sequence of registry calls; `none` when an insert precondition is
violated on the way. -/
def runRegistryOps (s : NodeInstanceServer) (ops : List RegistryOp) : Option NodeInstanceServer :=
  NodeInstanceServer.forEach applyRegistryOp s ops

/-- The id map and the object map are in bijection: same size, and id `i`
maps to an instance with object `o` exactly when `o` maps to an instance with
id `i`. -/
def RegistryBijective (s : NodeInstanceServer) : Prop :=
  s.m_idInstanceHash.size = s.m_objectInstanceHash.size ∧
  ∀ (i : Int) (o : QObject),
    (∃ inst, s.m_idInstanceHash.lookup i = some inst ∧ inst.internalObject = o) ↔
    (∃ inst, s.m_objectInstanceHash.lookup o = some inst ∧ inst.instanceId = i)

/-- The consistency of the registry that the registry calls maintain: each map
has one entry per key, an instance is stored under its own id and its own
object, it is stored in both maps or in neither, and the maps have the same
size. -/
structure RegistryConsistent (s : NodeInstanceServer) : Prop where
  idKeys : s.m_idInstanceHash.keys.Nodup
  objectKeys : s.m_objectInstanceHash.keys.Nodup
  idToObject : ∀ i inst, s.m_idInstanceHash.lookup i = some inst →
    inst.instanceId = i ∧ s.m_objectInstanceHash.lookup inst.internalObject = some inst
  objectToId : ∀ o inst, s.m_objectInstanceHash.lookup o = some inst →
    inst.internalObject = o ∧ s.m_idInstanceHash.lookup inst.instanceId = some inst
  sizeEq : s.m_idInstanceHash.size = s.m_objectInstanceHash.size

/-- One call that feeds the Changed-Property queue. -/
inductive QueueOp where
  | addChangedProperty (property : InstancePropertyPair)
  | notifyPropertyChange (instanceid : Int) (propertyName : String)
  | emitParentChanged (child : QObject)
  deriving DecidableEq, Repr

/-- Runs one queue call. -/
def applyQueueOp (s : NodeInstanceServer) : QueueOp → Option NodeInstanceServer
  | .addChangedProperty property => some (s.addChangedProperty property)
  | .notifyPropertyChange instanceid propertyName => s.notifyPropertyChange instanceid propertyName
  | .emitParentChanged child => s.emitParentChanged child

/-- Runs a sequence of queue calls. -/
def runQueueOps (s : NodeInstanceServer) (ops : List QueueOp) : Option NodeInstanceServer :=
  NodeInstanceServer.forEach applyQueueOp s ops


/-- The calls made on the instance layer between the server states `s` and
`s1`. -/
def newCalls (s s1 : NodeInstanceServer) : List InstanceCall :=
  s1.instanceCalls.drop s.instanceCalls.length

/-- The base write of a ChangePropertyValues entry on its target:
`setPropertyDynamicVariant` for a dynamic property, else `setPropertyVariant`. -/
def baseVariantCall (target : ServerNodeInstance) (c : PropertyValueContainer) : InstanceCall :=
  if c.isDynamic then .setPropertyDynamicVariant target c.name c.dynamicTypeName c.value
  else .setPropertyVariant target c.name c.value

/-- The base write of a ChangePropertyBindings entry on its target:
`setPropertyDynamicBinding` for a dynamic property, else `setPropertyBinding`. -/
def baseBindingCall (target : ServerNodeInstance) (c : PropertyBindingContainer) :
    InstanceCall :=
  if c.isDynamic then .setPropertyDynamicBinding target c.name c.dynamicTypeName c.expression
  else .setPropertyBinding target c.name c.expression

/-- The state-routing policy, on the calls `calls` that one operation made on
the instance layer. `attempt` is the routing decision, `reported` the result
of the state-scoped operation, `stateCall` and `baseCall` the two operations.
The state-scoped operation is attempted exactly when `attempt` holds; the base
operation is performed exactly when the state-scoped one was not attempted or
reported false; and the operation made no other call and never the base
operation before the state-scoped one. -/
def StateRouted (attempt reported : Bool) (stateCall baseCall : InstanceCall)
    (calls : List InstanceCall) : Prop :=
  (stateCall ∈ calls ↔ attempt = true) ∧
  (baseCall ∈ calls ↔ (attempt = false ∨ (attempt = true ∧ reported = false))) ∧
  (attempt = true → reported = true → baseCall ∉ calls) ∧
  (calls = [stateCall, baseCall] ∨ calls = [stateCall] ∨ calls = [baseCall])

/-- The calls of `setInstancePropertyVariant` for an entry whose target
`target` is registered, while `active` is the active state instance. -/
def routedVariantCalls (L : InstanceLayer) (active target : ServerNodeInstance)
    (c : PropertyValueContainer) : List InstanceCall :=
  if active.isValid && !L.isSubclassOf target "Qt/PropertyChanges" then
    if L.updateStateVariant active target c.name c.value then
      [.updateStateVariant active target c.name c.value]
    else [.updateStateVariant active target c.name c.value, baseVariantCall target c]
  else [baseVariantCall target c]

/-- The server when the outbound channel reports `backlog` pending bytes. -/
def withBacklog (s : NodeInstanceServer) (backlog : Int) : NodeInstanceServer :=
  { s with m_nodeInstanceClient := { s.m_nodeInstanceClient with bytesToWrite := backlog } }

/-- The first `foreach` of the detection pass: the scan of
`m_declarativeView->items()`, from the locals as declared. -/
def scanItems (s : NodeInstanceServer) (view : QDeclarativeView) :
    Option (NodeInstanceServer × NodeInstanceServer.DetectionLocals) :=
  NodeInstanceServer.forEach NodeInstanceServer.scanItem (s, NodeInstanceServer.DetectionLocals.init)
    view.items

/-- The locals of the detection pass after its two `foreach` loops (the scan
of the items, then the scan of `m_changedPropertyList`): the pixmap-changed
set `dirtyInstanceSet`, the information-changed set, the value-changed list
`propertyChangedList` and `adjustSceneRect`. -/
def detectionLocals (s : NodeInstanceServer) (view : QDeclarativeView) :
    Option NodeInstanceServer.DetectionLocals :=
  (scanItems s view).map (fun r =>
    r.1.m_changedPropertyList.foldl (NodeInstanceServer.scanChangedProperty r.1) r.2)

/-- The state in which the detection function runs the pass: the guard
`inFunction` is set. -/
def enterPass (s : NodeInstanceServer) : NodeInstanceServer := { s with inFunction := true }

/-- The state in which the detection function returns: the guard `inFunction`
is cleared. -/
def leavePass (s : NodeInstanceServer) : NodeInstanceServer := { s with inFunction := false }

mutual
/-- Every item of the tree is a graphics object (`toGraphicsObject()` is not
null). -/
def allGraphicsObjects : QGraphicsItem → Bool
  | .mk object _ _ _ _ _ _ childItems => !decide (object = 0) && allGraphicsObjectsList childItems
/-- Every item of every tree of the list is a graphics object. -/
def allGraphicsObjectsList : List QGraphicsItem → Bool
  | [] => true
  | item :: rest => allGraphicsObjects item && allGraphicsObjectsList rest
end

/-- The calls received by the client between the server states `s` and `s1`. -/
def newClientCalls (s s1 : NodeInstanceServer) : List ClientCall :=
  s1.m_nodeInstanceClient.calls.drop s.m_nodeInstanceClient.calls.length

/-- The outbound commands of a detection pass whose loops ended with the
locals `l`, in the order in which the pass sends them. -/
def emittedCommands (L : InstanceLayer) (l : NodeInstanceServer.DetectionLocals) :
    List ClientCall :=
  (if l.informationChangedInstanceSet.isEmpty then []
   else [ClientCall.informationChanged
     (NodeInstanceServer.createAllInformationChangedCommand L l.informationChangedInstanceSet
       false)])
  ++ (if l.propertyChangedList.isEmpty then []
      else [ClientCall.valuesChanged
        (NodeInstanceServer.createValuesChangedCommandForProperties L l.propertyChangedList)])
  ++ l.dirtyInstanceSet.map (fun inst =>
      ClientCall.pixmapChanged (NodeInstanceServer.createPixmapChangedCommand inst))

/-- The view at the end of a detection pass that started its second half with
the view `v`, the root instance `root` and the locals `l`: the dirty
bookkeeping is reset, and the scene rect is the bounding rect of the root
instance when `adjustSceneRect` is set and that rect is valid. -/
def viewAfterPass (L : InstanceLayer) (root : ServerNodeInstance)
    (l : NodeInstanceServer.DetectionLocals) (v : QDeclarativeView) : QDeclarativeView :=
  { v with
    processDirtyItemsEmitted := true,
    items := QGraphicsItem.resetDirtyItems v.items,
    sceneRect := if l.adjustSceneRect && (L.boundingRect root).isValid then L.boundingRect root
      else v.sceneRect }

/-- One operation of the server: an inbound command, a tick, a notification
from the instance layer or the file watcher, or a call of a public member
function by the instance layer. -/
inductive ServerOp where
  | createInstances (instances : List InstanceContainer)
  | changeFileUrl (fileUrl : String)
  | createScene
  | clearScene
  | removeInstances (instanceIds : List Int)
  | removeProperties (properties : List PropertyAbstractContainer)
  | reparentInstances (containers : List ReparentContainer)
  | changeState (stateInstanceId : Int)
  | addImport (command : AddImportCommand)
  | changePropertyValues (valueChanges : List PropertyValueContainer)
  | changePropertyBindings (bindingChanges : List PropertyBindingContainer)
  | changeIds (ids : List IdContainer)
  | timerEvent (timerId : Nat)
  | notifyPropertyChange (instanceid : Int) (propertyName : String)
  | emitParentChanged (child : QObject)
  | addChangedProperty (property : InstancePropertyPair)
  | refreshLocalFileProperty (path : String)
  | addFilePropertyToFileSystemWatcher (object : QObject) (propertyName path : String)
  | removeFilePropertyFromFileSystemWatcher (object : QObject) (propertyName path : String)
  | setStateInstance (stateInstance : ServerNodeInstance)
  | clearStateInstance
  deriving DecidableEq, Repr

/-- Runs one operation of the server. -/
def applyServerOp (L : InstanceLayer) (s : NodeInstanceServer) :
    ServerOp → Option NodeInstanceServer
  | .createInstances instances => s.createInstances L instances
  | .changeFileUrl fileUrl => some (s.changeFileUrl fileUrl)
  | .createScene => s.createScene
  | .clearScene => some s.clearScene
  | .removeInstances instanceIds => s.removeInstances instanceIds
  | .removeProperties properties => s.removeProperties L properties
  | .reparentInstances containers => s.reparentInstances containers
  | .changeState stateInstanceId => s.changeState stateInstanceId
  | .addImport command => s.addImport L command
  | .changePropertyValues valueChanges => s.changePropertyValues L valueChanges
  | .changePropertyBindings bindingChanges => s.changePropertyBindings L bindingChanges
  | .changeIds ids => s.changeIds ids
  | .timerEvent timerId => s.timerEvent L timerId
  | .notifyPropertyChange instanceid propertyName => s.notifyPropertyChange instanceid propertyName
  | .emitParentChanged child => s.emitParentChanged child
  | .addChangedProperty property => some (s.addChangedProperty property)
  | .refreshLocalFileProperty path => s.refreshLocalFileProperty path
  | .addFilePropertyToFileSystemWatcher object propertyName path =>
    some (s.addFilePropertyToFileSystemWatcher object propertyName path)
  | .removeFilePropertyFromFileSystemWatcher object propertyName path =>
    some (s.removeFilePropertyFromFileSystemWatcher object propertyName path)
  | .setStateInstance stateInstance => some (s.setStateInstance stateInstance)
  | .clearStateInstance => some s.clearStateInstance

/-- Runs a sequence of operations of the server; `none` when one of them
fails. -/
def runServerOps (L : InstanceLayer) (s : NodeInstanceServer) (ops : List ServerOp) :
    Option NodeInstanceServer :=
  NodeInstanceServer.forEach (applyServerOp L) s ops

/-- The import statement of an AddImport command in the words of the spec:
"import ", then the file name in double quotes if it is not empty, else the
URL text if it is not empty, else nothing; then " " and the version if the
version is not empty; then " as " and the alias if the alias is not empty. -/
def expectedImportStatement (command : AddImportCommand) : String :=
  "import "
    ++ (if !command.fileName.isEmpty then "\"" ++ command.fileName ++ "\""
        else if !command.url.isEmpty then command.url else "")
    ++ (if !command.version.isEmpty then " " ++ command.version else "")
    ++ (if !command.aliasName.isEmpty then " as " ++ command.aliasName else "")

/-- The one-level test in the words of the property: `g` has its
`dirtyChildren` flag set, and some direct child of `g` that has no registered
instance has its `dirty` flag or its `dirtyChildren` flag set. -/
def oneLevelDirtyTest (s : NodeInstanceServer) (g : QGraphicsItem) : Bool :=
  g.dirtyChildren &&
    g.childItems.any (fun c => !s.hasInstanceForObject c.object && (c.dirty || c.dirtyChildren))

/-- The kinds of which an information-changed command has an entry without
sub-key for every instance. -/
def plainInformationKinds : List InformationName :=
  [.Position, .Transform, .SceneTransform, .Size, .BoundingRect, .HasContent, .IsMovable,
   .IsResizable, .IsInPositioner, .PenWidth, .Parent, .IsAnchoredByChildren,
   .IsAnchoredBySibling]

/-- The number of entries that `createAllInformationChangedCommand` has for
one instance: 14 entries without sub-key, 9 HasAnchor and 9 Anchor entries,
in initial mode one entry per property name, and one entry per property whose
binding has changed. -/
def informationCount (L : InstanceLayer) (inst : ServerNodeInstance) ( initial : Bool) : Nat :=
  32 + (if initial then (L.propertyNames inst).length else 0)
    + ((L.propertyNames inst).filter (fun n => L.bindingHasChanged inst n)).length

/-- No dirty flag of the item is set: neither its scene transform nor its
geometry is flagged, and neither the item nor its children are flagged
dirty. -/
def noDirtyFlag (item : QGraphicsItem) : Bool :=
  !item.dirtySceneTransform && !item.geometryChanged && !item.dirty && !item.dirtyChildren

/-- The interval that goes with the cadence flag `m_slowRenderTimer`: 1000 ms
when it is set (slow), 16 ms when it is clear (fast). -/
def cadenceInterval (s : NodeInstanceServer) : Nat := if s.m_slowRenderTimer then 1000 else 16

/-- The interval at which the tick source is armed: the interval of the
running timer whose id is `m_timer`; `none` when `m_timer` is 0 or no such
timer runs. -/
def armedInterval (s : NodeInstanceServer) : Option Nat :=
  if s.m_timer = 0 then none
  else (s.timers.running.find? (fun p => decide (p.1 = s.m_timer))).map Prod.snd

/-- The render cadence state: the id of the tick source, the cadence flag and
the timers of the server object. -/
def timerState (s : NodeInstanceServer) : Nat × Bool × QTimers :=
  (s.m_timer, s.m_slowRenderTimer, s.timers)

/-- The cadence state is consistent: no timer runs while `m_timer` is 0, and
otherwise the only running timer is `m_timer`, at the interval of the cadence
flag. -/
def CadenceConsistent (s : NodeInstanceServer) : Prop :=
  s.timers.running = if s.m_timer = 0 then [] else [(s.m_timer, cadenceInterval s)]

/-- The commands that end with `startRenderTimer()`. -/
def ServerOp.armsFastCadence : ServerOp → Bool
  | .createInstances _ => true
  | .createScene => true
  | .changeFileUrl _ => true
  | .removeInstances _ => true
  | .removeProperties _ => true
  | .reparentInstances _ => true
  | .changeState _ => true
  | .changePropertyValues _ => true
  | .changePropertyBindings _ => true
  | .changeIds _ => true
  | _ => false

/-- A sample instance layer: an instance is created valid, with the id of its
container and a fresh object; instances with a negative id are state
definitions; the state layer overrides exactly the property `"x"`. -/
def sampleLayer : InstanceLayer where
  create := fun c => ⟨c.instanceId, (c.instanceId + 100).toNat, true⟩
  isGraphicsObject := fun _ => true
  isSubclassOf := fun i _ => decide (i.instanceId < 0)
  graphicsBoundingRect := fun _ => ⟨0, 0, 100, 100⟩
  boundingRect := fun _ => ⟨0, 0, 100, 100⟩
  propertyNames := fun _ => ["x", "width"]
  propertyIsBuiltin := fun _ _ => true
  bindingHasChanged := fun _ _ => false
  updateStateVariant := fun _ _ n _ => decide (n = "x")
  updateStateBinding := fun _ _ n _ => decide (n = "x")
  resetStateProperty := fun _ _ n => decide (n = "x")
  importErrorString := fun d => if containsString d "Missing" then "module not installed" else ""

/-- An empty view. -/
def sampleView : QDeclarativeView := ⟨[], ⟨0, 0, 0, 0⟩, [], false, "", [], []⟩

/-- The constructed server after `createScene`-like initialisation: a view is
present and the fast timer is armed. -/
def sampleScene : NodeInstanceServer :=
  { NodeInstanceServer.init with
    m_declarativeView := some sampleView, m_timer := 1, timers := ⟨[(1, 16)], 1⟩ }

/-- A server with the instances 0 (root), 1 and 2 registered, a queued change
and the instance 2 active as state. -/
def sampleServer : NodeInstanceServer :=
  { sampleScene with
    m_idInstanceHash := ⟨[(2, ⟨2, 102, true⟩), (1, ⟨1, 101, true⟩), (0, ⟨0, 100, true⟩)]⟩,
    m_objectInstanceHash :=
      ⟨[(102, ⟨2, 102, true⟩), (101, ⟨1, 101, true⟩), (100, ⟨0, 100, true⟩)]⟩,
    m_rootNodeInstance := ⟨0, 100, true⟩,
    m_activeStateInstance := ⟨2, 102, true⟩,
    m_changedPropertyList := [(⟨1, 101, true⟩, "width")],
    m_fileSystemWatcherHash := [("a.png", (101, "source"))],
    m_fileUrl := "file:///main.qml" }

/-- An item tree of graphics objects: the item of the root instance with a
registered child (object 101, dirty), an unregistered clean child (object
200) over a dirty grandchild, and an unregistered child with dirty children
(object 201). -/
def sampleItemTree : QGraphicsItem :=
  .mk 100 false false false false true ⟨0, 0, 100, 100⟩
    [ .mk 101 false false true false false ⟨0, 0, 10, 10⟩ [],
      .mk 200 false false false false false ⟨0, 0, 10, 10⟩
        [.mk 300 false false true false false ⟨0, 0, 5, 5⟩ []],
      .mk 201 false false false false true ⟨0, 0, 10, 10⟩ [] ]

/-- The sample server after the instance layer has also registered the
property `"source"` of the object 102 under the path `"b.png"`. -/
def sampleTwoWatchedFiles : NodeInstanceServer :=
  sampleServer.addFilePropertyToFileSystemWatcher 102 "source" "b.png"

/-- A view whose only item is the item of the instance 1 (object 101), dirty
while its scene transform is not dirty. -/
def sampleDirtyView : QDeclarativeView :=
  { sampleView with items := [.mk 101 false false true false false ⟨0, 0, 10, 10⟩ []] }

/-- The sample server with the view `sampleDirtyView`. -/
def sampleDirtyServer : NodeInstanceServer :=
  { sampleServer with m_declarativeView := some sampleDirtyView }

end QmlDesigner

/-! # Theorems -/

namespace QmlDesigner

/-! ## Facts about `QHash` -/

namespace QHash

variable {K V : Type} [DecidableEq K]

theorem lookupIn_filter (k k' : K) (l : List (K × V)) :
    lookupIn k (l.filter (fun p => !decide (p.1 = k'))) =
      if k = k' then none else lookupIn k l := by
  induction l with
  | nil => simp [lookupIn]
  | cons p rest ih =>
    obtain ⟨a, v⟩ := p
    by_cases h : a = k'
    · subst h
      by_cases hk : k = a
      · subst hk; simp [lookupIn, ih]
      · have hk' : ¬ a = k := fun e => hk e.symm
        simp [lookupIn, ih, hk, hk']
    · by_cases hk : k = k'
      · subst hk; simp [lookupIn, ih, h]
      · simp [lookupIn, ih, h, hk]

theorem lookup_remove (h : QHash K V) (k k' : K) :
    (h.remove k').lookup k = if k = k' then none else h.lookup k := by
  simp [lookup, remove, lookupIn_filter]

theorem lookup_insert (h : QHash K V) (k k' : K) (v : V) :
    (h.insert k' v).lookup k = if k = k' then some v else h.lookup k := by
  by_cases hk : k = k'
  · subst hk; simp [lookup, insert, lookupIn]
  · have hk' : ¬ k' = k := fun e => hk e.symm
    simp [lookup, insert, lookupIn, hk, hk', remove, lookupIn_filter]

theorem contains_iff (h : QHash K V) (k : K) :
    h.contains k = true ↔ ∃ v, h.lookup k = some v := by
  simp [contains, Option.isSome_iff_exists]

theorem contains_eq_false_iff (h : QHash K V) (k : K) :
    h.contains k = false ↔ h.lookup k = none := by
  simp [contains]

theorem value_of_lookup (h : QHash K V) (k : K) (v d : V) (hl : h.lookup k = some v) :
    h.value k d = v := by
  simp [value, hl]

theorem lookupIn_none_iff (k : K) (l : List (K × V)) :
    lookupIn k l = none ↔ k ∉ l.map Prod.fst := by
  induction l with
  | nil => simp [lookupIn]
  | cons p rest ih =>
    obtain ⟨a, v⟩ := p
    by_cases h : a = k
    · simp [lookupIn, h]
    · have h' : ¬ k = a := fun e => h e.symm
      simp [lookupIn, h, h', ih]

theorem filter_of_lookupIn_none (k : K) (l : List (K × V)) (hl : lookupIn k l = none) :
    l.filter (fun p => !decide (p.1 = k)) = l := by
  rw [lookupIn_none_iff] at hl
  rw [List.filter_eq_self]
  intro p hp
  have : p.1 ≠ k := fun e => hl (by rw [← e]; exact List.mem_map_of_mem _ hp)
  simpa using this

theorem remove_of_lookup_none (h : QHash K V) (k : K) (hl : h.lookup k = none) :
    h.remove k = h := by
  cases h with
  | mk entries => simp [remove, filter_of_lookupIn_none k entries hl]

theorem length_filter_of_lookupIn_some (k : K) (v : V) (l : List (K × V))
    (hn : (l.map Prod.fst).Nodup) (hl : lookupIn k l = some v) :
    (l.filter (fun p => !decide (p.1 = k))).length + 1 = l.length := by
  induction l with
  | nil => simp [lookupIn] at hl
  | cons p rest ih =>
    obtain ⟨a, w⟩ := p
    simp only [List.map_cons, List.nodup_cons] at hn
    by_cases h : a = k
    · subst h
      have hnone : lookupIn a rest = none := (lookupIn_none_iff a rest).2 hn.1
      simp [filter_of_lookupIn_none a rest hnone]
    · simp only [lookupIn, h, if_false] at hl
      have := ih hn.2 hl
      simp [h, this]

theorem size_remove_of_lookup_some (h : QHash K V) (k : K) (v : V) (hn : h.keys.Nodup)
    (hl : h.lookup k = some v) : (h.remove k).size + 1 = h.size := by
  simpa [size, remove] using length_filter_of_lookupIn_some k v h.entries hn hl

theorem size_insert_of_lookup_none (h : QHash K V) (k : K) (v : V)
    (hl : h.lookup k = none) : (h.insert k v).size = h.size + 1 := by
  simp [insert, size, remove_of_lookup_none h k hl]

theorem entries_insert_of_lookup_none (h : QHash K V) (k : K) (v : V)
    (hl : h.lookup k = none) : (h.insert k v).entries = (k, v) :: h.entries := by
  simp [insert, remove_of_lookup_none h k hl]

theorem keys_nodup_remove (h : QHash K V) (k : K) (hn : h.keys.Nodup) :
    (h.remove k).keys.Nodup := by
  unfold keys remove
  exact List.Nodup.sublist (List.Sublist.map _ (List.filter_sublist _)) hn

theorem keys_nodup_insert (h : QHash K V) (k : K) (v : V) (hn : h.keys.Nodup) :
    (h.insert k v).keys.Nodup := by
  have h1 := keys_nodup_remove h k hn
  have h2 : (h.remove k).lookup k = none := by simp [lookup_remove]
  have h3 : k ∉ (h.remove k).keys := (lookupIn_none_iff k _).1 h2
  simpa [insert, keys] using And.intro h3 h1

end QHash


/-! ## The registry -/

namespace NodeInstanceServer

theorem forEach_append {σ α : Type} (body : σ → α → Option σ) (s : σ) (xs ys : List α) :
    forEach body s (xs ++ ys) = (forEach body s xs).bind (fun s1 => forEach body s1 ys) := by
  induction xs generalizing s with
  | nil => simp [forEach]
  | cons x rest ih =>
    simp only [List.cons_append, forEach]
    cases body s x with
    | none => simp
    | some s1 => simpa using ih s1

theorem hasInstanceForId_iff (s : NodeInstanceServer) (id : Int) :
    s.hasInstanceForId id = true ↔ 0 ≤ id ∧ ∃ inst, s.m_idInstanceHash.lookup id = some inst := by
  unfold hasInstanceForId
  by_cases h : id < 0
  · simp [h]
  · simp [h, QHash.contains_iff, not_lt.1 h]

theorem instanceForId_of_lookup (s : NodeInstanceServer) (id : Int) (inst : ServerNodeInstance)
    (h0 : 0 ≤ id) (hl : s.m_idInstanceHash.lookup id = some inst) :
    s.instanceForId id = some inst := by
  have hc : s.m_idInstanceHash.contains id = true := (QHash.contains_iff _ _).2 ⟨inst, hl⟩
  simp [instanceForId, not_lt.2 h0, hc, QHash.value_of_lookup _ _ _ _ hl]

theorem removeInstanceRelationsip_registered (s : NodeInstanceServer) (id : Int)
    (inst : ServerNodeInstance) (h0 : 0 ≤ id) (hl : s.m_idInstanceHash.lookup id = some inst) :
    s.removeInstanceRelationsip id =
      some { s with
        m_idInstanceHash := s.m_idInstanceHash.remove id,
        m_objectInstanceHash := s.m_objectInstanceHash.remove inst.internalObject,
        instanceCalls := s.instanceCalls
          ++ (if inst.isValid then [InstanceCall.setId inst ""] else [])
          ++ [InstanceCall.makeInvalid inst] } := by
  have hh : s.hasInstanceForId id = true := (hasInstanceForId_iff s id).2 ⟨h0, inst, hl⟩
  unfold removeInstanceRelationsip
  rw [if_pos hh, instanceForId_of_lookup s id inst h0 hl]
  by_cases hv : inst.isValid = true <;> simp [hv, call]

theorem removeInstanceRelationsip_unregistered (s : NodeInstanceServer) (id : Int)
    (h : s.hasInstanceForId id = false) : s.removeInstanceRelationsip id = some s := by
  simp [removeInstanceRelationsip, h]

theorem insertInstanceRelationship_eq_some (s s1 : NodeInstanceServer)
    (inst : ServerNodeInstance) (h : s.insertInstanceRelationship inst = some s1) :
    inst.isValid = true ∧ s.m_idInstanceHash.lookup inst.instanceId = none ∧
    s.m_objectInstanceHash.lookup inst.internalObject = none ∧
    s1 = { s with
      m_objectInstanceHash := s.m_objectInstanceHash.insert inst.internalObject inst,
      m_idInstanceHash := s.m_idInstanceHash.insert inst.instanceId inst } := by
  unfold insertInstanceRelationship at h
  by_cases hv : inst.isValid = true
  · by_cases hi : s.m_idInstanceHash.contains inst.instanceId = true
    · simp [hv, hi] at h
    · by_cases ho : s.m_objectInstanceHash.contains inst.internalObject = true
      · simp [hv, hi, ho] at h
      · simp only [Bool.not_eq_true] at hi ho
        simp only [hv, hi, ho, Bool.not_true, Bool.false_eq_true, if_false,
          Option.some.injEq] at h
        exact ⟨hv, (QHash.contains_eq_false_iff _ _).1 hi,
          (QHash.contains_eq_false_iff _ _).1 ho, h.symm⟩
  · simp [hv] at h

theorem registryConsistent_init : RegistryConsistent init := by
  constructor <;> simp [init, QHash.empty, QHash.keys, QHash.lookup, QHash.lookupIn, QHash.size]

theorem registryConsistent_insert (s s1 : NodeInstanceServer) (inst : ServerNodeInstance)
    (hc : RegistryConsistent s) (h : s.insertInstanceRelationship inst = some s1) :
    RegistryConsistent s1 := by
  obtain ⟨_, hi, ho, rfl⟩ := insertInstanceRelationship_eq_some s s1 inst h
  refine ⟨QHash.keys_nodup_insert _ _ _ hc.idKeys, QHash.keys_nodup_insert _ _ _ hc.objectKeys,
    ?_, ?_, ?_⟩
  · intro i x hx
    simp only [QHash.lookup_insert] at hx ⊢
    by_cases hii : i = inst.instanceId
    · simp only [hii, if_true, Option.some.injEq] at hx
      subst hx
      simp [hii]
    · simp only [hii, if_false] at hx
      obtain ⟨h1, h2⟩ := hc.idToObject i x hx
      have hne : x.internalObject ≠ inst.internalObject := by
        intro e; rw [e, ho] at h2; cases h2
      simp [hne, h1, h2]
  · intro o x hx
    simp only [QHash.lookup_insert] at hx ⊢
    by_cases hoo : o = inst.internalObject
    · simp only [hoo, if_true, Option.some.injEq] at hx
      subst hx
      simp [hoo]
    · simp only [hoo, if_false] at hx
      obtain ⟨h1, h2⟩ := hc.objectToId o x hx
      have hne : x.instanceId ≠ inst.instanceId := by
        intro e; rw [e, hi] at h2; cases h2
      simp [hne, h1, h2]
  · simp [QHash.size_insert_of_lookup_none _ _ _ hi, QHash.size_insert_of_lookup_none _ _ _ ho,
      hc.sizeEq]

theorem registryConsistent_remove (s s1 : NodeInstanceServer) (id : Int)
    (hc : RegistryConsistent s) (h : s.removeInstanceRelationsip id = some s1) :
    RegistryConsistent s1 := by
  cases hh : s.hasInstanceForId id with
  | false =>
    rw [removeInstanceRelationsip_unregistered s id hh] at h
    cases h; exact hc
  | true =>
    obtain ⟨h0, inst, hl⟩ := (hasInstanceForId_iff s id).1 hh
    rw [removeInstanceRelationsip_registered s id inst h0 hl] at h
    cases h
    obtain ⟨hid, hobj⟩ := hc.idToObject id inst hl
    refine ⟨?_, ?_, ?_, ?_, ?_⟩
    · exact QHash.keys_nodup_remove _ id hc.idKeys
    · exact QHash.keys_nodup_remove _ inst.internalObject hc.objectKeys
    · intro i x hx
      simp only [QHash.lookup_remove] at hx ⊢
      by_cases hii : i = id
      · simp [hii] at hx
      · simp only [hii, if_false] at hx
        obtain ⟨h1, h2⟩ := hc.idToObject i x hx
        have hne : x.internalObject ≠ inst.internalObject := by
          intro e
          rw [e, hobj] at h2
          cases h2
          exact hii (h1.symm.trans hid)
        simp [hne, h1, h2]
    · intro o x hx
      simp only [QHash.lookup_remove] at hx ⊢
      by_cases hoo : o = inst.internalObject
      · simp [hoo] at hx
      · simp only [hoo, if_false] at hx
        obtain ⟨h1, h2⟩ := hc.objectToId o x hx
        have hne : x.instanceId ≠ id := by
          intro e
          rw [e, hl] at h2
          cases h2
          exact hoo h1.symm
        simp [hne, h1, h2]
    · have e1 := QHash.size_remove_of_lookup_some _ id inst hc.idKeys hl
      have e2 := QHash.size_remove_of_lookup_some _ inst.internalObject inst hc.objectKeys hobj
      have e3 := hc.sizeEq
      show (s.m_idInstanceHash.remove id).size =
        (s.m_objectInstanceHash.remove inst.internalObject).size
      omega

end NodeInstanceServer

theorem registryConsistent_run (ops : List RegistryOp) (s s1 : NodeInstanceServer)
    (hc : RegistryConsistent s) (h : runRegistryOps s ops = some s1) :
    RegistryConsistent s1 := by
  induction ops generalizing s with
  | nil =>
    simp only [runRegistryOps, NodeInstanceServer.forEach, Option.some.injEq] at h
    exact h ▸ hc
  | cons op rest ih =>
    simp only [runRegistryOps, NodeInstanceServer.forEach] at h
    cases hop : applyRegistryOp s op with
    | none => simp [hop] at h
    | some s2 =>
      simp only [hop] at h
      have hc2 : RegistryConsistent s2 := by
        cases op with
        | insert inst => exact NodeInstanceServer.registryConsistent_insert s s2 inst hc hop
        | remove id => exact NodeInstanceServer.registryConsistent_remove s s2 id hc hop
      exact ih s2 hc2 h

theorem registryBijective_of_consistent (s : NodeInstanceServer) (hc : RegistryConsistent s) :
    RegistryBijective s := by
  refine ⟨hc.sizeEq, fun i o => ⟨?_, ?_⟩⟩
  · rintro ⟨inst, hl, rfl⟩
    obtain ⟨h1, h2⟩ := hc.idToObject i inst hl
    exact ⟨inst, h2, h1⟩
  · rintro ⟨inst, hl, rfl⟩
    obtain ⟨h1, h2⟩ := hc.objectToId o inst hl
    exact ⟨inst, h2, h1⟩

/-- C1: for every sequence of `insertInstanceRelationship` /
`removeInstanceRelationsip` calls that starts from the empty registry of the
constructed server and hits no insert assertion, the registry is bijective at
every point of the sequence: after each prefix of the calls the id map and the
object map have the same size, and id `i` maps to an instance with object `o`
if and only if `o` maps to an instance with id `i`. -/
theorem registry_bijective_at_every_point (ops : List RegistryOp) (k : Nat)
    (h : (runRegistryOps NodeInstanceServer.init ops).isSome = true) :
    ∃ sk, runRegistryOps NodeInstanceServer.init (ops.take k) = some sk ∧
      RegistryBijective sk := by
  have hsplit : runRegistryOps NodeInstanceServer.init (ops.take k ++ ops.drop k) =
      (runRegistryOps NodeInstanceServer.init (ops.take k)).bind
        (fun s1 => runRegistryOps s1 (ops.drop k)) :=
    NodeInstanceServer.forEach_append _ _ _ _
  rw [List.take_append_drop] at hsplit
  cases hk : runRegistryOps NodeInstanceServer.init (ops.take k) with
  | none => rw [hsplit, hk] at h; simp at h
  | some sk =>
    exact ⟨sk, rfl, registryBijective_of_consistent sk
      (registryConsistent_run _ _ sk NodeInstanceServer.registryConsistent_init hk)⟩

/-- A witness for C1: two inserts followed by the removal of the first
instance. -/
theorem registry_bijective_at_every_point_witness :
    (runRegistryOps NodeInstanceServer.init
      [.insert ⟨0, 10, true⟩, .insert ⟨1, 11, true⟩, .remove 0]).isSome = true ∧
    ∃ sk, runRegistryOps NodeInstanceServer.init
        ([RegistryOp.insert ⟨0, 10, true⟩, .insert ⟨1, 11, true⟩, .remove 0].take 3) = some sk ∧
      RegistryBijective sk :=
  ⟨by decide, registry_bijective_at_every_point _ 3 (by decide)⟩


namespace NodeInstanceServer

theorem createInstance_idHash (L : InstanceLayer) (s s1 : NodeInstanceServer)
    (l l1 : List ServerNodeInstance) (c : InstanceContainer)
    (h : createInstance L (s, l) c = some (s1, l1)) :
    s1.m_idInstanceHash = s.m_idInstanceHash.insert (L.create c).instanceId (L.create c) := by
  unfold createInstance at h
  cases hi : s.insertInstanceRelationship (L.create c) with
  | none => simp [hi] at h
  | some s2 =>
    obtain ⟨_, _, _, rfl⟩ := insertInstanceRelationship_eq_some s s2 _ hi
    simp only [hi, Option.some.injEq, Prod.mk.injEq] at h
    rw [← h.1]
    by_cases h0 : c.instanceId = 0 <;> by_cases hg : L.isGraphicsObject (L.create c).internalObject = true <;>
      simp [h0, hg, call, addItem, setSceneRect]

theorem createInstance_rejects_registered_id (L : InstanceLayer) (s : NodeInstanceServer)
    (l : List ServerNodeInstance) (c : InstanceContainer)
    (h : s.m_idInstanceHash.contains (L.create c).instanceId = true) :
    createInstance L (s, l) c = none := by
  unfold createInstance
  have : s.insertInstanceRelationship (L.create c) = none := by
    unfold insertInstanceRelationship
    by_cases hv : (L.create c).isValid = true <;> simp [hv, h]
  simp [this]

theorem createInstances_loop_rejects (L : InstanceLayer) (instances : List InstanceContainer)
    (s : NodeInstanceServer) (l : List ServerNodeInstance) (c : InstanceContainer)
    (hc : c ∈ instances) (hid : (L.create c).instanceId = 0)
    (h0 : s.m_idInstanceHash.contains 0 = true) :
    forEach (createInstance L) (s, l) instances = none := by
  induction instances generalizing s l with
  | nil => simp at hc
  | cons d rest ih =>
    simp only [forEach]
    cases hd : createInstance L (s, l) d with
    | none => rfl
    | some r =>
      obtain ⟨s1, l1⟩ := r
      have hne : d ≠ c := by
        intro e
        subst e
        rw [createInstance_rejects_registered_id L s l d (by rw [hid]; exact h0)] at hd
        cases hd
      have hrest : c ∈ rest := by
        rcases List.mem_cons.1 hc with e | e
        · exact absurd e.symm hne
        · exact e
      have h1 : s1.m_idInstanceHash.contains 0 = true := by
        rw [createInstance_idHash L s s1 l l1 d hd]
        obtain ⟨v, hv⟩ := (QHash.contains_iff _ _).1 h0
        apply (QHash.contains_iff _ _).2
        rw [QHash.lookup_insert]
        by_cases e : (0 : Int) = (L.create d).instanceId
        · exact ⟨L.create d, by simp [e]⟩
        · exact ⟨v, by simp [e, hv]⟩
      exact ih s1 l1 hrest h1

end NodeInstanceServer

/-- C2: `insertInstanceRelationship` fails (assertion) if and only if the
instance is invalid, or its id is already a key of the id map, or its object
is already a key of the object map. Otherwise it returns a server in which
exactly the two mappings id -> instance and object -> instance were added:
each map is the old map with the one new entry, the new id and the new object
map to the instance, and every other id and object maps to what it mapped to
before. In particular `createInstances` fails on a command that has an entry
whose created instance has id 0 while id 0 is registered. -/
theorem insertInstanceRelationship_contract (L : InstanceLayer) (s : NodeInstanceServer)
    (inst : ServerNodeInstance) :
    (s.insertInstanceRelationship inst = none ↔
      (inst.isValid = false ∨ s.m_idInstanceHash.contains inst.instanceId = true ∨
        s.m_objectInstanceHash.contains inst.internalObject = true)) ∧
    ((s.insertInstanceRelationship inst).isSome = true →
      ∃ s1, s.insertInstanceRelationship inst = some s1 ∧
        s1.m_idInstanceHash.entries = (inst.instanceId, inst) :: s.m_idInstanceHash.entries ∧
        s1.m_objectInstanceHash.entries =
          (inst.internalObject, inst) :: s.m_objectInstanceHash.entries ∧
        s1.m_idInstanceHash.lookup inst.instanceId = some inst ∧
        s1.m_objectInstanceHash.lookup inst.internalObject = some inst ∧
        (∀ i, i ≠ inst.instanceId → s1.m_idInstanceHash.lookup i = s.m_idInstanceHash.lookup i) ∧
        (∀ o, o ≠ inst.internalObject →
          s1.m_objectInstanceHash.lookup o = s.m_objectInstanceHash.lookup o)) ∧
    (∀ (instances : List InstanceContainer) (c : InstanceContainer), c ∈ instances →
      c.instanceId = 0 → (L.create c).instanceId = c.instanceId →
      s.m_idInstanceHash.contains 0 = true → s.createInstances L instances = none) := by
  refine ⟨?_, ?_, ?_⟩
  · unfold NodeInstanceServer.insertInstanceRelationship
    by_cases hv : inst.isValid = true <;>
      by_cases hi : s.m_idInstanceHash.contains inst.instanceId = true <;>
      by_cases ho : s.m_objectInstanceHash.contains inst.internalObject = true <;>
      simp [hv, hi, ho]
  · intro hne
    cases hs : s.insertInstanceRelationship inst with
    | none => simp [hs] at hne
    | some s1 =>
      obtain ⟨_, hi, ho, rfl⟩ := NodeInstanceServer.insertInstanceRelationship_eq_some s s1 inst hs
      refine ⟨_, rfl, QHash.entries_insert_of_lookup_none _ _ _ hi,
        QHash.entries_insert_of_lookup_none _ _ _ ho, ?_, ?_, ?_, ?_⟩
      · simp [QHash.lookup_insert]
      · simp [QHash.lookup_insert]
      · intro i hii; simp [QHash.lookup_insert, hii]
      · intro o hoo; simp [QHash.lookup_insert, hoo]
  · intro instances c hc h0 hid hreg
    unfold NodeInstanceServer.createInstances
    by_cases hview : s.m_declarativeView.isNone = true
    · simp [hview]
    · simp [hview, NodeInstanceServer.createInstances_loop_rejects L instances s [] c hc
        (hid.trans h0) hreg]

/-- A witness for C2: on the sample server, inserting the unregistered instance
7 succeeds, and a CreateInstances command with an entry of id 0 is rejected
while the root instance is registered. -/
theorem insertInstanceRelationship_contract_witness :
    (sampleServer.insertInstanceRelationship ⟨7, 107, true⟩).isSome = true ∧
    (∃ s1, sampleServer.insertInstanceRelationship ⟨7, 107, true⟩ = some s1 ∧
        s1.m_idInstanceHash.entries =
          ((7 : Int), (⟨7, 107, true⟩ : ServerNodeInstance)) ::
            sampleServer.m_idInstanceHash.entries ∧
        s1.m_objectInstanceHash.entries =
          ((107 : QObject), (⟨7, 107, true⟩ : ServerNodeInstance)) ::
            sampleServer.m_objectInstanceHash.entries ∧
        s1.m_idInstanceHash.lookup 7 = some ⟨7, 107, true⟩ ∧
        s1.m_objectInstanceHash.lookup 107 = some ⟨7, 107, true⟩ ∧
        (∀ i, i ≠ (7 : Int) →
          s1.m_idInstanceHash.lookup i = sampleServer.m_idInstanceHash.lookup i) ∧
        (∀ o, o ≠ (107 : QObject) →
          s1.m_objectInstanceHash.lookup o = sampleServer.m_objectInstanceHash.lookup o)) ∧
    sampleServer.createInstances sampleLayer [⟨5, "Item"⟩, ⟨0, "Rectangle"⟩] = none :=
  ⟨by decide,
   (insertInstanceRelationship_contract sampleLayer sampleServer ⟨7, 107, true⟩).2.1 (by decide),
   (insertInstanceRelationship_contract sampleLayer sampleServer ⟨7, 107, true⟩).2.2
      [⟨5, "Item"⟩, ⟨0, "Rectangle"⟩] ⟨0, "Rectangle"⟩ (by decide) rfl rfl (by decide)⟩

/-- C3: `instanceForId` returns the invalid sentinel for every negative id,
the registered instance for every registered non-negative id, and fails
(assertion) for every non-negative id that is not registered;
`hasInstanceForId` is true exactly for the non-negative registered ids, and
`instanceForId` does not fail when `hasInstanceForId` holds. -/
theorem instanceForId_contract (s : NodeInstanceServer) (id : Int) :
    (id < 0 → s.instanceForId id = some ServerNodeInstance.invalid ∧
      ServerNodeInstance.invalid.isValid = false) ∧
    (∀ inst, 0 ≤ id → s.m_idInstanceHash.lookup id = some inst →
      s.instanceForId id = some inst) ∧
    (0 ≤ id → s.m_idInstanceHash.contains id = false → s.instanceForId id = none) ∧
    (s.hasInstanceForId id = true ↔ (0 ≤ id ∧ s.m_idInstanceHash.contains id = true)) ∧
    (s.hasInstanceForId id = true → ∃ inst, s.instanceForId id = some inst ∧
      s.m_idInstanceHash.lookup id = some inst) := by
  refine ⟨?_, ?_, ?_, ?_, ?_⟩
  · intro h
    simp [NodeInstanceServer.instanceForId, h, ServerNodeInstance.invalid]
  · intro inst h0 hl
    exact NodeInstanceServer.instanceForId_of_lookup s id inst h0 hl
  · intro h0 hc
    simp [NodeInstanceServer.instanceForId, not_lt.2 h0, hc]
  · rw [NodeInstanceServer.hasInstanceForId_iff, QHash.contains_iff]
  · intro hh
    obtain ⟨h0, inst, hl⟩ := (NodeInstanceServer.hasInstanceForId_iff s id).1 hh
    exact ⟨inst, NodeInstanceServer.instanceForId_of_lookup s id inst h0 hl, hl⟩

/-- A witness for C3 on the sample server: id -1 gives the sentinel, id 1 is
registered and found, id 9 is not registered and fails. -/
theorem instanceForId_contract_witness :
    (sampleServer.instanceForId (-1) = some ServerNodeInstance.invalid ∧
      ServerNodeInstance.invalid.isValid = false) ∧
    sampleServer.instanceForId 1 = some ⟨1, 101, true⟩ ∧
    sampleServer.instanceForId 9 = none ∧
    (∃ inst, sampleServer.instanceForId 1 = some inst ∧
      sampleServer.m_idInstanceHash.lookup 1 = some inst) :=
  ⟨(instanceForId_contract sampleServer (-1)).1 (by decide),
   (instanceForId_contract sampleServer 1).2.1 ⟨1, 101, true⟩ (by decide) (by decide),
   (instanceForId_contract sampleServer 9).2.2.1 (by decide) (by decide),
   (instanceForId_contract sampleServer 1).2.2.2.2 (by decide)⟩

/-- C4, counterexample: on the constructed server `instanceForObject` fails
(assertion) for the null object; it does not return the invalid sentinel. -/
theorem instanceForObject_null_fails :
    NodeInstanceServer.init.instanceForObject 0 = none ∧
    NodeInstanceServer.init.instanceForObject 0 ≠ some ServerNodeInstance.invalid ∧
    NodeInstanceServer.init.instanceForId (-1) = some ServerNodeInstance.invalid := by
  decide

/-- C4, amended: `instanceForObject` has no sentinel branch. It returns the
instance registered for the object when the object is a key of the object map
and fails (assertion) for every object that is not a key, the null object
included. `hasInstanceForObject` is false for the null object and otherwise
tells whether the object is a key, so `instanceForObject` does not fail when
`hasInstanceForObject` holds. -/
theorem instanceForObject_contract (s : NodeInstanceServer) (object : QObject) :
    (∀ inst, s.m_objectInstanceHash.lookup object = some inst →
      s.instanceForObject object = some inst) ∧
    (s.m_objectInstanceHash.contains object = false → s.instanceForObject object = none) ∧
    (s.hasInstanceForObject object = true ↔
      (object ≠ 0 ∧ s.m_objectInstanceHash.contains object = true)) ∧
    (s.hasInstanceForObject object = true → ∃ inst, s.instanceForObject object = some inst ∧
      s.m_objectInstanceHash.lookup object = some inst) := by
  have hsome : ∀ inst, s.m_objectInstanceHash.lookup object = some inst →
      s.instanceForObject object = some inst := by
    intro inst hl
    have hc : s.m_objectInstanceHash.contains object = true :=
      (QHash.contains_iff _ _).2 ⟨inst, hl⟩
    simp [NodeInstanceServer.instanceForObject, hc, QHash.value_of_lookup _ _ _ _ hl]
  have hhas : s.hasInstanceForObject object = true ↔
      (object ≠ 0 ∧ s.m_objectInstanceHash.contains object = true) := by
    unfold NodeInstanceServer.hasInstanceForObject
    by_cases h : object = 0 <;> simp [h]
  refine ⟨hsome, ?_, hhas, ?_⟩
  · intro hc
    simp [NodeInstanceServer.instanceForObject, hc]
  · intro hh
    obtain ⟨inst, hl⟩ := (QHash.contains_iff _ _).1 (hhas.1 hh).2
    exact ⟨inst, hsome inst hl, hl⟩

/-- A witness for the amended C4 on the sample server: object 101 is found,
object 55 is not registered and fails. -/
theorem instanceForObject_contract_witness :
    sampleServer.instanceForObject 101 = some ⟨1, 101, true⟩ ∧
    sampleServer.instanceForObject 55 = none ∧
    (∃ inst, sampleServer.instanceForObject 101 = some inst ∧
      sampleServer.m_objectInstanceHash.lookup 101 = some inst) :=
  ⟨(instanceForObject_contract sampleServer 101).1 ⟨1, 101, true⟩ (by decide),
   (instanceForObject_contract sampleServer 55).2.1 (by decide),
   (instanceForObject_contract sampleServer 101).2.2.2 (by decide)⟩

/-- C5: `removeInstanceRelationsip(id)` returns. If `id` is negative or not
registered, the whole server state is unchanged. If `id` is registered with
the instance `inst`, then afterwards `id` is absent from the id map and the
object of `inst` is absent from the object map, every other id and every
other object maps to what it mapped to before, and the queue, the root
instance, the active state instance and the timer are unchanged. -/
theorem removeInstanceRelationsip_contract (s : NodeInstanceServer) (id : Int) :
    ((id < 0 ∨ s.m_idInstanceHash.contains id = false) →
      s.removeInstanceRelationsip id = some s) ∧
    (∀ inst, 0 ≤ id → s.m_idInstanceHash.lookup id = some inst →
      ∃ s1, s.removeInstanceRelationsip id = some s1 ∧
        s1.m_idInstanceHash.contains id = false ∧
        s1.m_objectInstanceHash.contains inst.internalObject = false ∧
        (∀ i, i ≠ id → s1.m_idInstanceHash.lookup i = s.m_idInstanceHash.lookup i) ∧
        (∀ o, o ≠ inst.internalObject →
          s1.m_objectInstanceHash.lookup o = s.m_objectInstanceHash.lookup o) ∧
        s1.m_changedPropertyList = s.m_changedPropertyList ∧
        s1.m_rootNodeInstance = s.m_rootNodeInstance ∧
        s1.m_activeStateInstance = s.m_activeStateInstance ∧
        s1.m_timer = s.m_timer ∧ s1.m_slowRenderTimer = s.m_slowRenderTimer ∧
        s1.timers = s.timers) := by
  constructor
  · intro h
    apply NodeInstanceServer.removeInstanceRelationsip_unregistered
    unfold NodeInstanceServer.hasInstanceForId
    rcases h with h | h
    · simp [h]
    · simp [h]
  · intro inst h0 hl
    refine ⟨_, NodeInstanceServer.removeInstanceRelationsip_registered s id inst h0 hl,
      ?_, ?_, ?_, ?_, rfl, rfl, rfl, rfl, rfl, rfl⟩
    · simp [QHash.contains_eq_false_iff, QHash.lookup_remove]
    · simp [QHash.contains_eq_false_iff, QHash.lookup_remove]
    · intro i hi; simp [QHash.lookup_remove, hi]
    · intro o ho; simp [QHash.lookup_remove, ho]

/-- A witness for C5 on the sample server: removing the unregistered id 9
changes nothing, removing the registered id 1 removes id 1 and object 101. -/
theorem removeInstanceRelationsip_contract_witness :
    sampleServer.removeInstanceRelationsip 9 = some sampleServer ∧
    ∃ s1, sampleServer.removeInstanceRelationsip 1 = some s1 ∧
        s1.m_idInstanceHash.contains 1 = false ∧
        s1.m_objectInstanceHash.contains
          (⟨1, 101, true⟩ : ServerNodeInstance).internalObject = false ∧
        (∀ i, i ≠ (1 : Int) →
          s1.m_idInstanceHash.lookup i = sampleServer.m_idInstanceHash.lookup i) ∧
        (∀ o, o ≠ (⟨1, 101, true⟩ : ServerNodeInstance).internalObject →
          s1.m_objectInstanceHash.lookup o = sampleServer.m_objectInstanceHash.lookup o) ∧
        s1.m_changedPropertyList = sampleServer.m_changedPropertyList ∧
        s1.m_rootNodeInstance = sampleServer.m_rootNodeInstance ∧
        s1.m_activeStateInstance = sampleServer.m_activeStateInstance ∧
        s1.m_timer = sampleServer.m_timer ∧
        s1.m_slowRenderTimer = sampleServer.m_slowRenderTimer ∧
        s1.timers = sampleServer.timers :=
  ⟨(removeInstanceRelationsip_contract sampleServer 9).1 (Or.inr (by decide)),
   (removeInstanceRelationsip_contract sampleServer 1).2 ⟨1, 101, true⟩ (by decide)
     (by decide)⟩


/-! ## Clearing the scene -/

namespace NodeInstanceServer

theorem foldl_clearInstanceId_fields (l : List ServerNodeInstance) (s : NodeInstanceServer) :
    ∃ calls, l.foldl clearInstanceId s = { s with instanceCalls := calls } := by
  induction l generalizing s with
  | nil => exact ⟨s.instanceCalls, rfl⟩
  | cons a rest ih =>
    simp only [List.foldl_cons]
    by_cases hv : a.isValid = true
    · obtain ⟨calls, hc⟩ := ih (clearInstanceId s a)
      refine ⟨calls, ?_⟩
      rw [hc]; simp [clearInstanceId, hv, call]
    · obtain ⟨calls, hc⟩ := ih (clearInstanceId s a)
      refine ⟨calls, ?_⟩
      rw [hc]; simp [clearInstanceId, hv]

theorem foldl_disconnectInstance_fields (l : List ServerNodeInstance) (s : NodeInstanceServer) :
    ∃ calls, l.foldl disconnectInstance s = { s with instanceCalls := calls } := by
  induction l generalizing s with
  | nil => exact ⟨s.instanceCalls, rfl⟩
  | cons a rest ih =>
    simp only [List.foldl_cons]
    obtain ⟨calls, hc⟩ := ih (disconnectInstance s a)
    refine ⟨calls, ?_⟩
    rw [hc]
    by_cases ho : a.internalObject = 0 <;> simp [disconnectInstance, ho, call]

theorem removeAllInstanceRelationships_fields (s : NodeInstanceServer) :
    ∃ calls, s.removeAllInstanceRelationships =
      { s with m_idInstanceHash := QHash.empty, m_objectInstanceHash := QHash.empty,
               instanceCalls := calls } := by
  unfold removeAllInstanceRelationships
  obtain ⟨c1, h1⟩ := foldl_clearInstanceId_fields s.m_objectInstanceHash.values s
  simp only [h1]
  by_cases ho : s.m_rootNodeInstance.internalObject = 0
  · simp only [ho, ne_eq, not_true_eq_false, if_false, call]
    obtain ⟨c2, h2⟩ := foldl_disconnectInstance_fields s.m_objectInstanceHash.values
      { s with instanceCalls := c1 ++ [InstanceCall.makeInvalid s.m_rootNodeInstance] }
    exact ⟨c2, by rw [h2]⟩
  · simp only [ho, ne_eq, not_false_eq_true, if_true, call]
    obtain ⟨c2, h2⟩ := foldl_disconnectInstance_fields s.m_objectInstanceHash.values
      { s with instanceCalls := (c1 ++ [InstanceCall.disconnect s.m_rootNodeInstance.internalObject])
          ++ [InstanceCall.makeInvalid s.m_rootNodeInstance] }
    exact ⟨c2, by rw [h2]⟩

theorem clearScene_fields (s : NodeInstanceServer) :
    ∃ calls, s.clearScene =
      { s.stopRenderTimer with
        m_idInstanceHash := QHash.empty, m_objectInstanceHash := QHash.empty,
        m_fileSystemWatcherHash := [], m_changedPropertyList := [], m_fileUrl := "",
        m_rootNodeInstance := s.m_rootNodeInstance.makeInvalid,
        m_declarativeView := none, instanceCalls := calls } := by
  unfold clearScene
  obtain ⟨c1, h1⟩ := removeAllInstanceRelationships_fields s.stopRenderTimer
  simp only [h1, call]
  have hr : s.stopRenderTimer.m_rootNodeInstance = s.m_rootNodeInstance := by
    unfold stopRenderTimer; split <;> rfl
  exact ⟨_, by rw [hr]⟩

theorem detection_without_view (L : InstanceLayer) (s : NodeInstanceServer)
    (hv : s.m_declarativeView = none) :
    findItemChangesAndSendChangeCommands L s = some s := by
  unfold findItemChangesAndSendChangeCommands
  by_cases hc : (!s.inFunction && decide (s.m_nodeInstanceClient.bytesToWrite < 100000)) = true
  · have hin : s.inFunction = false := by
      cases h : s.inFunction <;> simp [h] at hc ⊢
    rw [if_pos hc]
    simp only [hv, Option.map_some']
    cases s
    simp_all
  · rw [if_neg hc]

end NodeInstanceServer

/-- C6: for every server state, after `clearScene` the id map and the object
map are empty, the Changed-Property queue is empty, the file-watch table is
empty, the file URL is empty, the view is gone and the tick source is not
armed (`m_timer` is 0 and the timer that was armed is not running any more);
and a detection call made in that state, for every instance layer, returns
the state unchanged, so it emits no outbound command. -/
theorem clearScene_empties_server (L : InstanceLayer) (s : NodeInstanceServer) :
    s.clearScene.m_idInstanceHash.size = 0 ∧
    s.clearScene.m_objectInstanceHash.size = 0 ∧
    s.clearScene.m_idInstanceHash = QHash.empty ∧
    s.clearScene.m_objectInstanceHash = QHash.empty ∧
    s.clearScene.m_changedPropertyList = [] ∧
    s.clearScene.m_fileSystemWatcherHash = [] ∧
    s.clearScene.m_fileUrl = "" ∧
    s.clearScene.m_declarativeView.isNone = true ∧
    s.clearScene.m_timer = 0 ∧
    (s.m_timer ≠ 0 → ∀ p ∈ s.clearScene.timers.running, p.1 ≠ s.m_timer) ∧
    s.clearScene.findItemChangesAndSendChangeCommands L = some s.clearScene ∧
    (∀ s1, s.clearScene.findItemChangesAndSendChangeCommands L = some s1 →
      s1.m_nodeInstanceClient.calls = s.clearScene.m_nodeInstanceClient.calls) := by
  obtain ⟨calls, hc⟩ := NodeInstanceServer.clearScene_fields s
  have hview : s.clearScene.m_declarativeView = none := by rw [hc]
  have hdet := NodeInstanceServer.detection_without_view L s.clearScene hview
  refine ⟨by rw [hc]; rfl, by rw [hc]; rfl, by rw [hc], by rw [hc], by rw [hc], by rw [hc],
    by rw [hc], by rw [hc]; rfl, ?_, ?_, hdet, ?_⟩
  · rw [hc]
    show s.stopRenderTimer.m_timer = 0
    unfold NodeInstanceServer.stopRenderTimer
    by_cases ht : s.m_timer = 0 <;> simp [ht]
  · intro ht p hp
    rw [hc] at hp
    have hp1 : p ∈ s.stopRenderTimer.timers.running := hp
    unfold NodeInstanceServer.stopRenderTimer at hp1
    simp only [ht, ne_eq, not_false_eq_true, if_true, QTimers.killTimer] at hp1
    simpa using (List.mem_filter.1 hp1).2
  · intro s1 h1
    rw [hdet] at h1
    cases h1
    rfl

/-- A witness for C6: the armed timer 1 of the sample server is not running
after `clearScene`. -/
theorem clearScene_empties_server_witness :
    sampleServer.m_timer ≠ 0 ∧
    (∀ p ∈ sampleServer.clearScene.timers.running, p.1 ≠ sampleServer.m_timer) ∧
    (sampleServer.clearScene.findItemChangesAndSendChangeCommands sampleLayer).isSome = true :=
  ⟨by decide,
   (clearScene_empties_server sampleLayer sampleServer).2.2.2.2.2.2.2.2.2.1 (by decide),
   by rw [(clearScene_empties_server sampleLayer sampleServer).2.2.2.2.2.2.2.2.2.2.1]; rfl⟩

/-! ## The Changed-Property queue -/

namespace NodeInstanceServer

theorem addChangedProperty_of_mem (s : NodeInstanceServer) (property : InstancePropertyPair)
    (h : property ∈ s.m_changedPropertyList) : s.addChangedProperty property = s := by
  simp [addChangedProperty, h]

theorem addChangedProperty_of_not_mem (s : NodeInstanceServer) (property : InstancePropertyPair)
    (h : property ∉ s.m_changedPropertyList) :
    s.addChangedProperty property =
      { s with m_changedPropertyList := s.m_changedPropertyList ++ [property] } := by
  simp [addChangedProperty, h]

theorem addChangedProperty_nodup (s : NodeInstanceServer) (property : InstancePropertyPair)
    (hn : s.m_changedPropertyList.Nodup) :
    (s.addChangedProperty property).m_changedPropertyList.Nodup := by
  by_cases h : property ∈ s.m_changedPropertyList
  · rw [addChangedProperty_of_mem s property h]; exact hn
  · rw [addChangedProperty_of_not_mem s property h]
    exact List.Nodup.append hn (List.nodup_singleton _) (by simpa using h)

theorem emitParentChanged_eq (s : NodeInstanceServer) (child : QObject) :
    s.emitParentChanged child = some s ∨
    ∃ inst, s.emitParentChanged child = some (s.addChangedProperty (inst, "parent")) := by
  unfold emitParentChanged
  by_cases hh : s.hasInstanceForObject child = true
  · have hc : s.m_objectInstanceHash.contains child = true := by
      unfold hasInstanceForObject at hh
      by_cases h0 : child = 0 <;> simp_all
    right
    refine ⟨s.m_objectInstanceHash.value child ServerNodeInstance.invalid, ?_⟩
    simp [hh, instanceForObject, hc]
  · left; simp [hh]

theorem notifyPropertyChange_eq (s : NodeInstanceServer) (id : Int) (name : String) :
    s.notifyPropertyChange id name = some s ∨
    ∃ inst, s.notifyPropertyChange id name = some (s.addChangedProperty (inst, name)) := by
  unfold notifyPropertyChange
  by_cases hh : s.hasInstanceForId id = true
  · obtain ⟨h0, inst, hl⟩ := (hasInstanceForId_iff s id).1 hh
    right
    exact ⟨inst, by simp [hh, instanceForId_of_lookup s id inst h0 hl]⟩
  · left; simp [hh]

end NodeInstanceServer

theorem applyQueueOp_nodup (s : NodeInstanceServer) (op : QueueOp)
    (hn : s.m_changedPropertyList.Nodup) :
    ∃ s1, applyQueueOp s op = some s1 ∧ s1.m_changedPropertyList.Nodup := by
  cases op with
  | addChangedProperty property =>
    exact ⟨_, rfl, NodeInstanceServer.addChangedProperty_nodup s property hn⟩
  | notifyPropertyChange id name =>
    rcases NodeInstanceServer.notifyPropertyChange_eq s id name with h | ⟨inst, h⟩
    · exact ⟨s, h, hn⟩
    · exact ⟨_, h, NodeInstanceServer.addChangedProperty_nodup s _ hn⟩
  | emitParentChanged child =>
    rcases NodeInstanceServer.emitParentChanged_eq s child with h | ⟨inst, h⟩
    · exact ⟨s, h, hn⟩
    · exact ⟨_, h, NodeInstanceServer.addChangedProperty_nodup s _ hn⟩

theorem runQueueOps_nodup (ops : List QueueOp) (s : NodeInstanceServer)
    (hn : s.m_changedPropertyList.Nodup) :
    ∃ s1, runQueueOps s ops = some s1 ∧ s1.m_changedPropertyList.Nodup := by
  induction ops generalizing s with
  | nil => exact ⟨s, rfl, hn⟩
  | cons op rest ih =>
    obtain ⟨s1, h1, hn1⟩ := applyQueueOp_nodup s op hn
    obtain ⟨s2, h2, hn2⟩ := ih s1 hn1
    refine ⟨s2, ?_, hn2⟩
    simp only [runQueueOps, NodeInstanceServer.forEach, h1]
    exact h2

/-- C8: the Changed-Property queue never contains the same (instance,
property-name) pair twice. Starting from any server whose queue is empty,
every sequence of `addChangedProperty` / `notifyPropertyChange` /
`emitParentChanged` calls returns, with a duplicate-free queue. Adding a pair
that is already in the queue leaves the server unchanged; adding a pair that
is not in the queue appends it at the end and keeps the earlier entries in
their order. -/
theorem changed_property_queue_no_duplicates (s : NodeInstanceServer) (ops : List QueueOp)
    (property : InstancePropertyPair) :
    (s.m_changedPropertyList = [] →
      ∃ s1, runQueueOps s ops = some s1 ∧ s1.m_changedPropertyList.Nodup) ∧
    (property ∈ s.m_changedPropertyList → s.addChangedProperty property = s) ∧
    (property ∉ s.m_changedPropertyList →
      (s.addChangedProperty property).m_changedPropertyList =
        s.m_changedPropertyList ++ [property]) := by
  refine ⟨?_, NodeInstanceServer.addChangedProperty_of_mem s property, ?_⟩
  · intro h0
    exact runQueueOps_nodup ops s (by rw [h0]; exact List.nodup_nil)
  · intro h
    rw [NodeInstanceServer.addChangedProperty_of_not_mem s property h]

/-- A witness for C8: on the sample server with its queue emptied, notifying
the same change twice and a parent change once gives a duplicate-free queue;
on the sample server the queued pair is not added again and a new pair is
appended. -/
theorem changed_property_queue_no_duplicates_witness :
    (∃ s1, runQueueOps { sampleServer with m_changedPropertyList := [] }
        [.notifyPropertyChange 1 "x", .notifyPropertyChange 1 "x", .emitParentChanged 101,
         .addChangedProperty (⟨1, 101, true⟩, "x")] = some s1 ∧
      s1.m_changedPropertyList.Nodup) ∧
    sampleServer.addChangedProperty (⟨1, 101, true⟩, "width") = sampleServer ∧
    (sampleServer.addChangedProperty (⟨1, 101, true⟩, "x")).m_changedPropertyList =
      sampleServer.m_changedPropertyList ++ [(⟨1, 101, true⟩, "x")] :=
  ⟨(changed_property_queue_no_duplicates { sampleServer with m_changedPropertyList := [] }
      _ (⟨1, 101, true⟩, "x")).1 rfl,
   (changed_property_queue_no_duplicates sampleServer [] (⟨1, 101, true⟩, "width")).2.1
      (by decide),
   (changed_property_queue_no_duplicates sampleServer [] (⟨1, 101, true⟩, "x")).2.2
      (by decide)⟩


/-! ## State routing -/

namespace NodeInstanceServer

theorem setInstancePropertyVariant_registered (L : InstanceLayer) (s : NodeInstanceServer)
    (c : PropertyValueContainer) (inst : ServerNodeInstance) (h0 : 0 ≤ c.instanceId)
    (hl : s.m_idInstanceHash.lookup c.instanceId = some inst) :
    s.setInstancePropertyVariant L c = some { s with
      instanceCalls := s.instanceCalls ++ routedVariantCalls L s.m_activeStateInstance inst c } := by
  have hh : s.hasInstanceForId c.instanceId = true :=
    (hasInstanceForId_iff s _).2 ⟨h0, inst, hl⟩
  unfold setInstancePropertyVariant
  rw [if_pos hh, instanceForId_of_lookup s _ inst h0 hl]
  simp only [activeStateInstance, routedVariantCalls, baseVariantCall, call]
  by_cases ha : (s.m_activeStateInstance.isValid && !L.isSubclassOf inst "Qt/PropertyChanges") = true
  · by_cases hr : L.updateStateVariant s.m_activeStateInstance inst c.name c.value = true
    · simp [ha, hr]
    · by_cases hd : c.isDynamic = true <;> simp [ha, hr, hd]
  · by_cases hd : c.isDynamic = true <;> simp [ha, hd]

theorem setInstancePropertyBinding_registered (L : InstanceLayer) (s : NodeInstanceServer)
    (c : PropertyBindingContainer) (inst : ServerNodeInstance) (h0 : 0 ≤ c.instanceId)
    (hl : s.m_idInstanceHash.lookup c.instanceId = some inst) :
    s.setInstancePropertyBinding L c = some { s with
      instanceCalls := s.instanceCalls ++
        (if s.m_activeStateInstance.isValid && !L.isSubclassOf inst "Qt/PropertyChanges" then
          if L.updateStateBinding s.m_activeStateInstance inst c.name c.expression then
            [InstanceCall.updateStateBinding s.m_activeStateInstance inst c.name c.expression]
          else [InstanceCall.updateStateBinding s.m_activeStateInstance inst c.name c.expression,
            baseBindingCall inst c]
        else [baseBindingCall inst c]) } := by
  have hh : s.hasInstanceForId c.instanceId = true :=
    (hasInstanceForId_iff s _).2 ⟨h0, inst, hl⟩
  unfold setInstancePropertyBinding
  rw [if_pos hh, instanceForId_of_lookup s _ inst h0 hl]
  simp only [activeStateInstance, baseBindingCall, call]
  by_cases ha : (s.m_activeStateInstance.isValid && !L.isSubclassOf inst "Qt/PropertyChanges") = true
  · by_cases hr : L.updateStateBinding s.m_activeStateInstance inst c.name c.expression = true
    · simp [ha, hr]
    · by_cases hd : c.isDynamic = true <;> simp [ha, hr, hd]
  · by_cases hd : c.isDynamic = true <;> simp [ha, hd]

theorem resetInstanceProperty_registered (L : InstanceLayer) (s : NodeInstanceServer)
    (c : PropertyAbstractContainer) (inst : ServerNodeInstance) (h0 : 0 ≤ c.instanceId)
    (hl : s.m_idInstanceHash.lookup c.instanceId = some inst) (hv : inst.isValid = true) :
    s.resetInstanceProperty L c = some { s with
      instanceCalls := s.instanceCalls ++
        (if s.m_activeStateInstance.isValid && !L.isSubclassOf inst "Qt/PropertyChanges" then
          if L.resetStateProperty s.m_activeStateInstance inst c.name then
            [InstanceCall.resetStateProperty s.m_activeStateInstance inst c.name]
          else [InstanceCall.resetStateProperty s.m_activeStateInstance inst c.name,
            InstanceCall.resetProperty inst c.name]
        else [InstanceCall.resetProperty inst c.name]) } := by
  have hh : s.hasInstanceForId c.instanceId = true :=
    (hasInstanceForId_iff s _).2 ⟨h0, inst, hl⟩
  unfold resetInstanceProperty
  rw [if_pos hh, instanceForId_of_lookup s _ inst h0 hl]
  simp only [activeStateInstance, call, hv]
  by_cases ha : (s.m_activeStateInstance.isValid && !L.isSubclassOf inst "Qt/PropertyChanges") = true
  · by_cases hr : L.resetStateProperty s.m_activeStateInstance inst c.name = true
    · simp [ha, hr]
    · simp [ha, hr]
  · simp [ha]

end NodeInstanceServer

theorem stateRouted_of_calls (attempt reported : Bool) (stateCall baseCall : InstanceCall)
    (hne : stateCall ≠ baseCall) :
    StateRouted attempt reported stateCall baseCall
      (if attempt then (if reported then [stateCall] else [stateCall, baseCall])
       else [baseCall]) := by
  have hne' : baseCall ≠ stateCall := fun e => hne e.symm
  cases attempt <;> cases reported <;> simp [StateRouted, hne, hne']

theorem baseVariantCall_ne (a t u : ServerNodeInstance) (n : String) (v : QVariant)
    (c : PropertyValueContainer) :
    InstanceCall.updateStateVariant a t n v ≠ baseVariantCall u c := by
  unfold baseVariantCall; split <;> simp

theorem baseBindingCall_ne (a t u : ServerNodeInstance) (n e : String)
    (c : PropertyBindingContainer) :
    InstanceCall.updateStateBinding a t n e ≠ baseBindingCall u c := by
  unfold baseBindingCall; split <;> simp

/-- C9: state routing is the same decision in `setInstancePropertyVariant`,
`setInstancePropertyBinding` and `resetInstanceProperty`. For a registered
target each of them returns, changes nothing but the calls made on the
instance layer, and those calls obey the routing policy with the decision
"the Active State Instance is valid and the target is not a subclass of
Qt/PropertyChanges": the state-scoped operation is attempted if and only if
the decision holds, the base operation is performed if and only if the
state-scoped one was not attempted or reported false, it is never performed
when the state layer reported true, and never before the state-scoped one.
(`resetInstanceProperty` asserts that the registered target is valid.) -/
theorem state_routing_policy (L : InstanceLayer) (s : NodeInstanceServer)
    (v : PropertyValueContainer) (b : PropertyBindingContainer)
    (r : PropertyAbstractContainer) (tv tb tr : ServerNodeInstance) :
    (0 ≤ v.instanceId → s.m_idInstanceHash.lookup v.instanceId = some tv →
      ∃ s1, s.setInstancePropertyVariant L v = some s1 ∧
        s1 = { s with instanceCalls := s.instanceCalls ++ newCalls s s1 } ∧
        StateRouted (s.activeStateInstance.isValid && !L.isSubclassOf tv "Qt/PropertyChanges")
          (L.updateStateVariant s.activeStateInstance tv v.name v.value)
          (.updateStateVariant s.activeStateInstance tv v.name v.value)
          (baseVariantCall tv v) (newCalls s s1)) ∧
    (0 ≤ b.instanceId → s.m_idInstanceHash.lookup b.instanceId = some tb →
      ∃ s1, s.setInstancePropertyBinding L b = some s1 ∧
        s1 = { s with instanceCalls := s.instanceCalls ++ newCalls s s1 } ∧
        StateRouted (s.activeStateInstance.isValid && !L.isSubclassOf tb "Qt/PropertyChanges")
          (L.updateStateBinding s.activeStateInstance tb b.name b.expression)
          (.updateStateBinding s.activeStateInstance tb b.name b.expression)
          (baseBindingCall tb b) (newCalls s s1)) ∧
    (0 ≤ r.instanceId → s.m_idInstanceHash.lookup r.instanceId = some tr →
      tr.isValid = true →
      ∃ s1, s.resetInstanceProperty L r = some s1 ∧
        s1 = { s with instanceCalls := s.instanceCalls ++ newCalls s s1 } ∧
        StateRouted (s.activeStateInstance.isValid && !L.isSubclassOf tr "Qt/PropertyChanges")
          (L.resetStateProperty s.activeStateInstance tr r.name)
          (.resetStateProperty s.activeStateInstance tr r.name)
          (.resetProperty tr r.name) (newCalls s s1)) := by
  refine ⟨?_, ?_, ?_⟩
  · intro h0 hl
    refine ⟨_, NodeInstanceServer.setInstancePropertyVariant_registered L s v tv h0 hl, ?_, ?_⟩
    · simp [newCalls]
    · have := stateRouted_of_calls
        (s.m_activeStateInstance.isValid && !L.isSubclassOf tv "Qt/PropertyChanges")
        (L.updateStateVariant s.m_activeStateInstance tv v.name v.value) _ _
        (baseVariantCall_ne s.m_activeStateInstance tv tv v.name v.value v)
      simpa [newCalls, routedVariantCalls, NodeInstanceServer.activeStateInstance] using this
  · intro h0 hl
    refine ⟨_, NodeInstanceServer.setInstancePropertyBinding_registered L s b tb h0 hl, ?_, ?_⟩
    · simp [newCalls]
    · have := stateRouted_of_calls
        (s.m_activeStateInstance.isValid && !L.isSubclassOf tb "Qt/PropertyChanges")
        (L.updateStateBinding s.m_activeStateInstance tb b.name b.expression) _ _
        (baseBindingCall_ne s.m_activeStateInstance tb tb b.name b.expression b)
      simpa [newCalls, NodeInstanceServer.activeStateInstance] using this
  · intro h0 hl hv
    refine ⟨_, NodeInstanceServer.resetInstanceProperty_registered L s r tr h0 hl hv, ?_, ?_⟩
    · simp [newCalls]
    · have := stateRouted_of_calls
        (s.m_activeStateInstance.isValid && !L.isSubclassOf tr "Qt/PropertyChanges")
        (L.resetStateProperty s.m_activeStateInstance tr r.name)
        (.resetStateProperty s.m_activeStateInstance tr r.name) (.resetProperty tr r.name)
        (by simp)
      simpa [newCalls, NodeInstanceServer.activeStateInstance] using this


/-- A witness for C9 on the sample server, whose active state instance 2 is
valid: for the target 1 the value "width" is not overridden by the state layer
(state-scoped call, then base call), the binding "x" and the reset of "x" are
(state-scoped call only). -/
theorem state_routing_policy_witness :
    (∃ s1, sampleServer.setInstancePropertyVariant sampleLayer ⟨1, "width", "50", ""⟩ = some s1 ∧
        s1 = { sampleServer with
          instanceCalls := sampleServer.instanceCalls ++ newCalls sampleServer s1 } ∧
        StateRouted (sampleServer.activeStateInstance.isValid &&
            !sampleLayer.isSubclassOf ⟨1, 101, true⟩ "Qt/PropertyChanges")
          (sampleLayer.updateStateVariant sampleServer.activeStateInstance ⟨1, 101, true⟩
            "width" "50")
          (.updateStateVariant sampleServer.activeStateInstance ⟨1, 101, true⟩ "width" "50")
          (baseVariantCall ⟨1, 101, true⟩ ⟨1, "width", "50", ""⟩) (newCalls sampleServer s1)) ∧
    (∃ s1, sampleServer.setInstancePropertyBinding sampleLayer ⟨1, "x", "parent.x", ""⟩ =
          some s1 ∧
        s1 = { sampleServer with
          instanceCalls := sampleServer.instanceCalls ++ newCalls sampleServer s1 } ∧
        StateRouted (sampleServer.activeStateInstance.isValid &&
            !sampleLayer.isSubclassOf ⟨1, 101, true⟩ "Qt/PropertyChanges")
          (sampleLayer.updateStateBinding sampleServer.activeStateInstance ⟨1, 101, true⟩
            "x" "parent.x")
          (.updateStateBinding sampleServer.activeStateInstance ⟨1, 101, true⟩ "x" "parent.x")
          (baseBindingCall ⟨1, 101, true⟩ ⟨1, "x", "parent.x", ""⟩)
          (newCalls sampleServer s1)) ∧
    (∃ s1, sampleServer.resetInstanceProperty sampleLayer ⟨1, "x"⟩ = some s1 ∧
        s1 = { sampleServer with
          instanceCalls := sampleServer.instanceCalls ++ newCalls sampleServer s1 } ∧
        StateRouted (sampleServer.activeStateInstance.isValid &&
            !sampleLayer.isSubclassOf ⟨1, 101, true⟩ "Qt/PropertyChanges")
          (sampleLayer.resetStateProperty sampleServer.activeStateInstance ⟨1, 101, true⟩ "x")
          (.resetStateProperty sampleServer.activeStateInstance ⟨1, 101, true⟩ "x")
          (.resetProperty ⟨1, 101, true⟩ "x") (newCalls sampleServer s1)) :=
  ⟨(state_routing_policy sampleLayer sampleServer ⟨1, "width", "50", ""⟩
      ⟨1, "x", "parent.x", ""⟩ ⟨1, "x"⟩ ⟨1, 101, true⟩ ⟨1, 101, true⟩ ⟨1, 101, true⟩).1
      (by decide) (by decide),
   (state_routing_policy sampleLayer sampleServer ⟨1, "width", "50", ""⟩
      ⟨1, "x", "parent.x", ""⟩ ⟨1, "x"⟩ ⟨1, 101, true⟩ ⟨1, 101, true⟩ ⟨1, 101, true⟩).2.1
      (by decide) (by decide),
   (state_routing_policy sampleLayer sampleServer ⟨1, "width", "50", ""⟩
      ⟨1, "x", "parent.x", ""⟩ ⟨1, "x"⟩ ⟨1, 101, true⟩ ⟨1, 101, true⟩ ⟨1, 101, true⟩).2.2
      (by decide) (by decide) rfl⟩

namespace NodeInstanceServer

theorem startRenderTimer_instanceCalls (s : NodeInstanceServer) :
    s.startRenderTimer.instanceCalls = s.instanceCalls := by
  unfold startRenderTimer stopRenderTimer
  by_cases h1 : s.m_slowRenderTimer = true <;> by_cases h2 : s.m_timer = 0 <;> simp [h1, h2]

theorem forEach_setInstancePropertyVariant (L : InstanceLayer)
    (valueChanges : List PropertyValueContainer) (s : NodeInstanceServer)
    (hreg : ∀ c ∈ valueChanges,
      0 ≤ c.instanceId ∧ ∃ inst, s.m_idInstanceHash.lookup c.instanceId = some inst) :
    forEach (setInstancePropertyVariant L) s valueChanges = some { s with
      instanceCalls := s.instanceCalls ++ valueChanges.flatMap (fun c =>
        routedVariantCalls L s.m_activeStateInstance
          (s.m_idInstanceHash.value c.instanceId ServerNodeInstance.invalid) c) } := by
  induction valueChanges generalizing s with
  | nil => simp [forEach]
  | cons c rest ih =>
    obtain ⟨h0, inst, hl⟩ := hreg c (List.mem_cons_self _ _)
    simp only [forEach, setInstancePropertyVariant_registered L s c inst h0 hl]
    refine (ih { s with instanceCalls :=
        s.instanceCalls ++ routedVariantCalls L s.m_activeStateInstance inst c }
      (fun d hd => hreg d (List.mem_cons_of_mem _ hd))).trans ?_
    simp [QHash.value_of_lookup _ _ _ _ hl]

end NodeInstanceServer

/-- C10, counterexample: on the sample server the Active State Instance is
valid and the target 1 is not a state-definition object, yet the
ChangePropertyValues entry for "width" performs the base write
`setPropertyVariant` on the target, after the state-scoped write reported
false. -/
theorem changePropertyValues_base_write_performed :
    sampleServer.activeStateInstance.isValid = true ∧
    sampleLayer.isSubclassOf ⟨1, 101, true⟩ "Qt/PropertyChanges" = false ∧
    sampleServer.m_idInstanceHash.lookup 1 = some ⟨1, 101, true⟩ ∧
    ((sampleServer.changePropertyValues sampleLayer [⟨1, "width", "50", ""⟩]).map
        (newCalls sampleServer)) =
      some [.updateStateVariant ⟨2, 102, true⟩ ⟨1, 101, true⟩ "width" "50",
            .setPropertyVariant ⟨1, 101, true⟩ "width" "50"] := by
  decide

/-- C10, amended: for every ChangePropertyValues command applied while the
Active State Instance is valid and whose entries all target registered
instances that are not state-definition objects, the command returns and for
every entry the state-scoped write `updateStateVariant` is made; the base
write on the target is not made when the state layer reports that it updated
the value, and when it reports false the base write is made directly after
the state-scoped write. -/
theorem changePropertyValues_state_first (L : InstanceLayer) (s : NodeInstanceServer)
    (valueChanges : List PropertyValueContainer)
    (hactive : s.activeStateInstance.isValid = true)
    (hreg : ∀ c ∈ valueChanges, 0 ≤ c.instanceId ∧
      ∃ inst, s.m_idInstanceHash.lookup c.instanceId = some inst ∧
        L.isSubclassOf inst "Qt/PropertyChanges" = false) :
    ∃ s1, s.changePropertyValues L valueChanges = some s1 ∧
      ∀ c ∈ valueChanges, ∀ target, s.m_idInstanceHash.lookup c.instanceId = some target →
        InstanceCall.updateStateVariant s.activeStateInstance target c.name c.value
          ∈ newCalls s s1 ∧
        (L.updateStateVariant s.activeStateInstance target c.name c.value = true →
          baseVariantCall target c ∉ newCalls s s1) ∧
        (L.updateStateVariant s.activeStateInstance target c.name c.value = false →
          ∃ pre post, newCalls s s1 =
            pre ++ InstanceCall.updateStateVariant s.activeStateInstance target c.name c.value
              :: baseVariantCall target c :: post) := by
  have hreg' : ∀ c ∈ valueChanges,
      0 ≤ c.instanceId ∧ ∃ inst, s.m_idInstanceHash.lookup c.instanceId = some inst :=
    fun c hc => ⟨(hreg c hc).1, (hreg c hc).2.elim fun i hi => ⟨i, hi.1⟩⟩
  have hrun := NodeInstanceServer.forEach_setInstancePropertyVariant L valueChanges s hreg'
  refine ⟨_, by rw [NodeInstanceServer.changePropertyValues, hrun]; rfl, ?_⟩
  have hnew : ∀ st : NodeInstanceServer, ∀ calls, st.instanceCalls = s.instanceCalls ++ calls →
      newCalls s st.startRenderTimer = calls := by
    intro st calls h
    simp [newCalls, NodeInstanceServer.startRenderTimer_instanceCalls, h]
  rw [hnew _ _ rfl]
  have hroute : ∀ d ∈ valueChanges,
      routedVariantCalls L s.m_activeStateInstance
        (s.m_idInstanceHash.value d.instanceId ServerNodeInstance.invalid) d =
      (if L.updateStateVariant s.m_activeStateInstance
          (s.m_idInstanceHash.value d.instanceId ServerNodeInstance.invalid) d.name d.value then
        [InstanceCall.updateStateVariant s.m_activeStateInstance
          (s.m_idInstanceHash.value d.instanceId ServerNodeInstance.invalid) d.name d.value]
       else [InstanceCall.updateStateVariant s.m_activeStateInstance
          (s.m_idInstanceHash.value d.instanceId ServerNodeInstance.invalid) d.name d.value,
          baseVariantCall (s.m_idInstanceHash.value d.instanceId ServerNodeInstance.invalid) d]) := by
    intro d hd
    obtain ⟨_, inst, hl, hsub⟩ := hreg d hd
    have ha : s.m_activeStateInstance.isValid = true := hactive
    simp [routedVariantCalls, QHash.value_of_lookup _ _ _ _ hl, hsub, ha]
  intro c hc target hl
  have hval : s.m_idInstanceHash.value c.instanceId ServerNodeInstance.invalid = target :=
    QHash.value_of_lookup _ _ _ _ hl
  have hrc := hroute c hc
  rw [hval] at hrc
  simp only [NodeInstanceServer.activeStateInstance]
  refine ⟨?_, ?_, ?_⟩
  · refine List.mem_flatMap.2 ⟨c, hc, ?_⟩
    rw [hval, hrc]
    split <;> simp
  · intro hrep hmem
    obtain ⟨d, hd, hmemd⟩ := List.mem_flatMap.1 hmem
    rw [hroute d hd] at hmemd
    by_cases hrd : L.updateStateVariant s.m_activeStateInstance
        (s.m_idInstanceHash.value d.instanceId ServerNodeInstance.invalid) d.name d.value = true
    · simp only [hrd, if_true, List.mem_singleton] at hmemd
      exact baseVariantCall_ne _ _ _ _ _ _ hmemd.symm
    · simp only [hrd, Bool.false_eq_true, if_false, List.mem_cons, List.mem_singleton,
        List.not_mem_nil, or_false] at hmemd
      rcases hmemd with e | e
      · exact baseVariantCall_ne _ _ _ _ _ _ e.symm
      · apply hrd
        unfold baseVariantCall at e
        by_cases h1 : c.isDynamic = true <;> by_cases h2 : d.isDynamic = true <;>
          simp [h1, h2] at e
        · obtain ⟨e1, e2, _, e4⟩ := e
          rw [← e1, ← e2, ← e4]; exact hrep
        · obtain ⟨e1, e2, e4⟩ := e
          rw [← e1, ← e2, ← e4]; exact hrep
  · intro hrep
    obtain ⟨l1, l2, hsplit⟩ := List.append_of_mem hc
    refine ⟨l1.flatMap (fun c => routedVariantCalls L s.m_activeStateInstance
        (s.m_idInstanceHash.value c.instanceId ServerNodeInstance.invalid) c),
      l2.flatMap (fun c => routedVariantCalls L s.m_activeStateInstance
        (s.m_idInstanceHash.value c.instanceId ServerNodeInstance.invalid) c), ?_⟩
    rw [hsplit, List.flatMap_append, List.flatMap_cons, hval, hrc]
    simp [hrep]

/-- A witness for the amended C10 on the sample server: a command that sets
"x" (overridden by the state layer) and "width" (not overridden) on the
target 1. -/
theorem changePropertyValues_state_first_witness :
    sampleServer.activeStateInstance.isValid = true ∧
    ∃ s1, sampleServer.changePropertyValues sampleLayer
        [⟨1, "x", "7", ""⟩, ⟨1, "width", "50", ""⟩] = some s1 ∧
      ∀ c ∈ [(⟨1, "x", "7", ""⟩ : PropertyValueContainer), ⟨1, "width", "50", ""⟩],
        ∀ target, sampleServer.m_idInstanceHash.lookup c.instanceId = some target →
        InstanceCall.updateStateVariant sampleServer.activeStateInstance target c.name c.value
          ∈ newCalls sampleServer s1 ∧
        (sampleLayer.updateStateVariant sampleServer.activeStateInstance target c.name c.value
            = true →
          baseVariantCall target c ∉ newCalls sampleServer s1) ∧
        (sampleLayer.updateStateVariant sampleServer.activeStateInstance target c.name c.value
            = false →
          ∃ pre post, newCalls sampleServer s1 =
            pre ++ InstanceCall.updateStateVariant sampleServer.activeStateInstance target
              c.name c.value :: baseVariantCall target c :: post) :=
  ⟨by decide,
   changePropertyValues_state_first sampleLayer sampleServer
     [⟨1, "x", "7", ""⟩, ⟨1, "width", "50", ""⟩] (by decide)
     (by
      intro c hc
      simp only [List.mem_cons, List.mem_singleton, List.not_mem_nil, or_false] at hc
      rcases hc with rfl | rfl
      · exact ⟨by decide, ⟨1, 101, true⟩, by decide, by decide⟩
      · exact ⟨by decide, ⟨1, 101, true⟩, by decide, by decide⟩)⟩


/-! ## The detection pass -/

theorem mem_insertNew {α : Type} [DecidableEq α] (l : List α) (a x : α) :
    x ∈ insertNew l a ↔ x ∈ l ∨ x = a := by
  unfold insertNew
  by_cases h : a ∈ l
  · simp only [h, if_true]
    constructor
    · exact Or.inl
    · rintro (h1 | h1)
      · exact h1
      · exact h1 ▸ h
  · simp [h]

namespace NodeInstanceServer

theorem foldl_send (f : ServerNodeInstance → ClientCall) (l : List ServerNodeInstance)
    (s : NodeInstanceServer) :
    l.foldl (fun st inst => st.send (f inst)) s =
      { s with m_nodeInstanceClient :=
          { s.m_nodeInstanceClient with calls := s.m_nodeInstanceClient.calls ++ l.map f } } := by
  induction l generalizing s with
  | nil => simp
  | cons a rest ih =>
    simp only [List.foldl_cons, List.map_cons]
    rw [ih]
    simp [send]

theorem scanItem_frame (s s1 : NodeInstanceServer) (l l1 : DetectionLocals)
    (item : QGraphicsItem) (h : scanItem (s, l) item = some (s1, l1)) :
    (s1 = s ∨ ∃ rect, s1 = s.setSceneRect rect) ∧
    l1.propertyChangedList = l.propertyChangedList ∧
    l1.adjustSceneRect = l.adjustSceneRect := by
  unfold scanItem at h
  simp only at h
  split at h
  · split at h
    · cases h
    · split at h
      · cases h
      · simp only [Option.some.injEq, Prod.mk.injEq] at h
        obtain ⟨h1, h2⟩ := h
        subst h1 h2
        refine ⟨?_, ?_, ?_⟩
        · split
          · exact Or.inr ⟨_, rfl⟩
          · exact Or.inl rfl
        · split <;> split <;> rfl
        · split <;> split <;> rfl
  · simp only [Option.some.injEq, Prod.mk.injEq] at h
    obtain ⟨h1, h2⟩ := h
    subst h1 h2
    exact ⟨Or.inl rfl, rfl, rfl⟩

/-- The fields that the scan of the items leaves alone: everything but the
view. -/
theorem forEach_scanItem_frame (items : List QGraphicsItem) (s s1 : NodeInstanceServer)
    (l l1 : DetectionLocals) (h : forEach scanItem (s, l) items = some (s1, l1)) :
    (∃ v, s1 = { s with m_declarativeView := v }) ∧
    l1.propertyChangedList = l.propertyChangedList ∧
    l1.adjustSceneRect = l.adjustSceneRect := by
  induction items generalizing s l with
  | nil =>
    simp only [forEach, Option.some.injEq, Prod.mk.injEq] at h
    obtain ⟨h1, h2⟩ := h
    subst h1 h2
    exact ⟨⟨s.m_declarativeView, rfl⟩, rfl, rfl⟩
  | cons item rest ih =>
    simp only [forEach] at h
    cases hi : scanItem (s, l) item with
    | none => simp [hi] at h
    | some r =>
      obtain ⟨s2, l2⟩ := r
      simp only [hi] at h
      obtain ⟨hs, hp, ha⟩ := scanItem_frame s s2 l l2 item hi
      obtain ⟨⟨v, hv⟩, hp1, ha1⟩ := ih s2 l2 h
      refine ⟨⟨v, ?_⟩, hp1.trans hp, ha1.trans ha⟩
      rcases hs with rfl | ⟨rect, rfl⟩
      · exact hv
      · rw [hv]; rfl

theorem scanChangedProperty_propertyChangedList (s : NodeInstanceServer) (l : DetectionLocals)
    (p : InstancePropertyPair) :
    (scanChangedProperty s l p).propertyChangedList =
      if p.2 = "parent" then l.propertyChangedList else l.propertyChangedList ++ [p] := by
  unfold scanChangedProperty
  simp only
  split <;> split <;> split <;> split <;> rfl

theorem scanChangedProperty_adjustSceneRect (s : NodeInstanceServer) (l : DetectionLocals)
    (p : InstancePropertyPair) :
    (scanChangedProperty s l p).adjustSceneRect =
      (l.adjustSceneRect ||
        (s.isRootNodeInstance p.1 && (decide (p.2 = "width") || decide (p.2 = "height")))) := by
  unfold scanChangedProperty
  simp only
  by_cases hr : (s.isRootNodeInstance p.1 && (decide (p.2 = "width") || decide (p.2 = "height")))
      = true
  · rw [if_pos hr, hr]
    split <;> split <;> split <;> simp
  · rw [if_neg hr]
    simp only [Bool.not_eq_true] at hr
    rw [hr]
    split <;> split <;> split <;> simp

theorem scanChangedProperty_information (s : NodeInstanceServer) (l : DetectionLocals)
    (p : InstancePropertyPair) (x : ServerNodeInstance) :
    x ∈ (scanChangedProperty s l p).informationChangedInstanceSet ↔
      (x ∈ l.informationChangedInstanceSet ∨ (p.2 = "parent" ∧ x = p.1)) := by
  unfold scanChangedProperty
  simp only
  by_cases hp : p.2 = "parent"
  · rw [if_pos hp]
    simp only [mem_insertNew]
    split <;> split <;> split <;> simp [mem_insertNew, hp]
  · rw [if_neg hp]
    split <;> split <;> split <;> simp_all [mem_insertNew]

theorem scanChangedProperty_dirty (s : NodeInstanceServer) (l : DetectionLocals)
    (p : InstancePropertyPair) (x : ServerNodeInstance) :
    x ∈ (scanChangedProperty s l p).dirtyInstanceSet ↔
      (x ∈ l.dirtyInstanceSet ∨ ((p.2 = "width" ∨ p.2 = "height") ∧ x = p.1)) := by
  unfold scanChangedProperty
  simp only
  by_cases hw : (decide (p.2 = "width") || decide (p.2 = "height")) = true
  · have hw' : p.2 = "width" ∨ p.2 = "height" := by simpa using hw
    rw [if_pos hw]
    split <;> split <;> split <;> simp [mem_insertNew, hw']
  · have hw' : ¬ (p.2 = "width" ∨ p.2 = "height") := by simpa using hw
    rw [if_neg hw]
    split <;> split <;> split <;> simp [hw']

/-- What the scan of the Changed-Property queue computes, from the locals `l`:
the value-changed list gets the queue without its "parent" entries, the
information-changed set the instances with a queued "parent" change, the
pixmap-changed set the instances with a queued "width" or "height" change. -/
theorem foldl_scanChangedProperty (s : NodeInstanceServer) (queue : List InstancePropertyPair)
    (l : DetectionLocals) :
    (queue.foldl (scanChangedProperty s) l).propertyChangedList =
      l.propertyChangedList ++ queue.filter (fun p => !decide (p.2 = "parent")) ∧
    (∀ x, x ∈ (queue.foldl (scanChangedProperty s) l).informationChangedInstanceSet ↔
      (x ∈ l.informationChangedInstanceSet ∨ (x, "parent") ∈ queue)) ∧
    (∀ x, x ∈ (queue.foldl (scanChangedProperty s) l).dirtyInstanceSet ↔
      (x ∈ l.dirtyInstanceSet ∨ (x, "width") ∈ queue ∨ (x, "height") ∈ queue)) ∧
    (queue.foldl (scanChangedProperty s) l).adjustSceneRect =
      (l.adjustSceneRect || queue.any (fun p =>
        s.isRootNodeInstance p.1 && (decide (p.2 = "width") || decide (p.2 = "height")))) := by
  induction queue generalizing l with
  | nil => simp
  | cons p rest ih =>
    obtain ⟨h1, h2, h3, h4⟩ := ih (scanChangedProperty s l p)
    simp only [List.foldl_cons]
    refine ⟨?_, ?_, ?_, ?_⟩
    · rw [h1, scanChangedProperty_propertyChangedList]
      by_cases hp : p.2 = "parent" <;> simp [hp]
    · intro x
      rw [h2, scanChangedProperty_information]
      obtain ⟨a, n⟩ := p
      simp only [List.mem_cons, Prod.mk.injEq]
      constructor
      · rintro ((h | ⟨hn, hx⟩) | h)
        · exact Or.inl h
        · exact Or.inr (Or.inl ⟨hx, hn.symm⟩)
        · exact Or.inr (Or.inr h)
      · rintro (h | ⟨hx, hn⟩ | h)
        · exact Or.inl (Or.inl h)
        · exact Or.inl (Or.inr ⟨hn.symm, hx⟩)
        · exact Or.inr h
    · intro x
      rw [h3, scanChangedProperty_dirty]
      obtain ⟨a, n⟩ := p
      simp only [List.mem_cons, Prod.mk.injEq]
      constructor
      · rintro ((h | ⟨hn | hn, hx⟩) | h | h)
        · exact Or.inl h
        · exact Or.inr (Or.inl (Or.inl ⟨hx, hn.symm⟩))
        · exact Or.inr (Or.inr (Or.inl ⟨hx, hn.symm⟩))
        · exact Or.inr (Or.inl (Or.inr h))
        · exact Or.inr (Or.inr (Or.inr h))
      · rintro (h | (⟨hx, hn⟩ | h) | (⟨hx, hn⟩ | h))
        · exact Or.inl (Or.inl h)
        · exact Or.inl (Or.inr ⟨Or.inl hn.symm, hx⟩)
        · exact Or.inr (Or.inl h)
        · exact Or.inl (Or.inr ⟨Or.inr hn.symm, hx⟩)
        · exact Or.inr (Or.inr h)
    · rw [h4, scanChangedProperty_adjustSceneRect]
      simp [Bool.or_assoc]

end NodeInstanceServer


namespace NodeInstanceServer

/-- The detection pass, given the result of its scan of the items. -/
theorem detectionPass_of_scan (L : InstanceLayer) (s s1 : NodeInstanceServer)
    (view : QDeclarativeView) (l1 : DetectionLocals)
    (hscan : scanItems s view = some (s1, l1)) :
    detectionPass L s view = some
      (({ s1 with
          m_changedPropertyList := [],
          m_declarativeView := s1.m_declarativeView.map (viewAfterPass L s1.m_rootNodeInstance
            (s1.m_changedPropertyList.foldl (scanChangedProperty s1) l1)),
          m_nodeInstanceClient := { s1.m_nodeInstanceClient with
            calls := s1.m_nodeInstanceClient.calls ++
              emittedCommands L (s1.m_changedPropertyList.foldl (scanChangedProperty s1) l1) } } :
        NodeInstanceServer).slowDownRenderTimer.send .flush) := by
  unfold scanItems at hscan
  unfold detectionPass
  simp only [hscan]
  generalize s1.m_changedPropertyList.foldl (scanChangedProperty s1) l1 = l
  congr 2
  simp only [foldl_send]
  cases hv : s1.m_declarativeView <;>
    by_cases h1 : l.informationChangedInstanceSet.isEmpty = true <;>
    by_cases h2 : l.propertyChangedList.isEmpty = true <;>
    by_cases h3 : l.adjustSceneRect = true <;>
    by_cases h4 : (L.boundingRect s1.m_rootNodeInstance).isValid = true <;>
    simp [h1, h2, h3, h4, hv, resetAllItems, send, setSceneRect, emittedCommands, viewAfterPass]

theorem detection_with_view (L : InstanceLayer) (s : NodeInstanceServer) (v : QDeclarativeView)
    (hin : s.inFunction = false) (hb : s.m_nodeInstanceClient.bytesToWrite < 100000)
    (hv : s.m_declarativeView = some v) :
    s.findItemChangesAndSendChangeCommands L = (detectionPass L (enterPass s) v).map leavePass := by
  unfold findItemChangesAndSendChangeCommands
  have hc : (!s.inFunction && decide (s.m_nodeInstanceClient.bytesToWrite < 100000)) = true := by
    simp [hin, hb]
  rw [if_pos hc]
  show (match s.m_declarativeView with
    | some view => detectionPass L (enterPass s) view
    | none => some (enterPass s)).map leavePass = _
  rw [hv]

theorem detection_deferred (L : InstanceLayer) (s : NodeInstanceServer)
    (hb : 100000 ≤ s.m_nodeInstanceClient.bytesToWrite) :
    s.findItemChangesAndSendChangeCommands L = some s := by
  unfold findItemChangesAndSendChangeCommands
  have : ¬ s.m_nodeInstanceClient.bytesToWrite < 100000 := not_lt.2 hb
  simp [this]

mutual
theorem nonInstanceChildIsDirty_isSome (s : NodeInstanceServer) :
    ∀ item : QGraphicsItem, allGraphicsObjects item = true →
      (nonInstanceChildIsDirty s item).isSome = true
  | .mk object _ _ _ _ dirtyChildren _ childItems, h => by
    simp only [allGraphicsObjects, Bool.and_eq_true, Bool.not_eq_true', decide_eq_false_iff_not] at h
    simp only [nonInstanceChildIsDirty, h.1, if_false]
    cases dirtyChildren
    · simp
    · simpa using nonInstanceChildIsDirtyLoop_isSome s childItems h.2
theorem nonInstanceChildIsDirtyLoop_isSome (s : NodeInstanceServer) :
    ∀ items : List QGraphicsItem, allGraphicsObjectsList items = true →
      (nonInstanceChildIsDirtyLoop s items).isSome = true
  | [], _ => by simp [nonInstanceChildIsDirtyLoop]
  | child :: rest, h => by
    simp only [allGraphicsObjectsList, Bool.and_eq_true] at h
    have h1 := nonInstanceChildIsDirty_isSome s child h.1
    have h2 := nonInstanceChildIsDirtyLoop_isSome s rest h.2
    simp only [nonInstanceChildIsDirtyLoop]
    split
    · exact h2
    · split
      · rfl
      · cases hc : nonInstanceChildIsDirty s child with
        | none => simp [hc] at h1
        | some b => cases b <;> simp [h2]
end

theorem scanItem_isSome (s : NodeInstanceServer) (l : DetectionLocals) (item : QGraphicsItem)
    (h : allGraphicsObjects item = true) : (scanItem (s, l) item).isSome = true := by
  unfold scanItem
  simp only
  split
  · rename_i hcond
    have hreg : s.hasInstanceForObject item.object = true := by
      simp only [Bool.and_eq_true] at hcond
      exact hcond.2
    have hc : s.m_objectInstanceHash.contains item.object = true := by
      unfold hasInstanceForObject at hreg
      by_cases h0 : item.object = 0 <;> simp_all
    simp only [instanceForObject, hc, if_true]
    split
    · rename_i heq
      split at heq
      · cases heq
      · have hsome := nonInstanceChildIsDirty_isSome s item h
        rw [heq] at hsome
        cases hsome
    · rfl
  · rfl

theorem forEach_scanItem_isSome (items : List QGraphicsItem) (s : NodeInstanceServer)
    (l : DetectionLocals) (h : allGraphicsObjectsList items = true) :
    (forEach scanItem (s, l) items).isSome = true := by
  induction items generalizing s l with
  | nil => rfl
  | cons item rest ih =>
    simp only [allGraphicsObjectsList, Bool.and_eq_true] at h
    simp only [forEach]
    cases hi : scanItem (s, l) item with
    | none =>
      have hsome := scanItem_isSome s l item h.1
      rw [hi] at hsome
      cases hsome
    | some r => exact ih r.1 r.2 h.2

end NodeInstanceServer

/-- The scan of the items returns when every item is a graphics object. -/
theorem scanItems_isSome (s : NodeInstanceServer) (view : QDeclarativeView)
    (h : allGraphicsObjectsList view.items = true) : (scanItems s view).isSome = true :=
  NodeInstanceServer.forEach_scanItem_isSome view.items s _ h

/-- The locals of a pass, from the result of the scan of the items. -/
theorem detectionLocals_of_scan (s s1 : NodeInstanceServer) (view : QDeclarativeView)
    (l1 : NodeInstanceServer.DetectionLocals) (hscan : scanItems s view = some (s1, l1)) :
    detectionLocals s view =
      some (s.m_changedPropertyList.foldl (NodeInstanceServer.scanChangedProperty s1) l1) ∧
    (∃ v, s1 = { s with m_declarativeView := v }) ∧
    l1.propertyChangedList = [] ∧ l1.adjustSceneRect = false := by
  obtain ⟨⟨v, hv⟩, hp, ha⟩ := NodeInstanceServer.forEach_scanItem_frame _ _ _ _ _ hscan
  refine ⟨?_, ⟨v, hv⟩, hp, ha⟩
  unfold detectionLocals
  rw [hscan]
  simp only [Option.map_some']
  rw [hv]

/-- A detection pass returns exactly when its scan of the items returns, and
then its locals are defined. -/
theorem detectionPass_some_iff (L : InstanceLayer) (s : NodeInstanceServer)
    (view : QDeclarativeView) :
    ((NodeInstanceServer.detectionPass L s view).isSome = (scanItems s view).isSome) ∧
    ((detectionLocals s view).isSome = (scanItems s view).isSome) := by
  refine ⟨?_, ?_⟩
  · cases hscan : scanItems s view with
    | none =>
      unfold scanItems at hscan
      simp [NodeInstanceServer.detectionPass, hscan]
    | some r =>
      obtain ⟨s1, l1⟩ := r
      rw [NodeInstanceServer.detectionPass_of_scan L s s1 view l1 hscan]
      rfl
  · unfold detectionLocals
    cases scanItems s view <;> rfl


/-! ## Backpressure -/

theorem detectionLocals_value_changed (s : NodeInstanceServer) (view : QDeclarativeView)
    (l : NodeInstanceServer.DetectionLocals) (h : detectionLocals s view = some l) :
    l.propertyChangedList = s.m_changedPropertyList.filter (fun p => !decide (p.2 = "parent")) := by
  cases hscan : scanItems s view with
  | none => simp [detectionLocals, hscan] at h
  | some r =>
    obtain ⟨s1, l1⟩ := r
    obtain ⟨hl, _, hp, _⟩ := detectionLocals_of_scan s s1 view l1 hscan
    rw [hl] at h
    cases h
    rw [(NodeInstanceServer.foldl_scanChangedProperty s1 s.m_changedPropertyList l1).1, hp]
    rfl

theorem detectionLocals_information (s : NodeInstanceServer) (view : QDeclarativeView)
    (l : NodeInstanceServer.DetectionLocals) (h : detectionLocals s view = some l)
    (inst : ServerNodeInstance) (hq : (inst, "parent") ∈ s.m_changedPropertyList) :
    inst ∈ l.informationChangedInstanceSet := by
  cases hscan : scanItems s view with
  | none => simp [detectionLocals, hscan] at h
  | some r =>
    obtain ⟨s1, l1⟩ := r
    obtain ⟨hl, _, _, _⟩ := detectionLocals_of_scan s s1 view l1 hscan
    rw [hl] at h
    cases h
    exact ((NodeInstanceServer.foldl_scanChangedProperty s1 s.m_changedPropertyList l1).2.1
      inst).2 (Or.inr hq)

theorem detectionLocals_dirty (s : NodeInstanceServer) (view : QDeclarativeView)
    (l : NodeInstanceServer.DetectionLocals) (h : detectionLocals s view = some l)
    (inst : ServerNodeInstance)
    (hq : (inst, "width") ∈ s.m_changedPropertyList ∨ (inst, "height") ∈ s.m_changedPropertyList) :
    inst ∈ l.dirtyInstanceSet := by
  cases hscan : scanItems s view with
  | none => simp [detectionLocals, hscan] at h
  | some r =>
    obtain ⟨s1, l1⟩ := r
    obtain ⟨hl, _, _, _⟩ := detectionLocals_of_scan s s1 view l1 hscan
    rw [hl] at h
    cases h
    exact ((NodeInstanceServer.foldl_scanChangedProperty s1 s.m_changedPropertyList l1).2.2.1
      inst).2 (Or.inr hq)

/-- C11: backpressure defers and never drops. For every server state whose
outbound channel reports 100,000 or more pending bytes, a tick (for every
timer id) and the detection function return the state unchanged: no outbound
command is emitted and the Changed-Property queue, the registry and the
cadence state are as before. Hence when the backlog later is below the
threshold, the tick of the armed timer runs the detection pass on the queue
as it was: every queued pair that is not a "parent" change is in the
value-changed list of that pass, and every instance with a queued "parent"
change is in its information-changed set. -/
theorem backpressure_defers (L : InstanceLayer) (s : NodeInstanceServer) (timerId : Nat)
    (hb : 100000 ≤ s.m_nodeInstanceClient.bytesToWrite) :
    s.timerEvent L timerId = some s ∧
    s.findItemChangesAndSendChangeCommands L = some s ∧
    (∀ (backlog : Int) (v : QDeclarativeView), backlog < 100000 → s.inFunction = false →
      s.m_declarativeView = some v →
      (withBacklog s backlog).timerEvent L s.m_timer =
        (NodeInstanceServer.detectionPass L (enterPass (withBacklog s backlog)) v).map leavePass ∧
      ∀ l, detectionLocals (enterPass (withBacklog s backlog)) v = some l →
        (∀ p ∈ s.m_changedPropertyList, p.2 ≠ "parent" → p ∈ l.propertyChangedList) ∧
        (∀ inst, (inst, "parent") ∈ s.m_changedPropertyList →
          inst ∈ l.informationChangedInstanceSet)) := by
  have hdef := NodeInstanceServer.detection_deferred L s hb
  refine ⟨?_, hdef, ?_⟩
  · unfold NodeInstanceServer.timerEvent
    split
    · exact hdef
    · rfl
  · intro backlog v hlt hin hv
    refine ⟨?_, ?_⟩
    · have ht : (withBacklog s backlog).m_timer = s.m_timer := rfl
      unfold NodeInstanceServer.timerEvent
      rw [ht, if_pos rfl]
      exact NodeInstanceServer.detection_with_view L (withBacklog s backlog) v hin hlt hv
    · intro l hl
      refine ⟨?_, ?_⟩
      · intro p hp hne
        rw [detectionLocals_value_changed _ v l hl]
        exact List.mem_filter.2 ⟨hp, by simpa using hne⟩
      · intro inst hq
        exact detectionLocals_information _ v l hl inst hq

/-- A witness for C11: the sample server with a backlog of 100,000 bytes; the
tick of its timer 1 changes nothing, and at a backlog of 5 bytes the pass runs
on the queued "width" change. -/
theorem backpressure_defers_witness :
    (withBacklog sampleServer 100000).timerEvent sampleLayer 1 =
      some (withBacklog sampleServer 100000) ∧
    (withBacklog sampleServer 100000).findItemChangesAndSendChangeCommands sampleLayer =
      some (withBacklog sampleServer 100000) ∧
    ((withBacklog (withBacklog sampleServer 100000) 5).timerEvent sampleLayer
        (withBacklog sampleServer 100000).m_timer =
      (NodeInstanceServer.detectionPass sampleLayer
        (enterPass (withBacklog (withBacklog sampleServer 100000) 5)) sampleView).map leavePass ∧
     ∀ l, detectionLocals (enterPass (withBacklog (withBacklog sampleServer 100000) 5))
        sampleView = some l →
        (∀ p ∈ (withBacklog sampleServer 100000).m_changedPropertyList, p.2 ≠ "parent" →
          p ∈ l.propertyChangedList) ∧
        (∀ inst, (inst, "parent") ∈ (withBacklog sampleServer 100000).m_changedPropertyList →
          inst ∈ l.informationChangedInstanceSet)) :=
  ⟨(backpressure_defers sampleLayer (withBacklog sampleServer 100000) 1 (by decide)).1,
   (backpressure_defers sampleLayer (withBacklog sampleServer 100000) 1 (by decide)).2.1,
   (backpressure_defers sampleLayer (withBacklog sampleServer 100000) 1 (by decide)).2.2
      5 sampleView (by decide) rfl rfl⟩


namespace NodeInstanceServer

theorem slowDownRenderTimer_client (s : NodeInstanceServer) :
    s.slowDownRenderTimer.m_nodeInstanceClient = s.m_nodeInstanceClient := by
  unfold slowDownRenderTimer stopRenderTimer
  by_cases h1 : s.m_slowRenderTimer = true <;> by_cases h2 : s.m_timer = 0 <;> simp [h1, h2]

/-- A detection pass that returns has sent its outbound commands and then
`flush` to the client; it changes neither the backlog nor the earlier calls. -/
theorem detectionPass_calls (L : InstanceLayer) (s s2 : NodeInstanceServer)
    (view : QDeclarativeView) (h : detectionPass L s view = some s2) :
    ∃ l, detectionLocals s view = some l ∧
      s2.m_nodeInstanceClient.calls =
        s.m_nodeInstanceClient.calls ++ emittedCommands L l ++ [ClientCall.flush] := by
  cases hscan : scanItems s view with
  | none =>
    unfold scanItems at hscan
    simp [detectionPass, hscan] at h
  | some r =>
    obtain ⟨s1, l1⟩ := r
    rw [detectionPass_of_scan L s s1 view l1 hscan] at h
    obtain ⟨hl, ⟨v, hv⟩, _, _⟩ := detectionLocals_of_scan s s1 view l1 hscan
    refine ⟨_, hl, ?_⟩
    cases h
    simp only [send, slowDownRenderTimer_client]
    rw [hv]

end NodeInstanceServer

/-- C12, counterexample: with a scene present and no pass in progress, at a
backlog of exactly 100,000 bytes the detection function does not run the
pass (the queue is still filled and no call reaches the client), while at
99,999 bytes it does. -/
theorem detection_suppressed_at_threshold :
    (withBacklog sampleServer 100000).inFunction = false ∧
    (withBacklog sampleServer 100000).m_declarativeView.isSome = true ∧
    (withBacklog sampleServer 100000).m_nodeInstanceClient.bytesToWrite ≤ 100000 ∧
    ((withBacklog sampleServer 100000).findItemChangesAndSendChangeCommands sampleLayer).map
        (fun st => (st.m_changedPropertyList, st.m_nodeInstanceClient.calls)) =
      some ([(⟨1, 101, true⟩, "width")], []) ∧
    ((withBacklog sampleServer 99999).findItemChangesAndSendChangeCommands sampleLayer).map
        (fun st => (st.m_changedPropertyList, st.m_nodeInstanceClient.calls)) =
      some ([], [.valuesChanged [(1, "width")], .pixmapChanged ⟨1, 101, true⟩, .flush]) := by
  decide

/-- C12, amended: detection is suppressed exactly while the pending-write
backlog is 100,000 bytes or more. With a scene present and no pass in
progress, the detection function runs the detection pass if the backlog is
below 100,000 bytes and returns the state unchanged otherwise; it returns
the state unchanged if and only if the backlog is at least 100,000 bytes (a
pass that runs always sends `flush`). -/
theorem detection_suppressed_from_threshold (L : InstanceLayer) (s : NodeInstanceServer)
    (v : QDeclarativeView) (hin : s.inFunction = false) (hv : s.m_declarativeView = some v) :
    (s.m_nodeInstanceClient.bytesToWrite < 100000 →
      s.findItemChangesAndSendChangeCommands L =
        (NodeInstanceServer.detectionPass L (enterPass s) v).map leavePass) ∧
    (100000 ≤ s.m_nodeInstanceClient.bytesToWrite →
      s.findItemChangesAndSendChangeCommands L = some s) ∧
    (s.findItemChangesAndSendChangeCommands L = some s ↔
      100000 ≤ s.m_nodeInstanceClient.bytesToWrite) := by
  refine ⟨fun hb => NodeInstanceServer.detection_with_view L s v hin hb hv,
    NodeInstanceServer.detection_deferred L s, ?_, NodeInstanceServer.detection_deferred L s⟩
  intro h
  by_contra hnot
  have hb : s.m_nodeInstanceClient.bytesToWrite < 100000 := not_le.1 hnot
  rw [NodeInstanceServer.detection_with_view L s v hin hb hv] at h
  cases hp : NodeInstanceServer.detectionPass L (enterPass s) v with
  | none => simp [hp] at h
  | some s2 =>
    obtain ⟨l, _, hcalls⟩ := NodeInstanceServer.detectionPass_calls L _ s2 v hp
    simp only [hp, Option.map_some', Option.some.injEq] at h
    have hlen := congrArg (fun st => st.m_nodeInstanceClient.calls.length) h
    simp only [leavePass, hcalls, enterPass, List.length_append, List.length_singleton] at hlen
    omega

/-- A witness for the amended C12: the sample server at a backlog of 99,999
bytes runs the pass, at 100,000 bytes it returns unchanged. -/
theorem detection_suppressed_from_threshold_witness :
    (withBacklog sampleServer 99999).findItemChangesAndSendChangeCommands sampleLayer =
      (NodeInstanceServer.detectionPass sampleLayer (enterPass (withBacklog sampleServer 99999))
        sampleView).map leavePass ∧
    (withBacklog sampleServer 100000).findItemChangesAndSendChangeCommands sampleLayer =
      some (withBacklog sampleServer 100000) :=
  ⟨(detection_suppressed_from_threshold sampleLayer (withBacklog sampleServer 99999) sampleView
      rfl rfl).1 (by decide),
   (detection_suppressed_from_threshold sampleLayer (withBacklog sampleServer 100000) sampleView
      rfl rfl).2.1 (by decide)⟩


/-! ## The render timer -/

/-- C13: requesting the same speed twice is a no-op. For every server state
`startRenderTimer` followed by `startRenderTimer` gives the state of a single
`startRenderTimer` (so the second call neither kills nor starts a timer), and
the same holds for `slowDownRenderTimer`. Requesting the other speed while a
timer is armed kills the armed timer and starts a new one at the requested
interval: 16 ms for `startRenderTimer`, 1000 ms for `slowDownRenderTimer`. -/
theorem render_timer_requests (s : NodeInstanceServer) :
    s.startRenderTimer.startRenderTimer = s.startRenderTimer ∧
    s.slowDownRenderTimer.slowDownRenderTimer = s.slowDownRenderTimer ∧
    (s.m_timer ≠ 0 → s.m_slowRenderTimer = true →
      s.startRenderTimer.m_slowRenderTimer = false ∧
      s.startRenderTimer.m_timer ≠ 0 ∧
      s.startRenderTimer.timers.running =
        (s.startRenderTimer.m_timer, 16) ::
          s.timers.running.filter (fun p => !decide (p.1 = s.m_timer))) ∧
    (s.m_timer ≠ 0 → s.m_slowRenderTimer = false →
      s.slowDownRenderTimer.m_slowRenderTimer = true ∧
      s.slowDownRenderTimer.m_timer ≠ 0 ∧
      s.slowDownRenderTimer.timers.running =
        (s.slowDownRenderTimer.m_timer, 1000) ::
          s.timers.running.filter (fun p => !decide (p.1 = s.m_timer))) := by
  refine ⟨?_, ?_, ?_, ?_⟩
  · unfold NodeInstanceServer.startRenderTimer NodeInstanceServer.stopRenderTimer
    by_cases h1 : s.m_slowRenderTimer = true <;> by_cases h2 : s.m_timer = 0 <;>
      simp [h1, h2, QTimers.startTimer, QTimers.killTimer]
  · unfold NodeInstanceServer.slowDownRenderTimer NodeInstanceServer.stopRenderTimer
    by_cases h1 : s.m_slowRenderTimer = true <;> by_cases h2 : s.m_timer = 0 <;>
      simp [h1, h2, QTimers.startTimer, QTimers.killTimer]
  · intro h2 h1
    unfold NodeInstanceServer.startRenderTimer NodeInstanceServer.stopRenderTimer
    simp [h1, h2, QTimers.startTimer, QTimers.killTimer]
  · intro h2 h1
    unfold NodeInstanceServer.slowDownRenderTimer NodeInstanceServer.stopRenderTimer
    simp [h1, h2, QTimers.startTimer, QTimers.killTimer]

/-- A witness for C13: the sample scene has the fast timer 1 armed; slowing
down kills it and arms timer 2 at 1000 ms, and speeding up again kills
timer 2 and arms timer 3 at 16 ms. -/
theorem render_timer_requests_witness :
    (sampleScene.slowDownRenderTimer.startRenderTimer.m_slowRenderTimer = false ∧
      sampleScene.slowDownRenderTimer.startRenderTimer.m_timer ≠ 0 ∧
      sampleScene.slowDownRenderTimer.startRenderTimer.timers.running =
        (sampleScene.slowDownRenderTimer.startRenderTimer.m_timer, 16) ::
          sampleScene.slowDownRenderTimer.timers.running.filter
            (fun p => !decide (p.1 = sampleScene.slowDownRenderTimer.m_timer))) ∧
    (sampleScene.slowDownRenderTimer.m_slowRenderTimer = true ∧
      sampleScene.slowDownRenderTimer.m_timer ≠ 0 ∧
      sampleScene.slowDownRenderTimer.timers.running =
        (sampleScene.slowDownRenderTimer.m_timer, 1000) ::
          sampleScene.timers.running.filter (fun p => !decide (p.1 = sampleScene.m_timer))) ∧
    sampleScene.slowDownRenderTimer.startRenderTimer.timers.running = [(3, 16)] :=
  ⟨(render_timer_requests sampleScene.slowDownRenderTimer).2.2.1 (by decide) (by decide),
   (render_timer_requests sampleScene).2.2.2 (by decide) (by decide),
   by decide⟩


/-! ## The sets of a detection pass -/

theorem detectionPass_newClientCalls (L : InstanceLayer) (s s2 : NodeInstanceServer)
    (view : QDeclarativeView) (h : NodeInstanceServer.detectionPass L s view = some s2) :
    ∃ l, detectionLocals s view = some l ∧
      newClientCalls s s2 = emittedCommands L l ++ [ClientCall.flush] := by
  obtain ⟨l, hl, hc⟩ := NodeInstanceServer.detectionPass_calls L s s2 view h
  refine ⟨l, hl, ?_⟩
  unfold newClientCalls
  rw [hc, List.append_assoc]
  simp

theorem detectionPass_isSome_of_graphicsObjects (L : InstanceLayer) (s : NodeInstanceServer)
    (view : QDeclarativeView) (h : allGraphicsObjectsList view.items = true) :
    (NodeInstanceServer.detectionPass L s view).isSome = true ∧
    (detectionLocals s view).isSome = true := by
  obtain ⟨h1, h2⟩ := detectionPass_some_iff L s view
  rw [h1, h2]
  exact ⟨scanItems_isSome s view h, scanItems_isSome s view h⟩

/-- C14: in a detection pass, every instance that has a queued "parent" change
is in the information-changed set, and no (instance, "parent") pair is in the
value-changed list. The pass builds its information-changed command from
that set and its values-changed command from that list, and it returns
whenever every item of the view is a graphics object. -/
theorem parent_change_is_information_only (L : InstanceLayer) (s : NodeInstanceServer)
    (view : QDeclarativeView) :
    (∀ l, detectionLocals s view = some l →
      (∀ inst, (inst, "parent") ∈ s.m_changedPropertyList →
        inst ∈ l.informationChangedInstanceSet) ∧
      (∀ inst, (inst, "parent") ∉ l.propertyChangedList)) ∧
    (∀ s2, NodeInstanceServer.detectionPass L s view = some s2 →
      ∃ l, detectionLocals s view = some l ∧
        newClientCalls s s2 = emittedCommands L l ++ [ClientCall.flush]) ∧
    (allGraphicsObjectsList view.items = true →
      (NodeInstanceServer.detectionPass L s view).isSome = true ∧
      (detectionLocals s view).isSome = true) := by
  refine ⟨?_, fun s2 h => detectionPass_newClientCalls L s s2 view h,
    detectionPass_isSome_of_graphicsObjects L s view⟩
  intro l hl
  refine ⟨fun inst hq => detectionLocals_information s view l hl inst hq, ?_⟩
  intro inst hmem
  rw [detectionLocals_value_changed s view l hl] at hmem
  simpa using (List.mem_filter.1 hmem).2

/-- A witness for C14: the sample server with a queued "parent" change of the
instance 1; the view has no items, so the pass returns. -/
theorem parent_change_is_information_only_witness :
    (NodeInstanceServer.detectionPass sampleLayer
      { sampleServer with m_changedPropertyList := [(⟨1, 101, true⟩, "parent")] }
      sampleView).isSome = true ∧
    (detectionLocals { sampleServer with m_changedPropertyList := [(⟨1, 101, true⟩, "parent")] }
      sampleView).isSome = true ∧
    detectionLocals { sampleServer with m_changedPropertyList := [(⟨1, 101, true⟩, "parent")] }
      sampleView = some ⟨[], [⟨1, 101, true⟩], [], false⟩ :=
  ⟨((parent_change_is_information_only sampleLayer
      { sampleServer with m_changedPropertyList := [(⟨1, 101, true⟩, "parent")] }
      sampleView).2.2 rfl).1,
   ((parent_change_is_information_only sampleLayer
      { sampleServer with m_changedPropertyList := [(⟨1, 101, true⟩, "parent")] }
      sampleView).2.2 rfl).2,
   by decide⟩

theorem applyQueueOp_frame (s s1 : NodeInstanceServer) (op : QueueOp)
    (h : applyQueueOp s op = some s1) :
    s1.m_idInstanceHash = s.m_idInstanceHash ∧
    (∀ p ∈ s.m_changedPropertyList, p ∈ s1.m_changedPropertyList) := by
  have hadd : ∀ p : InstancePropertyPair,
      (s.addChangedProperty p).m_idInstanceHash = s.m_idInstanceHash ∧
      (∀ q ∈ s.m_changedPropertyList, q ∈ (s.addChangedProperty p).m_changedPropertyList) := by
    intro p
    by_cases hp : p ∈ s.m_changedPropertyList
    · rw [NodeInstanceServer.addChangedProperty_of_mem s p hp]
      exact ⟨rfl, fun q hq => hq⟩
    · rw [NodeInstanceServer.addChangedProperty_of_not_mem s p hp]
      exact ⟨rfl, fun q hq => List.mem_append_left _ hq⟩
  cases op with
  | addChangedProperty property =>
    simp only [applyQueueOp, Option.some.injEq] at h
    exact h ▸ hadd property
  | notifyPropertyChange id name =>
    simp only [applyQueueOp] at h
    rcases NodeInstanceServer.notifyPropertyChange_eq s id name with h1 | ⟨inst, h1⟩
    · rw [h1] at h; cases h; exact ⟨rfl, fun q hq => hq⟩
    · rw [h1] at h; cases h; exact hadd _
  | emitParentChanged child =>
    simp only [applyQueueOp] at h
    rcases NodeInstanceServer.emitParentChanged_eq s child with h1 | ⟨inst, h1⟩
    · rw [h1] at h; cases h; exact ⟨rfl, fun q hq => hq⟩
    · rw [h1] at h; cases h; exact hadd _

theorem notifyPropertyChange_mem (s s1 : NodeInstanceServer) (id : Int) (name : String)
    (inst : ServerNodeInstance) (h0 : 0 ≤ id) (hl : s.m_idInstanceHash.lookup id = some inst)
    (h : s.notifyPropertyChange id name = some s1) :
    (inst, name) ∈ s1.m_changedPropertyList := by
  have hh : s.hasInstanceForId id = true :=
    (NodeInstanceServer.hasInstanceForId_iff s id).2 ⟨h0, inst, hl⟩
  unfold NodeInstanceServer.notifyPropertyChange at h
  rw [if_pos hh, NodeInstanceServer.instanceForId_of_lookup s id inst h0 hl] at h
  simp only [Option.some.injEq] at h
  subst h
  by_cases hp : (inst, name) ∈ s.m_changedPropertyList
  · rw [NodeInstanceServer.addChangedProperty_of_mem s _ hp]; exact hp
  · rw [NodeInstanceServer.addChangedProperty_of_not_mem s _ hp]
    exact List.mem_append_right _ (List.mem_singleton.2 rfl)

theorem runQueueOps_frame (ops : List QueueOp) (s s1 : NodeInstanceServer)
    (h : runQueueOps s ops = some s1) :
    s1.m_idInstanceHash = s.m_idInstanceHash ∧
    (∀ p ∈ s.m_changedPropertyList, p ∈ s1.m_changedPropertyList) := by
  induction ops generalizing s with
  | nil =>
    simp only [runQueueOps, NodeInstanceServer.forEach, Option.some.injEq] at h
    exact h ▸ ⟨rfl, fun p hp => hp⟩
  | cons op rest ih =>
    simp only [runQueueOps, NodeInstanceServer.forEach] at h
    cases hop : applyQueueOp s op with
    | none => simp [hop] at h
    | some s2 =>
      simp only [hop] at h
      obtain ⟨h1, h2⟩ := applyQueueOp_frame s s2 op hop
      obtain ⟨h3, h4⟩ := ih s2 h
      exact ⟨h3.trans h1, fun p hp => h4 p (h2 p hp)⟩

theorem runQueueOps_notified_mem (ops : List QueueOp) (s s1 : NodeInstanceServer) (id : Int)
    (name : String) (inst : ServerNodeInstance) (h0 : 0 ≤ id)
    (hl : s.m_idInstanceHash.lookup id = some inst)
    (hop : QueueOp.notifyPropertyChange id name ∈ ops) (h : runQueueOps s ops = some s1) :
    (inst, name) ∈ s1.m_changedPropertyList := by
  induction ops generalizing s with
  | nil => simp at hop
  | cons op rest ih =>
    simp only [runQueueOps, NodeInstanceServer.forEach] at h
    cases hs2 : applyQueueOp s op with
    | none => simp [hs2] at h
    | some s2 =>
      simp only [hs2] at h
      rcases List.mem_cons.1 hop with e | e
      · subst e
        have hm := notifyPropertyChange_mem s s2 id name inst h0 hl hs2
        exact (runQueueOps_frame rest s2 s1 h).2 _ hm
      · have hreg := (applyQueueOp_frame s s2 op hs2).1
        exact ih s2 (by rw [hreg]; exact hl) e h

theorem countP_eq_one_of_mem {α : Type} [DecidableEq α] (l : List α) (a : α) (hn : l.Nodup)
    (hm : a ∈ l) : l.countP (fun p => decide (p = a)) = 1 := by
  induction l with
  | nil => simp at hm
  | cons b rest ih =>
    rw [List.nodup_cons] at hn
    rw [List.countP_cons]
    by_cases hb : b = a
    · subst hb
      have h0 : rest.countP (fun p => decide (p = b)) = 0 := by
        rw [List.countP_eq_zero]
        intro x hx
        have : x ≠ b := fun e => hn.1 (e ▸ hx)
        simpa using this
      simp [h0]
    · have hm' : a ∈ rest := by
        rcases List.mem_cons.1 hm with e | e
        · exact absurd e.symm hb
        · exact e
      simp [hb, ih hn.2 hm']

/-- C15: the value-changed list of a detection pass is exactly the
Changed-Property queue with the "parent" entries removed, in queue order; it
has no duplicates when the queue has none. In particular, starting from a
server with an empty queue, after any sequence of queue calls that notifies
the property `name` (not "parent") of the registered instance `inst` once or
more, the queue is duplicate-free and the value-changed list of the next pass
contains (`inst`, `name`) exactly once. -/
theorem value_changed_list_is_filtered_queue (s : NodeInstanceServer) (view : QDeclarativeView)
    (ops : List QueueOp) (id : Int) (name : String) (inst : ServerNodeInstance) :
    (∀ l, detectionLocals s view = some l →
      l.propertyChangedList =
        s.m_changedPropertyList.filter (fun p => !decide (p.2 = "parent")) ∧
      (s.m_changedPropertyList.Nodup → l.propertyChangedList.Nodup)) ∧
    (s.m_changedPropertyList = [] → 0 ≤ id → s.m_idInstanceHash.lookup id = some inst →
      name ≠ "parent" → QueueOp.notifyPropertyChange id name ∈ ops →
      ∃ s1, runQueueOps s ops = some s1 ∧ s1.m_changedPropertyList.Nodup ∧
        (inst, name) ∈ s1.m_changedPropertyList ∧
        ∀ l, detectionLocals s1 view = some l →
          l.propertyChangedList.countP (fun p => decide (p = (inst, name))) = 1) := by
  refine ⟨?_, ?_⟩
  · intro l hl
    have hf := detectionLocals_value_changed s view l hl
    refine ⟨hf, fun hn => ?_⟩
    rw [hf]
    exact hn.filter _
  · intro hq h0 hlook hne hop
    obtain ⟨s1, hrun, hn⟩ := runQueueOps_nodup ops s (by rw [hq]; exact List.nodup_nil)
    have hmem := runQueueOps_notified_mem ops s s1 id name inst h0 hlook hop hrun
    refine ⟨s1, hrun, hn, hmem, fun l hl => ?_⟩
    rw [detectionLocals_value_changed s1 view l hl]
    have hn' : (s1.m_changedPropertyList.filter (fun p => !decide (p.2 = "parent"))).Nodup :=
      hn.filter _
    exact countP_eq_one_of_mem _ _ hn' (List.mem_filter.2 ⟨hmem, by simpa using hne⟩)

/-- A witness for C15: on the sample server with its queue emptied, the
property "x" of the instance 1 is notified twice; the next pass has it once
in its value-changed list. -/
theorem value_changed_list_is_filtered_queue_witness :
    ∃ s1, runQueueOps { sampleServer with m_changedPropertyList := [] }
        [.notifyPropertyChange 1 "x", .emitParentChanged 101, .notifyPropertyChange 1 "x"]
        = some s1 ∧
      s1.m_changedPropertyList.Nodup ∧
      ((⟨1, 101, true⟩ : ServerNodeInstance), "x") ∈ s1.m_changedPropertyList ∧
      ∀ l, detectionLocals s1 sampleView = some l →
        l.propertyChangedList.countP
          (fun p => decide (p = ((⟨1, 101, true⟩ : ServerNodeInstance), "x"))) = 1 :=
  (value_changed_list_is_filtered_queue { sampleServer with m_changedPropertyList := [] }
    sampleView [.notifyPropertyChange 1 "x", .emitParentChanged 101, .notifyPropertyChange 1 "x"]
    1 "x" ⟨1, 101, true⟩).2 rfl (by decide) (by decide) (by decide) (by decide)


namespace NodeInstanceServer

theorem slowDownRenderTimer_frame (s : NodeInstanceServer) :
    ∃ timer timers, s.slowDownRenderTimer =
      { s with m_timer := timer, timers := timers, m_slowRenderTimer := true } := by
  unfold slowDownRenderTimer stopRenderTimer
  by_cases h1 : s.m_slowRenderTimer = true <;> by_cases h2 : s.m_timer = 0 <;>
    simp only [h1, h2, ne_eq, not_true_eq_false, not_false_eq_true, if_true, if_false,
      Bool.not_true, Bool.not_false, Bool.false_eq_true] <;>
    exact ⟨_, _, rfl⟩

/-- The view, the root instance and the queue at the end of a detection pass. -/
theorem detectionPass_view (L : InstanceLayer) (s s2 : NodeInstanceServer)
    (view : QDeclarativeView) (h : detectionPass L s view = some s2) :
    ∃ s1 l1 l, scanItems s view = some (s1, l1) ∧ detectionLocals s view = some l ∧
      s2.m_declarativeView = s1.m_declarativeView.map (viewAfterPass L s.m_rootNodeInstance l)
      ∧ s2.m_rootNodeInstance = s.m_rootNodeInstance ∧ s2.m_changedPropertyList = [] := by
  cases hscan : scanItems s view with
  | none =>
    unfold scanItems at hscan
    simp [detectionPass, hscan] at h
  | some r =>
    obtain ⟨s1, l1⟩ := r
    rw [detectionPass_of_scan L s s1 view l1 hscan] at h
    obtain ⟨hl, ⟨v, hv⟩, _, _⟩ := detectionLocals_of_scan s s1 view l1 hscan
    refine ⟨s1, l1, _, rfl, hl, ?_⟩
    cases h
    obtain ⟨timer, timers, hslow⟩ := slowDownRenderTimer_frame
      ({ s1 with
          m_changedPropertyList := [],
          m_declarativeView := s1.m_declarativeView.map (viewAfterPass L s1.m_rootNodeInstance
            (s1.m_changedPropertyList.foldl (scanChangedProperty s1) l1)),
          m_nodeInstanceClient := { s1.m_nodeInstanceClient with
            calls := s1.m_nodeInstanceClient.calls ++
              emittedCommands L (s1.m_changedPropertyList.foldl (scanChangedProperty s1) l1) } } :
        NodeInstanceServer)
    rw [hslow, hv]
    exact ⟨rfl, rfl, rfl⟩

end NodeInstanceServer

theorem detectionLocals_adjustSceneRect (s : NodeInstanceServer) (view : QDeclarativeView)
    (l : NodeInstanceServer.DetectionLocals) (h : detectionLocals s view = some l)
    (p : InstancePropertyPair) (hp : p ∈ s.m_changedPropertyList)
    (hroot : s.isRootNodeInstance p.1 = true) (hname : p.2 = "width" ∨ p.2 = "height") :
    l.adjustSceneRect = true := by
  cases hscan : scanItems s view with
  | none => simp [detectionLocals, hscan] at h
  | some r =>
    obtain ⟨s1, l1⟩ := r
    obtain ⟨hl, ⟨v, hv⟩, _, ha⟩ := detectionLocals_of_scan s s1 view l1 hscan
    rw [hl] at h
    cases h
    rw [(NodeInstanceServer.foldl_scanChangedProperty s1 s.m_changedPropertyList l1).2.2.2, ha]
    simp only [Bool.false_or, List.any_eq_true]
    refine ⟨p, hp, ?_⟩
    have hr : s1.isRootNodeInstance p.1 = s.isRootNodeInstance p.1 := by rw [hv]; rfl
    rw [hr, hroot]
    rcases hname with e | e <;> simp [e]

/-- C16: in a detection pass, every instance with a queued "width" or "height"
change is in the pixmap-changed set, and when that instance is the root
instance the pass sets `adjustSceneRect`. At the end of such a pass the scene
rect is the current bounding rect of the root instance whenever that rect is
valid; when it is not valid the scene rect is the one the view had after the
scan of the items. The pass returns whenever every item of the view is a
graphics object. -/
theorem size_change_marks_pixmap_and_scene_rect (L : InstanceLayer) (s : NodeInstanceServer)
    (view : QDeclarativeView) :
    (∀ l, detectionLocals s view = some l → ∀ inst,
      ((inst, "width") ∈ s.m_changedPropertyList ∨ (inst, "height") ∈ s.m_changedPropertyList) →
      inst ∈ l.dirtyInstanceSet ∧ (s.isRootNodeInstance inst = true → l.adjustSceneRect = true)) ∧
    (∀ s2, NodeInstanceServer.detectionPass L s view = some s2 →
      ∃ s1 l1, scanItems s view = some (s1, l1) ∧
        ∀ inst,
          ((inst, "width") ∈ s.m_changedPropertyList ∨
            (inst, "height") ∈ s.m_changedPropertyList) →
          s.isRootNodeInstance inst = true → ∀ v2, s2.m_declarativeView = some v2 →
          ((L.boundingRect inst).isValid = true → v2.sceneRect = L.boundingRect inst) ∧
          ((L.boundingRect inst).isValid = false →
            ∃ v1, s1.m_declarativeView = some v1 ∧ v2.sceneRect = v1.sceneRect)) ∧
    (allGraphicsObjectsList view.items = true →
      (NodeInstanceServer.detectionPass L s view).isSome = true ∧
      (detectionLocals s view).isSome = true) := by
  have hadj : ∀ l, detectionLocals s view = some l → ∀ inst,
      ((inst, "width") ∈ s.m_changedPropertyList ∨ (inst, "height") ∈ s.m_changedPropertyList) →
      s.isRootNodeInstance inst = true → l.adjustSceneRect = true := by
    intro l hl inst hq hroot
    rcases hq with hq | hq
    · exact detectionLocals_adjustSceneRect s view l hl (inst, "width") hq hroot (Or.inl rfl)
    · exact detectionLocals_adjustSceneRect s view l hl (inst, "height") hq hroot (Or.inr rfl)
  refine ⟨?_, ?_, detectionPass_isSome_of_graphicsObjects L s view⟩
  · intro l hl inst hq
    exact ⟨detectionLocals_dirty s view l hl inst hq, hadj l hl inst hq⟩
  · intro s2 h
    obtain ⟨s1, l1, l, hscan, hl, hview, _, _⟩ := NodeInstanceServer.detectionPass_view L s s2 view h
    refine ⟨s1, l1, hscan, ?_⟩
    intro inst hq hroot v2 hv2
    have ha := hadj l hl inst hq hroot
    have hri : s.m_rootNodeInstance = inst := by
      unfold NodeInstanceServer.isRootNodeInstance at hroot
      simp only [Bool.and_eq_true, decide_eq_true_eq] at hroot
      exact hroot.2
    rw [hview, hri] at hv2
    cases hv1 : s1.m_declarativeView with
    | none => simp [hv1] at hv2
    | some v1 =>
      simp only [hv1, Option.map_some', Option.some.injEq] at hv2
      subst hv2
      refine ⟨?_, ?_⟩
      · intro hvalid
        simp [viewAfterPass, ha, hvalid]
      · intro hvalid
        exact ⟨v1, rfl, by simp [viewAfterPass, ha, hvalid]⟩

/-- A witness for C16: the sample server has a queued "width" change; with
that change on the root instance 0 the pass returns and sets the scene rect
to the bounding rect (0, 0, 100, 100) of the root. -/
theorem size_change_marks_pixmap_and_scene_rect_witness :
    ((NodeInstanceServer.detectionPass sampleLayer
        { sampleServer with m_changedPropertyList := [(⟨0, 100, true⟩, "width")] }
        sampleView).isSome = true ∧
      (detectionLocals { sampleServer with m_changedPropertyList := [(⟨0, 100, true⟩, "width")] }
        sampleView).isSome = true) ∧
    (NodeInstanceServer.detectionPass sampleLayer
        { sampleServer with m_changedPropertyList := [(⟨0, 100, true⟩, "width")] }
        sampleView).map (fun st => st.m_declarativeView.map (fun v => v.sceneRect)) =
      some (some ⟨0, 0, 100, 100⟩) :=
  ⟨(size_change_marks_pixmap_and_scene_rect sampleLayer
      { sampleServer with m_changedPropertyList := [(⟨0, 100, true⟩, "width")] }
      sampleView).2.2 rfl,
   by decide⟩


/-! ## Creating instances -/

namespace NodeInstanceServer

theorem startRenderTimer_frame (s : NodeInstanceServer) :
    ∃ timer timers, s.startRenderTimer =
      { s with m_timer := timer, timers := timers, m_slowRenderTimer := false } ∧ timer ≠ 0 := by
  unfold startRenderTimer stopRenderTimer
  by_cases h1 : s.m_slowRenderTimer = true <;> by_cases h2 : s.m_timer = 0 <;>
    simp only [h1, h2, ne_eq, not_true_eq_false, not_false_eq_true, if_true, if_false,
      Bool.false_eq_true] <;>
    first
      | exact ⟨_, _, rfl, h2⟩
      | exact ⟨_, _, rfl, Nat.succ_ne_zero _⟩

theorem insertInstanceRelationship_of_fresh (s : NodeInstanceServer) (inst : ServerNodeInstance)
    (hv : inst.isValid = true) (hi : s.m_idInstanceHash.contains inst.instanceId = false)
    (ho : s.m_objectInstanceHash.contains inst.internalObject = false) :
    s.insertInstanceRelationship inst = some { s with
      m_objectInstanceHash := s.m_objectInstanceHash.insert inst.internalObject inst,
      m_idInstanceHash := s.m_idInstanceHash.insert inst.instanceId inst } := by
  simp [insertInstanceRelationship, hv, hi, ho]

/-- One iteration of the loop of `createInstances` on a valid instance whose
id and object are not registered. -/
theorem createInstance_of_fresh (L : InstanceLayer) (s : NodeInstanceServer)
    (l : List ServerNodeInstance) (c : InstanceContainer)
    (hv : (L.create c).isValid = true)
    (hi : s.m_idInstanceHash.contains (L.create c).instanceId = false)
    (ho : s.m_objectInstanceHash.contains (L.create c).internalObject = false) :
    ∃ s1, createInstance L (s, l) c = some (s1, l ++ [L.create c]) ∧
      s1.m_idInstanceHash = s.m_idInstanceHash.insert (L.create c).instanceId (L.create c) ∧
      s1.m_objectInstanceHash =
        s.m_objectInstanceHash.insert (L.create c).internalObject (L.create c) ∧
      s1.m_rootNodeInstance =
        (if c.instanceId = 0 then L.create c else s.m_rootNodeInstance) ∧
      s1.m_nodeInstanceClient = s.m_nodeInstanceClient ∧
      s1.m_timer = s.m_timer ∧ s1.m_slowRenderTimer = s.m_slowRenderTimer ∧
      s1.timers = s.timers ∧ s1.m_declarativeView.isSome = s.m_declarativeView.isSome := by
  unfold createInstance
  simp only [insertInstanceRelationship_of_fresh s (L.create c) hv hi ho]
  by_cases h0 : c.instanceId = 0
  · by_cases hg : L.isGraphicsObject (L.create c).internalObject = true
    · simp only [h0, hg, if_true]
      refine ⟨_, rfl, rfl, rfl, rfl, rfl, rfl, rfl, rfl, ?_⟩
      simp only [call, setSceneRect, addItem]
      cases s.m_declarativeView <;> rfl
    · simp only [h0, hg, if_true, if_false]
      exact ⟨_, rfl, rfl, rfl, rfl, rfl, rfl, rfl, rfl, rfl⟩
  · simp only [h0, if_false]
    exact ⟨_, rfl, rfl, rfl, rfl, rfl, rfl, rfl, rfl, rfl⟩

/-- The loop of `createInstances` on a command whose created instances are
valid, pairwise distinct in id and in object, and not registered. -/
theorem createInstances_loop (L : InstanceLayer) (instances : List InstanceContainer)
    (s : NodeInstanceServer) (l : List ServerNodeInstance)
    (hvalid : ∀ c ∈ instances, (L.create c).isValid = true)
    (hids : (instances.map (fun c => (L.create c).instanceId)).Nodup)
    (hobjs : (instances.map (fun c => (L.create c).internalObject)).Nodup)
    (hidfresh : ∀ c ∈ instances, s.m_idInstanceHash.contains (L.create c).instanceId = false)
    (hobjfresh : ∀ c ∈ instances,
      s.m_objectInstanceHash.contains (L.create c).internalObject = false) :
    ∃ s1, forEach (createInstance L) (s, l) instances = some (s1, l ++ instances.map L.create) ∧
      s1.m_nodeInstanceClient = s.m_nodeInstanceClient ∧
      s1.m_timer = s.m_timer ∧ s1.m_slowRenderTimer = s.m_slowRenderTimer ∧
      s1.timers = s.timers ∧
      (∀ i x, s.m_idInstanceHash.lookup i = some x → s1.m_idInstanceHash.lookup i = some x) ∧
      (∀ o x, s.m_objectInstanceHash.lookup o = some x →
        s1.m_objectInstanceHash.lookup o = some x) ∧
      (∀ c ∈ instances,
        s1.m_idInstanceHash.lookup (L.create c).instanceId = some (L.create c) ∧
        s1.m_objectInstanceHash.lookup (L.create c).internalObject = some (L.create c)) ∧
      ((∀ d ∈ instances, (L.create d).instanceId = d.instanceId) →
        ∀ c ∈ instances, c.instanceId = 0 → s1.m_rootNodeInstance = L.create c) ∧
      ((∀ c ∈ instances, c.instanceId ≠ 0) → s1.m_rootNodeInstance = s.m_rootNodeInstance) := by
  induction instances generalizing s l with
  | nil =>
    exact ⟨s, by simp [forEach], rfl, rfl, rfl, rfl, fun _ _ h => h, fun _ _ h => h,
      fun c hc => absurd hc (List.not_mem_nil c), fun _ c hc => absurd hc (List.not_mem_nil c),
      fun _ => rfl⟩
  | cons c0 rest ih =>
    simp only [List.map_cons, List.nodup_cons, List.mem_map, not_exists, not_and] at hids hobjs
    obtain ⟨s3, hstep, hid3, hobj3, hroot3, hcl3, ht3, hsl3, htm3, _⟩ :=
      createInstance_of_fresh L s l c0 (hvalid c0 (List.mem_cons_self _ _))
        (hidfresh c0 (List.mem_cons_self _ _)) (hobjfresh c0 (List.mem_cons_self _ _))
    have hidfresh3 : ∀ d ∈ rest, s3.m_idInstanceHash.contains (L.create d).instanceId = false := by
      intro d hd
      rw [QHash.contains_eq_false_iff, hid3, QHash.lookup_insert,
        if_neg (hids.1 d hd)]
      exact (QHash.contains_eq_false_iff _ _).1 (hidfresh d (List.mem_cons_of_mem _ hd))
    have hobjfresh3 : ∀ d ∈ rest,
        s3.m_objectInstanceHash.contains (L.create d).internalObject = false := by
      intro d hd
      rw [QHash.contains_eq_false_iff, hobj3, QHash.lookup_insert,
        if_neg (hobjs.1 d hd)]
      exact (QHash.contains_eq_false_iff _ _).1 (hobjfresh d (List.mem_cons_of_mem _ hd))
    obtain ⟨s1, hrun, hcl, ht, hsl, htm, hidkeep, hobjkeep, hreg, hrootz, hrootn⟩ :=
      ih s3 (l ++ [L.create c0]) (fun d hd => hvalid d (List.mem_cons_of_mem _ hd))
        hids.2 hobjs.2 hidfresh3 hobjfresh3
    have hid0 : s3.m_idInstanceHash.lookup (L.create c0).instanceId = some (L.create c0) := by
      rw [hid3, QHash.lookup_insert, if_pos rfl]
    have hobj0 : s3.m_objectInstanceHash.lookup (L.create c0).internalObject =
        some (L.create c0) := by
      rw [hobj3, QHash.lookup_insert, if_pos rfl]
    have hidold : ∀ i x, s.m_idInstanceHash.lookup i = some x →
        s3.m_idInstanceHash.lookup i = some x := by
      intro i x hx
      have hne : i ≠ (L.create c0).instanceId := by
        intro e
        have := (QHash.contains_eq_false_iff _ _).1 (hidfresh c0 (List.mem_cons_self _ _))
        rw [← e, hx] at this
        cases this
      rw [hid3, QHash.lookup_insert, if_neg hne]
      exact hx
    have hobjold : ∀ o x, s.m_objectInstanceHash.lookup o = some x →
        s3.m_objectInstanceHash.lookup o = some x := by
      intro o x hx
      have hne : o ≠ (L.create c0).internalObject := by
        intro e
        have := (QHash.contains_eq_false_iff _ _).1 (hobjfresh c0 (List.mem_cons_self _ _))
        rw [← e, hx] at this
        cases this
      rw [hobj3, QHash.lookup_insert, if_neg hne]
      exact hx
    refine ⟨s1, ?_, hcl.trans hcl3, ht.trans ht3, hsl.trans hsl3, htm.trans htm3,
      fun i x hx => hidkeep i x (hidold i x hx), fun o x hx => hobjkeep o x (hobjold o x hx),
      ?_, ?_, ?_⟩
    · simp only [forEach, hstep]
      rw [hrun]
      simp
    · intro c hc
      rcases List.mem_cons.1 hc with e | e
      · subst e
        exact ⟨hidkeep _ _ hid0, hobjkeep _ _ hobj0⟩
      · exact hreg c e
    · intro hcreate c hc hz
      have hcreate' : ∀ d ∈ rest, (L.create d).instanceId = d.instanceId :=
        fun d hd => hcreate d (List.mem_cons_of_mem _ hd)
      rcases List.mem_cons.1 hc with e | e
      · subst e
        have hnone : ∀ d ∈ rest, d.instanceId ≠ 0 := by
          intro d hd hdz
          apply hids.1 d hd
          rw [hcreate' d hd, hcreate c (List.mem_cons_self _ _), hdz, hz]
        rw [hrootn hnone, hroot3, if_pos hz]
      · exact hrootz hcreate' c e hz
    · intro hnz
      rw [hrootn (fun d hd => hnz d (List.mem_cons_of_mem _ hd)), hroot3,
        if_neg (hnz c0 (List.mem_cons_self _ _))]

end NodeInstanceServer

/-- What `createInstances` does on a server with a view, for a command whose
created instances are valid, pairwise distinct in id and in object and not
registered. -/
theorem createInstances_of_fresh (L : InstanceLayer) (s : NodeInstanceServer)
    (instances : List InstanceContainer)
    (hview : s.m_declarativeView.isSome = true)
    (hvalid : ∀ c ∈ instances, (L.create c).isValid = true)
    (hids : (instances.map (fun c => (L.create c).instanceId)).Nodup)
    (hobjs : (instances.map (fun c => (L.create c).internalObject)).Nodup)
    (hidfresh : ∀ c ∈ instances, s.m_idInstanceHash.contains (L.create c).instanceId = false)
    (hobjfresh : ∀ c ∈ instances,
      s.m_objectInstanceHash.contains (L.create c).internalObject = false) :
    ∃ s1, s.createInstances L instances = some s1 ∧
      newClientCalls s s1 =
        [ClientCall.valuesChanged
          (NodeInstanceServer.createValuesChangedCommand L (instances.map L.create)),
         ClientCall.informationChanged
          (NodeInstanceServer.createAllInformationChangedCommand L (instances.map L.create) true)]
        ++ (instances.map L.create).map (fun inst =>
            ClientCall.pixmapChanged (NodeInstanceServer.createPixmapChangedCommand inst)) ∧
      (∀ c ∈ instances,
        s1.m_idInstanceHash.lookup (L.create c).instanceId = some (L.create c) ∧
        s1.m_objectInstanceHash.lookup (L.create c).internalObject = some (L.create c)) ∧
      ((∀ d ∈ instances, (L.create d).instanceId = d.instanceId) →
        ∀ c ∈ instances, c.instanceId = 0 → s1.m_rootNodeInstance = L.create c) ∧
      s1.m_slowRenderTimer = false ∧ s1.m_timer ≠ 0 := by
  obtain ⟨s2, hrun, hcl, _, _, _, _, _, hreg, hroot, _⟩ :=
    NodeInstanceServer.createInstances_loop L instances s [] hvalid hids hobjs hidfresh hobjfresh
  have hnone : s.m_declarativeView.isNone = false := by
    cases hv : s.m_declarativeView with
    | none => simp [hv] at hview
    | some v => rfl
  unfold NodeInstanceServer.createInstances
  simp only [hnone, Bool.false_eq_true, if_false, hrun, List.nil_append]
  rw [NodeInstanceServer.foldl_send]
  obtain ⟨timer, timers, hstart, htimer⟩ := NodeInstanceServer.startRenderTimer_frame
    ({ ((s2.send (.valuesChanged (NodeInstanceServer.createValuesChangedCommand L
          (instances.map L.create)))).send
        (.informationChanged (NodeInstanceServer.createAllInformationChangedCommand L
          (instances.map L.create) true))) with
      m_nodeInstanceClient :=
        { ((s2.send (.valuesChanged (NodeInstanceServer.createValuesChangedCommand L
              (instances.map L.create)))).send
            (.informationChanged (NodeInstanceServer.createAllInformationChangedCommand L
              (instances.map L.create) true))).m_nodeInstanceClient with
          calls := ((s2.send (.valuesChanged (NodeInstanceServer.createValuesChangedCommand L
              (instances.map L.create)))).send
            (.informationChanged (NodeInstanceServer.createAllInformationChangedCommand L
              (instances.map L.create) true))).m_nodeInstanceClient.calls ++
            (instances.map L.create).map (fun inst =>
              ClientCall.pixmapChanged (NodeInstanceServer.createPixmapChangedCommand inst)) } } :
      NodeInstanceServer)
  refine ⟨_, rfl, ?_, ?_, ?_, ?_, ?_⟩
  · rw [hstart]
    simp only [newClientCalls, NodeInstanceServer.send, hcl]
    simp
  · rw [hstart]; exact hreg
  · rw [hstart]; exact hroot
  · rw [hstart]
  · rw [hstart]; exact htimer

namespace NodeInstanceServer

/-- When the loop of `createInstances` returns, every created instance was
valid and unregistered when it was inserted: the created instances are
valid, pairwise distinct in id and in object, and not registered before. -/
theorem createInstances_loop_some (L : InstanceLayer) (instances : List InstanceContainer)
    (s : NodeInstanceServer) (l : List ServerNodeInstance)
    (h : (forEach (createInstance L) (s, l) instances).isSome = true) :
    (∀ c ∈ instances, (L.create c).isValid = true) ∧
    (instances.map (fun c => (L.create c).instanceId)).Nodup ∧
    (instances.map (fun c => (L.create c).internalObject)).Nodup ∧
    (∀ c ∈ instances, s.m_idInstanceHash.contains (L.create c).instanceId = false) ∧
    (∀ c ∈ instances, s.m_objectInstanceHash.contains (L.create c).internalObject = false) := by
  induction instances generalizing s l with
  | nil => simp
  | cons c0 rest ih =>
    simp only [forEach] at h
    cases hstep : createInstance L (s, l) c0 with
    | none => simp [hstep] at h
    | some r =>
      obtain ⟨s3, l3⟩ := r
      simp only [hstep] at h
      obtain ⟨hv, hn1, hn2, hf1, hf2⟩ := ih s3 l3 h
      have hins : ∃ s2, s.insertInstanceRelationship (L.create c0) = some s2 := by
        unfold createInstance at hstep
        cases hi : s.insertInstanceRelationship (L.create c0) with
        | none => simp [hi] at hstep
        | some s2 => exact ⟨s2, rfl⟩
      obtain ⟨s2, hi⟩ := hins
      obtain ⟨hv0, hid0, hobj0, hs2⟩ := insertInstanceRelationship_eq_some s s2 _ hi
      have hid3 := createInstance_idHash L s s3 l l3 c0 hstep
      have hobj3 : s3.m_objectInstanceHash =
          s.m_objectInstanceHash.insert (L.create c0).internalObject (L.create c0) := by
        obtain ⟨s3', hstep', _, hobj', _⟩ := createInstance_of_fresh L s l c0 hv0
          ((QHash.contains_eq_false_iff _ _).2 hid0) ((QHash.contains_eq_false_iff _ _).2 hobj0)
        rw [hstep] at hstep'
        cases hstep'
        exact hobj'
      have hidne : ∀ d ∈ rest, (L.create d).instanceId ≠ (L.create c0).instanceId ∧
          s.m_idInstanceHash.contains (L.create d).instanceId = false := by
        intro d hd
        have := (QHash.contains_eq_false_iff _ _).1 (hf1 d hd)
        rw [hid3, QHash.lookup_insert] at this
        by_cases e : (L.create d).instanceId = (L.create c0).instanceId
        · simp [e] at this
        · simp only [e, if_false] at this
          exact ⟨e, (QHash.contains_eq_false_iff _ _).2 this⟩
      have hobjne : ∀ d ∈ rest, (L.create d).internalObject ≠ (L.create c0).internalObject ∧
          s.m_objectInstanceHash.contains (L.create d).internalObject = false := by
        intro d hd
        have := (QHash.contains_eq_false_iff _ _).1 (hf2 d hd)
        rw [hobj3, QHash.lookup_insert] at this
        by_cases e : (L.create d).internalObject = (L.create c0).internalObject
        · simp [e] at this
        · simp only [e, if_false] at this
          exact ⟨e, (QHash.contains_eq_false_iff _ _).2 this⟩
      refine ⟨?_, ?_, ?_, ?_, ?_⟩
      · intro c hc
        rcases List.mem_cons.1 hc with e | e
        · exact e ▸ hv0
        · exact hv c e
      · simp only [List.map_cons, List.nodup_cons, List.mem_map, not_exists, not_and]
        exact ⟨fun d hd e => (hidne d hd).1 e, hn1⟩
      · simp only [List.map_cons, List.nodup_cons, List.mem_map, not_exists, not_and]
        exact ⟨fun d hd e => (hobjne d hd).1 e, hn2⟩
      · intro c hc
        rcases List.mem_cons.1 hc with e | e
        · exact e ▸ (QHash.contains_eq_false_iff _ _).2 hid0
        · exact (hidne c e).2
      · intro c hc
        rcases List.mem_cons.1 hc with e | e
        · exact e ▸ (QHash.contains_eq_false_iff _ _).2 hobj0
        · exact (hobjne c e).2

theorem createInstances_some (L : InstanceLayer) (s : NodeInstanceServer)
    (instances : List InstanceContainer) (h : (s.createInstances L instances).isSome = true) :
    s.m_declarativeView.isSome = true ∧
    (forEach (createInstance L) (s, []) instances).isSome = true := by
  unfold createInstances at h
  cases hv : s.m_declarativeView with
  | none => simp [hv] at h
  | some v =>
    refine ⟨rfl, ?_⟩
    cases hrun : forEach (createInstance L) (s, []) instances with
    | none => simp [hv, hrun] at h
    | some r => rfl

end NodeInstanceServer

/-- C17: whenever `createInstances` returns for a CreateInstances command, the
calls it has made on the client are exactly: one values-changed command,
then one information-changed command built in initial mode, then one
pixmap-changed command per created instance in command order; afterwards
every created instance is registered under its id and its object, the
instance created for the entry with id 0 (if any) is the root instance, and
the cadence is fast with the tick source armed. It returns for every command
on a server with a view whose created instances are valid, pairwise distinct
in id and in object, and not registered. -/
theorem createInstances_outcome (L : InstanceLayer) (s : NodeInstanceServer)
    (instances : List InstanceContainer) :
    (∀ s1, s.createInstances L instances = some s1 →
      newClientCalls s s1 =
        [ClientCall.valuesChanged
          (NodeInstanceServer.createValuesChangedCommand L (instances.map L.create)),
         ClientCall.informationChanged
          (NodeInstanceServer.createAllInformationChangedCommand L (instances.map L.create) true)]
        ++ (instances.map L.create).map (fun inst =>
            ClientCall.pixmapChanged (NodeInstanceServer.createPixmapChangedCommand inst)) ∧
      (∀ c ∈ instances,
        s1.m_idInstanceHash.lookup (L.create c).instanceId = some (L.create c) ∧
        s1.m_objectInstanceHash.lookup (L.create c).internalObject = some (L.create c)) ∧
      ((∀ d ∈ instances, (L.create d).instanceId = d.instanceId) →
        ∀ c ∈ instances, c.instanceId = 0 → s1.m_rootNodeInstance = L.create c) ∧
      s1.m_slowRenderTimer = false ∧ s1.m_timer ≠ 0) ∧
    (s.m_declarativeView.isSome = true →
      (∀ c ∈ instances, (L.create c).isValid = true) →
      (instances.map (fun c => (L.create c).instanceId)).Nodup →
      (instances.map (fun c => (L.create c).internalObject)).Nodup →
      (∀ c ∈ instances, s.m_idInstanceHash.contains (L.create c).instanceId = false) →
      (∀ c ∈ instances, s.m_objectInstanceHash.contains (L.create c).internalObject = false) →
      (s.createInstances L instances).isSome = true) := by
  refine ⟨?_, ?_⟩
  · intro s1 h
    obtain ⟨hview, hloop⟩ := NodeInstanceServer.createInstances_some L s instances
      (by rw [h]; rfl)
    obtain ⟨hvalid, hids, hobjs, hidfresh, hobjfresh⟩ :=
      NodeInstanceServer.createInstances_loop_some L instances s [] hloop
    obtain ⟨s2, h2, hout⟩ :=
      createInstances_of_fresh L s instances hview hvalid hids hobjs hidfresh hobjfresh
    rw [h] at h2
    cases h2
    exact hout
  · intro hview hvalid hids hobjs hidfresh hobjfresh
    obtain ⟨s2, h2, _⟩ :=
      createInstances_of_fresh L s instances hview hvalid hids hobjs hidfresh hobjfresh
    rw [h2]; rfl

/-- A witness for C17: on the sample scene, a command that creates the
instances 0 and 5 returns, with the instance 0 as root and the fast timer
armed. -/
theorem createInstances_outcome_witness :
    (sampleScene.createInstances sampleLayer [⟨0, "Rectangle"⟩, ⟨5, "Text"⟩]).isSome = true ∧
    (sampleScene.createInstances sampleLayer [⟨0, "Rectangle"⟩, ⟨5, "Text"⟩]).map
      (fun st => (st.m_rootNodeInstance, st.m_slowRenderTimer, st.m_timer,
        (newClientCalls sampleScene st).length)) =
      some (⟨0, 100, true⟩, false, 1, 4) :=
  ⟨(createInstances_outcome sampleLayer sampleScene [⟨0, "Rectangle"⟩, ⟨5, "Text"⟩]).2
      (by decide) (by decide) (by decide) (by decide) (by decide) (by decide),
   by decide⟩

/-! ## The import list -/

namespace NodeInstanceServer

/-- A quantity that every iteration of a loop leaves alone is left alone by
the loop. -/
theorem forEach_preserves {σ α β : Type} (f : σ → β) (body : σ → α → Option σ)
    (hbody : ∀ s a s1, body s a = some s1 → f s1 = f s) (xs : List α) (s s1 : σ)
    (h : forEach body s xs = some s1) : f s1 = f s := by
  induction xs generalizing s with
  | nil =>
    simp only [forEach, Option.some.injEq] at h
    rw [h]
  | cons a rest ih =>
    simp only [forEach] at h
    cases ha : body s a with
    | none => simp [ha] at h
    | some s2 =>
      simp only [ha] at h
      exact (ih s2 h).trans (hbody s a s2 ha)

theorem startRenderTimer_imports (s : NodeInstanceServer) :
    s.startRenderTimer.m_importList = s.m_importList := by
  obtain ⟨_, _, h, _⟩ := startRenderTimer_frame s
  rw [h]

theorem map_startRenderTimer_imports (r : Option NodeInstanceServer) (s s1 : NodeInstanceServer)
    (hr : ∀ s2, r = some s2 → s2.m_importList = s.m_importList)
    (h : r.map startRenderTimer = some s1) : s1.m_importList = s.m_importList := by
  cases r with
  | none => simp at h
  | some s2 =>
    simp only [Option.map_some', Option.some.injEq] at h
    rw [← h, startRenderTimer_imports]
    exact hr s2 rfl

theorem removeInstanceRelationsip_imports (s : NodeInstanceServer) (id : Int)
    (s1 : NodeInstanceServer) (h : s.removeInstanceRelationsip id = some s1) :
    s1.m_importList = s.m_importList := by
  cases hh : s.hasInstanceForId id with
  | false =>
    rw [removeInstanceRelationsip_unregistered s id hh] at h
    cases h; rfl
  | true =>
    obtain ⟨h0, inst, hl⟩ := (hasInstanceForId_iff s id).1 hh
    rw [removeInstanceRelationsip_registered s id inst h0 hl] at h
    cases h; rfl

theorem resetInstanceProperty_imports (L : InstanceLayer) (s : NodeInstanceServer)
    (c : PropertyAbstractContainer) (s1 : NodeInstanceServer)
    (h : s.resetInstanceProperty L c = some s1) : s1.m_importList = s.m_importList := by
  cases hh : s.hasInstanceForId c.instanceId with
  | false =>
    simp only [resetInstanceProperty, hh, Bool.false_eq_true, if_false, Option.some.injEq] at h
    rw [← h]
  | true =>
    obtain ⟨h0, inst, hl⟩ := (hasInstanceForId_iff s _).1 hh
    by_cases hv : inst.isValid = true
    · rw [resetInstanceProperty_registered L s c inst h0 hl hv] at h
      cases h; rfl
    · unfold resetInstanceProperty at h
      rw [if_pos hh, instanceForId_of_lookup s _ inst h0 hl] at h
      simp [hv] at h

theorem setInstancePropertyBinding_imports (L : InstanceLayer) (s : NodeInstanceServer)
    (c : PropertyBindingContainer) (s1 : NodeInstanceServer)
    (h : s.setInstancePropertyBinding L c = some s1) : s1.m_importList = s.m_importList := by
  cases hh : s.hasInstanceForId c.instanceId with
  | false =>
    simp only [setInstancePropertyBinding, hh, Bool.false_eq_true, if_false,
      Option.some.injEq] at h
    rw [← h]
  | true =>
    obtain ⟨h0, inst, hl⟩ := (hasInstanceForId_iff s _).1 hh
    rw [setInstancePropertyBinding_registered L s c inst h0 hl] at h
    cases h; rfl

theorem setInstancePropertyVariant_imports (L : InstanceLayer) (s : NodeInstanceServer)
    (c : PropertyValueContainer) (s1 : NodeInstanceServer)
    (h : s.setInstancePropertyVariant L c = some s1) : s1.m_importList = s.m_importList := by
  cases hh : s.hasInstanceForId c.instanceId with
  | false =>
    simp only [setInstancePropertyVariant, hh, Bool.false_eq_true, if_false,
      Option.some.injEq] at h
    rw [← h]
  | true =>
    obtain ⟨h0, inst, hl⟩ := (hasInstanceForId_iff s _).1 hh
    rw [setInstancePropertyVariant_registered L s c inst h0 hl] at h
    cases h; rfl

/-- An entry of a ReparentInstances command either leaves the server as it is
or makes one `reparent` call on the instance layer. -/
theorem reparentInstance_eq (s : NodeInstanceServer) (c : ReparentContainer)
    (s1 : NodeInstanceServer) (h : s.reparentInstance c = some s1) :
    s1 = s ∨ ∃ call, s1 = s.call call := by
  unfold reparentInstance at h
  cases h1 : s.instanceForId c.instanceId with
  | none => simp [h1] at h
  | some inst =>
    simp only [h1] at h
    by_cases hv : inst.isValid = true
    · simp only [hv, if_true] at h
      cases h2 : s.instanceForId c.oldParentInstanceId with
      | none => simp [h2] at h
      | some oldParent =>
        cases h3 : s.instanceForId c.newParentInstanceId with
        | none => simp [h2, h3] at h
        | some newParent =>
          simp only [h2, h3, Option.some.injEq] at h
          exact Or.inr ⟨_, h.symm⟩
    · simp only [hv, Bool.false_eq_true, if_false, Option.some.injEq] at h
      exact Or.inl h.symm

theorem reparentInstance_imports (s : NodeInstanceServer) (c : ReparentContainer)
    (s1 : NodeInstanceServer) (h : s.reparentInstance c = some s1) :
    s1.m_importList = s.m_importList := by
  rcases reparentInstance_eq s c s1 h with rfl | ⟨call, rfl⟩ <;> rfl

/-- An entry of a ChangeIds command either leaves the server as it is or makes
one `setId` call on the instance layer. -/
theorem changeId_eq (s : NodeInstanceServer) (c : IdContainer)
    (s1 : NodeInstanceServer) (h : s.changeId c = some s1) :
    s1 = s ∨ ∃ call, s1 = s.call call := by
  unfold changeId at h
  cases hh : s.hasInstanceForId c.instanceId with
  | false =>
    simp only [hh, Bool.false_eq_true, if_false, Option.some.injEq] at h
    exact Or.inl h.symm
  | true =>
    obtain ⟨h0, inst, hl⟩ := (hasInstanceForId_iff s _).1 hh
    simp only [hh, if_true, instanceForId_of_lookup s _ inst h0 hl, Option.some.injEq] at h
    exact Or.inr ⟨_, h.symm⟩

theorem changeId_imports (s : NodeInstanceServer) (c : IdContainer)
    (s1 : NodeInstanceServer) (h : s.changeId c = some s1) :
    s1.m_importList = s.m_importList := by
  rcases changeId_eq s c s1 h with rfl | ⟨call, rfl⟩ <;> rfl

theorem refreshFileProperty_imports (s : NodeInstanceServer) (c : ObjectPropertyPair)
    (s1 : NodeInstanceServer) (h : s.refreshFileProperty c = some s1) :
    s1.m_importList = s.m_importList := by
  unfold refreshFileProperty at h
  cases hh : s.hasInstanceForObject c.1 with
  | false =>
    simp only [hh, Bool.false_eq_true, if_false, Option.some.injEq] at h
    rw [← h]
  | true =>
    simp only [hh, if_true] at h
    cases hi : s.instanceForObject c.1 with
    | none => simp [hi] at h
    | some inst =>
      simp only [hi, Option.some.injEq] at h
      rw [← h]; rfl

theorem addImportPath_imports (s : NodeInstanceServer) (path : String)
    (s1 : NodeInstanceServer) (h : s.addImportPath path = some s1) :
    s1.m_importList = s.m_importList := by
  unfold addImportPath at h
  cases hv : s.m_declarativeView with
  | none => simp [hv] at h
  | some v =>
    simp only [hv, Option.some.injEq] at h
    rw [← h]

theorem createInstance_imports (L : InstanceLayer)
    (acc : NodeInstanceServer × List ServerNodeInstance) (c : InstanceContainer)
    (acc1 : NodeInstanceServer × List ServerNodeInstance)
    (h : createInstance L acc c = some acc1) : acc1.1.m_importList = acc.1.m_importList := by
  unfold createInstance at h
  cases hi : acc.1.insertInstanceRelationship (L.create c) with
  | none => simp [hi] at h
  | some s2 =>
    obtain ⟨_, _, _, rfl⟩ := insertInstanceRelationship_eq_some acc.1 s2 _ hi
    simp only [hi, Option.some.injEq] at h
    subst h
    by_cases h0 : c.instanceId = 0 <;>
      by_cases hg : L.isGraphicsObject (L.create c).internalObject = true <;>
      simp [h0, hg, call, addItem, setSceneRect]

theorem createInstances_imports (L : InstanceLayer) (s : NodeInstanceServer)
    (instances : List InstanceContainer) (s1 : NodeInstanceServer)
    (h : s.createInstances L instances = some s1) : s1.m_importList = s.m_importList := by
  unfold createInstances at h
  split at h
  · cases h
  · cases hrun : forEach (createInstance L) (s, []) instances with
    | none => simp [hrun] at h
    | some r =>
      obtain ⟨s2, l⟩ := r
      have hkeep := forEach_preserves (fun acc : NodeInstanceServer × List ServerNodeInstance =>
        acc.1.m_importList) (createInstance L) (createInstance_imports L) instances _ _ hrun
      simp only [hrun, foldl_send, Option.some.injEq] at h
      rw [← h, startRenderTimer_imports]
      exact hkeep

theorem detectionPass_imports (L : InstanceLayer) (s s2 : NodeInstanceServer)
    (view : QDeclarativeView) (h : detectionPass L s view = some s2) :
    s2.m_importList = s.m_importList := by
  cases hscan : scanItems s view with
  | none =>
    unfold scanItems at hscan
    simp [detectionPass, hscan] at h
  | some r =>
    obtain ⟨s3, l3⟩ := r
    rw [detectionPass_of_scan L s s3 view l3 hscan] at h
    obtain ⟨_, ⟨v, hv3⟩, _, _⟩ := detectionLocals_of_scan s s3 view l3 hscan
    cases h
    obtain ⟨timer, timers, hslow⟩ := slowDownRenderTimer_frame
      ({ s3 with
          m_changedPropertyList := [],
          m_declarativeView := s3.m_declarativeView.map
            (viewAfterPass L s3.m_rootNodeInstance
              (s3.m_changedPropertyList.foldl (scanChangedProperty s3) l3)),
          m_nodeInstanceClient := { s3.m_nodeInstanceClient with
            calls := s3.m_nodeInstanceClient.calls ++
              emittedCommands L
                (s3.m_changedPropertyList.foldl (scanChangedProperty s3) l3) } } :
        NodeInstanceServer)
    rw [hslow, hv3]
    rfl

theorem detection_imports (L : InstanceLayer) (s s1 : NodeInstanceServer)
    (h : s.findItemChangesAndSendChangeCommands L = some s1) :
    s1.m_importList = s.m_importList := by
  cases hv : s.m_declarativeView with
  | none =>
    rw [detection_without_view L s hv] at h
    cases h; rfl
  | some view =>
    by_cases hb : s.m_nodeInstanceClient.bytesToWrite < 100000
    · cases hin : s.inFunction with
      | false =>
        rw [detection_with_view L s view hin hb hv] at h
        cases hp : detectionPass L (enterPass s) view with
        | none => simp [hp] at h
        | some s2 =>
          simp only [hp, Option.map_some', Option.some.injEq] at h
          rw [← h]
          exact detectionPass_imports L (enterPass s) s2 view hp
      | true =>
        simp only [findItemChangesAndSendChangeCommands, hin, Bool.not_true, Bool.false_and,
          Bool.false_eq_true, if_false, Option.some.injEq] at h
        rw [← h]
    · rw [detection_deferred L s (not_lt.1 hb)] at h
      cases h; rfl

theorem clearScene_imports (s : NodeInstanceServer) :
    s.clearScene.m_importList = s.m_importList := by
  obtain ⟨calls, hc⟩ := clearScene_fields s
  rw [hc]
  show s.stopRenderTimer.m_importList = s.m_importList
  unfold stopRenderTimer
  split <;> rfl

theorem createScene_imports (s s1 : NodeInstanceServer) (h : s.createScene = some s1) :
    s1.m_importList = s.m_importList := by
  unfold createScene at h
  split at h
  · cases h
  · simp only [Option.some.injEq] at h
    rw [← h, startRenderTimer_imports]
    split <;> rfl

theorem changeFileUrl_imports (s : NodeInstanceServer) (url : String) :
    (s.changeFileUrl url).m_importList = s.m_importList := by
  unfold changeFileUrl
  simp only [startRenderTimer_imports]
  split <;> rfl

theorem changeState_imports (s s1 : NodeInstanceServer) (id : Int)
    (h : s.changeState id = some s1) : s1.m_importList = s.m_importList := by
  unfold changeState at h
  refine map_startRenderTimer_imports _ s s1 ?_ h
  intro s2 h2
  cases hh : s.hasInstanceForId id with
  | false =>
    simp only [hh, Bool.false_eq_true, if_false] at h2
    by_cases ha : s.activeStateInstance.isValid = true
    · simp only [ha, if_true, Option.some.injEq] at h2
      rw [← h2]; rfl
    · simp only [ha, Bool.false_eq_true, if_false, Option.some.injEq] at h2
      rw [← h2]
  | true =>
    obtain ⟨h0, inst, hl⟩ := (hasInstanceForId_iff s _).1 hh
    simp only [hh, if_true, instanceForId_of_lookup s _ inst h0 hl, Option.some.injEq] at h2
    rw [← h2]; rfl

theorem addImport_eq (L : InstanceLayer) (s : NodeInstanceServer) (command : AddImportCommand) :
    s.addImport L command =
      forEach addImportPath { s with m_importList := s.m_importList ++ [importStatement command] }
        command.importPaths := by
  unfold addImport
  simp only
  cases forEach addImportPath
      { s with m_importList := s.m_importList ++ [importStatement command] }
      command.importPaths with
  | none => rfl
  | some s2 => simp

theorem importStatement_eq (command : AddImportCommand) :
    importStatement command = expectedImportStatement command := by
  unfold importStatement expectedImportStatement
  by_cases h1 : command.fileName.isEmpty = true <;>
    by_cases h2 : command.url.isEmpty = true <;>
    by_cases h3 : command.version.isEmpty = true <;>
    by_cases h4 : command.aliasName.isEmpty = true <;>
    simp [h1, h2, h3, h4, String.append_assoc]

theorem forEach_addImportPath_isSome (paths : List String) (s : NodeInstanceServer)
    (h : s.m_declarativeView.isSome = true ∨ paths = []) :
    (forEach addImportPath s paths).isSome = true := by
  induction paths generalizing s with
  | nil => rfl
  | cons path rest ih =>
    rcases h with h | h
    · cases hv : s.m_declarativeView with
      | none => simp [hv] at h
      | some v =>
        simp only [forEach, addImportPath, hv]
        exact ih _ (Or.inl rfl)
    · cases h

end NodeInstanceServer

theorem applyServerOp_imports (L : InstanceLayer) (s s1 : NodeInstanceServer) (op : ServerOp)
    (h : applyServerOp L s op = some s1) :
    s1.m_importList = s.m_importList ∨
    ∃ command, op = .addImport command ∧
      s1.m_importList = s.m_importList ++ [NodeInstanceServer.importStatement command] := by
  cases op with
  | addImport command =>
    right
    refine ⟨command, rfl, ?_⟩
    simp only [applyServerOp, NodeInstanceServer.addImport_eq] at h
    exact NodeInstanceServer.forEach_preserves (fun st => st.m_importList)
      NodeInstanceServer.addImportPath NodeInstanceServer.addImportPath_imports _ _ _ h
  | createInstances instances =>
    exact Or.inl (NodeInstanceServer.createInstances_imports L s instances s1 h)
  | changeFileUrl fileUrl =>
    simp only [applyServerOp, Option.some.injEq] at h
    exact Or.inl (h ▸ NodeInstanceServer.changeFileUrl_imports s fileUrl)
  | createScene => exact Or.inl (NodeInstanceServer.createScene_imports s s1 h)
  | clearScene =>
    simp only [applyServerOp, Option.some.injEq] at h
    exact Or.inl (h ▸ NodeInstanceServer.clearScene_imports s)
  | removeInstances instanceIds =>
    left
    refine NodeInstanceServer.map_startRenderTimer_imports _ s s1 ?_ h
    intro s2 h2
    exact NodeInstanceServer.forEach_preserves (fun st => st.m_importList) _
      NodeInstanceServer.removeInstanceRelationsip_imports _ _ _ h2
  | removeProperties properties =>
    left
    refine NodeInstanceServer.map_startRenderTimer_imports _ s s1 ?_ h
    intro s2 h2
    exact NodeInstanceServer.forEach_preserves (fun st => st.m_importList) _
      (NodeInstanceServer.resetInstanceProperty_imports L) _ _ _ h2
  | reparentInstances containers =>
    left
    refine NodeInstanceServer.map_startRenderTimer_imports _ s s1 ?_ h
    intro s2 h2
    exact NodeInstanceServer.forEach_preserves (fun st => st.m_importList) _
      NodeInstanceServer.reparentInstance_imports _ _ _ h2
  | changeState stateInstanceId =>
    exact Or.inl (NodeInstanceServer.changeState_imports s s1 stateInstanceId h)
  | changePropertyValues valueChanges =>
    left
    refine NodeInstanceServer.map_startRenderTimer_imports _ s s1 ?_ h
    intro s2 h2
    exact NodeInstanceServer.forEach_preserves (fun st => st.m_importList) _
      (NodeInstanceServer.setInstancePropertyVariant_imports L) _ _ _ h2
  | changePropertyBindings bindingChanges =>
    left
    refine NodeInstanceServer.map_startRenderTimer_imports _ s s1 ?_ h
    intro s2 h2
    exact NodeInstanceServer.forEach_preserves (fun st => st.m_importList) _
      (NodeInstanceServer.setInstancePropertyBinding_imports L) _ _ _ h2
  | changeIds ids =>
    left
    refine NodeInstanceServer.map_startRenderTimer_imports _ s s1 ?_ h
    intro s2 h2
    exact NodeInstanceServer.forEach_preserves (fun st => st.m_importList) _
      NodeInstanceServer.changeId_imports _ _ _ h2
  | timerEvent timerId =>
    left
    simp only [applyServerOp, NodeInstanceServer.timerEvent] at h
    split at h
    · exact NodeInstanceServer.detection_imports L s s1 h
    · simp only [Option.some.injEq] at h
      rw [← h]
  | notifyPropertyChange instanceid propertyName =>
    left
    rcases NodeInstanceServer.notifyPropertyChange_eq s instanceid propertyName with h1 | ⟨i, h1⟩
    · simp only [applyServerOp, h1, Option.some.injEq] at h
      rw [← h]
    · simp only [applyServerOp, h1, Option.some.injEq] at h
      rw [← h]
      unfold NodeInstanceServer.addChangedProperty
      split <;> rfl
  | emitParentChanged child =>
    left
    rcases NodeInstanceServer.emitParentChanged_eq s child with h1 | ⟨i, h1⟩
    · simp only [applyServerOp, h1, Option.some.injEq] at h
      rw [← h]
    · simp only [applyServerOp, h1, Option.some.injEq] at h
      rw [← h]
      unfold NodeInstanceServer.addChangedProperty
      split <;> rfl
  | addChangedProperty property =>
    left
    simp only [applyServerOp, Option.some.injEq] at h
    rw [← h]
    unfold NodeInstanceServer.addChangedProperty
    split <;> rfl
  | refreshLocalFileProperty path =>
    left
    simp only [applyServerOp, NodeInstanceServer.refreshLocalFileProperty] at h
    split at h
    · exact NodeInstanceServer.forEach_preserves (fun st => st.m_importList) _
        NodeInstanceServer.refreshFileProperty_imports _ _ _ h
    · simp only [Option.some.injEq] at h
      rw [← h]
  | addFilePropertyToFileSystemWatcher object propertyName path =>
    simp only [applyServerOp, Option.some.injEq] at h
    exact Or.inl (h ▸ rfl)
  | removeFilePropertyFromFileSystemWatcher object propertyName path =>
    simp only [applyServerOp, Option.some.injEq] at h
    exact Or.inl (h ▸ rfl)
  | setStateInstance stateInstance =>
    simp only [applyServerOp, Option.some.injEq] at h
    exact Or.inl (h ▸ rfl)
  | clearStateInstance =>
    simp only [applyServerOp, Option.some.injEq] at h
    exact Or.inl (h ▸ rfl)

theorem runServerOps_imports (L : InstanceLayer) (ops : List ServerOp)
    (s s1 : NodeInstanceServer) (h : runServerOps L s ops = some s1) :
    ∃ added, s1.m_importList = s.m_importList ++ added := by
  induction ops generalizing s with
  | nil =>
    simp only [runServerOps, NodeInstanceServer.forEach, Option.some.injEq] at h
    exact ⟨[], by rw [← h]; simp⟩
  | cons op rest ih =>
    simp only [runServerOps, NodeInstanceServer.forEach] at h
    cases hop : applyServerOp L s op with
    | none => simp [hop] at h
    | some s2 =>
      simp only [hop] at h
      obtain ⟨added, ha⟩ := ih s2 h
      rcases applyServerOp_imports L s s2 op hop with h2 | ⟨command, _, h2⟩
      · exact ⟨added, by rw [ha, h2]⟩
      · exact ⟨NodeInstanceServer.importStatement command :: added, by rw [ha, h2]; simp⟩


/-- C19: `addImport` appends exactly one statement to the import list and
changes no earlier entry: when it returns, `imports()` is `imports()` before
followed by the statement "import " + (the file name in double quotes if it
is not empty, else the URL text if it is not empty, else nothing) + (" " +
version if the version is not empty) + (" as " + alias if the alias is not
empty). It returns whenever a view exists or the command has no import
paths. The result does not depend on what the probe document reports. No
operation of the server removes or reorders an entry of the import list:
after every sequence of operations the list is the old list followed by
further entries. -/
theorem addImport_appends_statement (L L2 : InstanceLayer) (s : NodeInstanceServer)
    (command : AddImportCommand) (ops : List ServerOp) :
    (∀ s1, s.addImport L command = some s1 →
      s1.imports = s.imports ++ [expectedImportStatement command]) ∧
    ((s.m_declarativeView.isSome = true ∨ command.importPaths = []) →
      (s.addImport L command).isSome = true) ∧
    s.addImport L command = s.addImport L2 command ∧
    (∀ s1, runServerOps L s ops = some s1 → ∃ added, s1.imports = s.imports ++ added) := by
  refine ⟨?_, ?_, ?_, ?_⟩
  · intro s1 h
    rw [NodeInstanceServer.addImport_eq] at h
    have hkeep : s1.m_importList =
        s.m_importList ++ [NodeInstanceServer.importStatement command] :=
      NodeInstanceServer.forEach_preserves (fun st => st.m_importList)
        NodeInstanceServer.addImportPath NodeInstanceServer.addImportPath_imports _ _ _ h
    simp only [NodeInstanceServer.imports]
    rw [hkeep, NodeInstanceServer.importStatement_eq]
  · intro h
    rw [NodeInstanceServer.addImport_eq]
    exact NodeInstanceServer.forEach_addImportPath_isSome _ _ h
  · rw [NodeInstanceServer.addImport_eq, NodeInstanceServer.addImport_eq]
  · intro s1 h
    exact runServerOps_imports L ops s s1 h

/-- A witness for C19: on the sample server (whose list of imports is empty)
the file "Missing.qml" is imported with version and alias, for which the
sample probe reports an error; and a URL is imported before `clearScene`. -/
theorem addImport_appends_statement_witness :
    (sampleServer.addImport sampleLayer ⟨"", "Missing.qml", "1.0", "M", ["/plugins"]⟩).isSome
      = true ∧
    (sampleServer.addImport sampleLayer ⟨"", "Missing.qml", "1.0", "M", ["/plugins"]⟩).map
      (fun st => st.imports) = some ["import \"Missing.qml\" 1.0 as M"] ∧
    (runServerOps sampleLayer sampleServer
      [.addImport ⟨"Qt.labs", "", "", "", []⟩, .clearScene,
       .addImport ⟨"", "", "", "", []⟩]).map (fun st => st.imports) =
      some ["import Qt.labs", "import "] :=
  ⟨(addImport_appends_statement sampleLayer sampleLayer sampleServer
      ⟨"", "Missing.qml", "1.0", "M", ["/plugins"]⟩ []).2.1 (Or.inl rfl),
   by decide, by decide⟩

/-! ## Unknown instance ids -/

/-- The guarded commands skip an entry with an unknown instance id: for an id
that is not registered, the entry of RemoveInstances, RemoveProperties,
ChangePropertyValues, ChangePropertyBindings and ChangeIds returns the
server unchanged. -/
theorem guarded_entries_skip_unknown_id (L : InstanceLayer) (s : NodeInstanceServer) (id : Int)
    (name value expression typeName newId : String) (h : s.hasInstanceForId id = false) :
    s.removeInstanceRelationsip id = some s ∧
    s.resetInstanceProperty L ⟨id, name⟩ = some s ∧
    s.setInstancePropertyVariant L ⟨id, name, value, typeName⟩ = some s ∧
    s.setInstancePropertyBinding L ⟨id, name, expression, typeName⟩ = some s ∧
    s.changeId ⟨id, newId⟩ = some s := by
  refine ⟨NodeInstanceServer.removeInstanceRelationsip_unregistered s id h, ?_, ?_, ?_, ?_⟩
  · simp [NodeInstanceServer.resetInstanceProperty, h]
  · simp [NodeInstanceServer.setInstancePropertyVariant, h]
  · simp [NodeInstanceServer.setInstancePropertyBinding, h]
  · simp [NodeInstanceServer.changeId, h]

/-- C18, the code at the failing input: on the sample server the id 9 is not
negative and not registered. A ReparentInstances entry for the instance 9
fails (assertion), and so does an entry that names 9 as old or as new parent
of the registered instance 1, while the commands RemoveInstances,
RemoveProperties, ChangePropertyValues, ChangePropertyBindings and ChangeIds
return for an entry with the id 9, and ReparentInstances returns for the
unset parent id -1. -/
theorem reparentInstances_unknown_id_fails :
    sampleServer.hasInstanceForId 9 = false ∧
    (sampleServer.reparentInstances [⟨9, -1, "", -1, ""⟩]).isSome = false ∧
    (sampleServer.reparentInstances [⟨1, 9, "data", -1, ""⟩]).isSome = false ∧
    (sampleServer.reparentInstances [⟨1, -1, "", 9, "data"⟩]).isSome = false ∧
    (sampleServer.reparentInstances [⟨1, -1, "", 0, "data"⟩]).isSome = true ∧
    (sampleServer.removeInstances [9]).isSome = true ∧
    (sampleServer.removeProperties sampleLayer [⟨9, "x"⟩]).isSome = true ∧
    (sampleServer.changePropertyValues sampleLayer [⟨9, "x", "1", ""⟩]).isSome = true ∧
    (sampleServer.changePropertyBindings sampleLayer [⟨9, "x", "parent.x", ""⟩]).isSome = true ∧
    (sampleServer.changeIds [⟨9, "rect"⟩]).isSome = true := by
  decide

/-! ## Pixmap commands for removed instances -/

/-- C20, the code at the failing input: from the constructed server, the
scene is created, the instance 1 is created, a "width" change of it is
notified and the instance is removed by RemoveInstances. At the tick of the
timer 1 neither the id 1 nor the object 101 is registered, and the detection
pass sends a pixmap-changed command built from the removed instance. -/
theorem pixmap_command_for_removed_instance :
    (runServerOps sampleLayer NodeInstanceServer.init
        [.createScene, .createInstances [⟨1, "Rectangle"⟩], .notifyPropertyChange 1 "width",
         .removeInstances [1]]).map (fun s1 =>
      (s1.hasInstanceForId 1, s1.hasInstanceForObject 101, s1.m_timer)) =
      some (false, false, 1) ∧
    (runServerOps sampleLayer NodeInstanceServer.init
        [.createScene, .createInstances [⟨1, "Rectangle"⟩], .notifyPropertyChange 1 "width",
         .removeInstances [1]]).map (fun s1 =>
      (s1.m_idInstanceHash.size, s1.m_objectInstanceHash.size)) = some (0, 0) ∧
    ((runServerOps sampleLayer NodeInstanceServer.init
        [.createScene, .createInstances [⟨1, "Rectangle"⟩], .notifyPropertyChange 1 "width",
         .removeInstances [1]]).bind (fun s1 =>
      (s1.timerEvent sampleLayer 1).map (fun s2 =>
        (newClientCalls s1 s2).filter (fun c =>
          decide (c = ClientCall.pixmapChanged ⟨1, 101, true⟩))))) =
      some [ClientCall.pixmapChanged ⟨1, 101, true⟩] := by
  decide

/-! ## The dirty test on children without an instance -/

namespace NodeInstanceServer

/-- The recursive call of `nonInstanceChildIsDirty` on a graphics object whose
`dirtyChildren` flag is clear returns false. -/
theorem nonInstanceChildIsDirty_of_clean (s : NodeInstanceServer) (c : QGraphicsItem)
    (ho : c.object ≠ 0) (hd : c.dirtyChildren = false) :
    s.nonInstanceChildIsDirty c = some false := by
  cases c with
  | mk o a b d n dc r cs =>
    simp only [QGraphicsItem.object, QGraphicsItem.dirtyChildren] at ho hd
    rw [nonInstanceChildIsDirty, if_neg ho, hd]
    rfl

/-- The loop of `nonInstanceChildIsDirty` over children that are graphics
objects is the one-level test on the children. -/
theorem nonInstanceChildIsDirtyLoop_eq (s : NodeInstanceServer) (cs : List QGraphicsItem)
    (h : ∀ c ∈ cs, c.object ≠ 0) :
    s.nonInstanceChildIsDirtyLoop cs = some (cs.any (fun c =>
      !s.hasInstanceForObject c.object && (c.dirty || c.dirtyChildren))) := by
  induction cs with
  | nil => rw [nonInstanceChildIsDirtyLoop]; rfl
  | cons c rest ih =>
    have ih1 := ih (fun x hx => h x (List.mem_cons_of_mem _ hx))
    rw [nonInstanceChildIsDirtyLoop]
    by_cases hi : s.hasInstanceForObject c.object = true
    · rw [if_pos hi, ih1]
      simp [hi]
    · rw [if_neg hi]
      by_cases hd : (c.dirty || c.dirtyChildren) = true
      · rw [if_pos hd]
        simp [hi, hd]
      · rw [if_neg hd]
        have hdc : c.dirtyChildren = false := by
          cases hc : c.dirtyChildren
          · rfl
          · simp [hc] at hd
        rw [nonInstanceChildIsDirty_of_clean s c (h c (List.mem_cons_self _ _)) hdc]
        simp only
        rw [ih1]
        simp [hi, hd]

theorem allGraphicsObjects_children (g : QGraphicsItem) (hg : allGraphicsObjects g = true) :
    g.object ≠ 0 ∧ ∀ c ∈ g.childItems, c.object ≠ 0 := by
  cases g with
  | mk o a b d n dc r cs =>
    rw [allGraphicsObjects] at hg
    simp only [Bool.and_eq_true, Bool.not_eq_true', decide_eq_false_iff_not] at hg
    refine ⟨hg.1, ?_⟩
    have hcs := hg.2
    simp only [QGraphicsItem.childItems]
    clear hg
    induction cs with
    | nil => intro c hc; cases hc
    | cons x rest ih =>
      rw [allGraphicsObjectsList] at hcs
      simp only [Bool.and_eq_true] at hcs
      intro c hc
      rcases List.mem_cons.1 hc with rfl | hc
      · cases c with
        | mk o2 a2 b2 d2 n2 dc2 r2 cs2 =>
          have := hcs.1
          rw [allGraphicsObjects] at this
          simp only [Bool.and_eq_true, Bool.not_eq_true', decide_eq_false_iff_not] at this
          exact this.1
      · exact ih hcs.2 c hc

/-- On a graphics object whose children are graphics objects,
`nonInstanceChildIsDirty` is the one-level test. -/
theorem nonInstanceChildIsDirty_eq (s : NodeInstanceServer) (g : QGraphicsItem)
    (ho : g.object ≠ 0) (hc : ∀ c ∈ g.childItems, c.object ≠ 0) :
    s.nonInstanceChildIsDirty g = some (oneLevelDirtyTest s g) := by
  cases g with
  | mk o a b d n dc r cs =>
    simp only [QGraphicsItem.object, QGraphicsItem.childItems] at ho hc
    rw [nonInstanceChildIsDirty, if_neg ho]
    unfold oneLevelDirtyTest
    simp only [QGraphicsItem.dirtyChildren, QGraphicsItem.childItems]
    cases dc
    · simp
    · simp only [if_true, Bool.true_and]
      exact nonInstanceChildIsDirtyLoop_eq s cs hc

end NodeInstanceServer

/-- C28: for every item tree whose items are all graphics objects,
`nonInstanceChildIsDirty(g)` returns, and what it returns is the one-level
test: `g` has its `dirtyChildren` flag set and some direct child of `g`
without a registered instance has its `dirty` or its `dirtyChildren` flag
set. The recursive call never changes the result: it is only reached on a
child without instance whose two flags are clear, where it returns false.
Children with a registered instance are never inspected: two items with the
same `dirtyChildren` flag and the same children without instance give the
same result. -/
theorem nonInstanceChildIsDirty_is_one_level_test (s : NodeInstanceServer) (g : QGraphicsItem)
    (hg : allGraphicsObjects g = true) :
    s.nonInstanceChildIsDirty g = some (oneLevelDirtyTest s g) ∧
    (∀ c ∈ g.childItems, s.hasInstanceForObject c.object = false → c.dirty = false →
      c.dirtyChildren = false → s.nonInstanceChildIsDirty c = some false) ∧
    (∀ g2 : QGraphicsItem, allGraphicsObjects g2 = true →
      g2.dirtyChildren = g.dirtyChildren →
      g2.childItems.filter (fun c => !s.hasInstanceForObject c.object) =
        g.childItems.filter (fun c => !s.hasInstanceForObject c.object) →
      s.nonInstanceChildIsDirty g2 = s.nonInstanceChildIsDirty g) := by
  obtain ⟨ho, hc⟩ := NodeInstanceServer.allGraphicsObjects_children g hg
  refine ⟨NodeInstanceServer.nonInstanceChildIsDirty_eq s g ho hc, ?_, ?_⟩
  · intro c hmem _ _ hdc
    exact NodeInstanceServer.nonInstanceChildIsDirty_of_clean s c (hc c hmem) hdc
  · intro g2 hg2 hflag hfilter
    obtain ⟨ho2, hc2⟩ := NodeInstanceServer.allGraphicsObjects_children g2 hg2
    rw [NodeInstanceServer.nonInstanceChildIsDirty_eq s g ho hc,
      NodeInstanceServer.nonInstanceChildIsDirty_eq s g2 ho2 hc2]
    unfold oneLevelDirtyTest
    rw [hflag]
    have key : ∀ cs : List QGraphicsItem,
        cs.any (fun c => !s.hasInstanceForObject c.object && (c.dirty || c.dirtyChildren)) =
        (cs.filter (fun c => !s.hasInstanceForObject c.object)).any
          (fun c => c.dirty || c.dirtyChildren) := by
      intro cs
      rw [List.any_filter]
    rw [key g.childItems, key g2.childItems, hfilter]

/-- A witness for C28: the root of the sample item tree has a dirty
registered child, a clean child without instance that has a dirty child of its own, and a child
without instance whose `dirtyChildren` flag is set, which decides the test. -/
theorem nonInstanceChildIsDirty_is_one_level_test_witness :
    allGraphicsObjects sampleItemTree = true ∧
    sampleServer.nonInstanceChildIsDirty sampleItemTree = some true :=
  ⟨by decide,
   (nonInstanceChildIsDirty_is_one_level_test sampleServer sampleItemTree (by decide)).1.trans
     (by decide)⟩

/-! ## The information-changed command -/

namespace NodeInstanceServer

theorem informationOf_filter_type (L : InstanceLayer) (inst : ServerNodeInstance) :
    (informationOf L inst true).filter
        (fun e => decide (e.name = InformationName.InstanceTypeForProperty)) =
      (L.propertyNames inst).map
        (fun n => ⟨inst.instanceId, InformationName.InstanceTypeForProperty, n⟩) := by
  simp [informationOf, anchorLines, List.filter_append, List.filter_map, Function.comp_def]

theorem informationOf_filter_other (L : InstanceLayer) (inst : ServerNodeInstance) :
    (informationOf L inst true).filter
        (fun e => !decide (e.name = InformationName.InstanceTypeForProperty)) =
      informationOf L inst false := by
  simp [informationOf, anchorLines, List.filter_append, List.filter_map, Function.comp_def]

theorem informationOf_no_type (L : InstanceLayer) (inst : ServerNodeInstance)
    (e : InformationContainer) (he : e ∈ informationOf L inst false) :
    e.name ≠ InformationName.InstanceTypeForProperty := by
  simp only [informationOf, anchorLines, List.mem_append, List.mem_cons, List.mem_map,
    List.mem_filter, Bool.false_eq_true, if_false, List.not_mem_nil, or_false, List.map_cons,
    List.map_nil, List.mem_singleton] at he
  rcases he with ((h | h) | h) <;> aesop

theorem informationOf_ids (L : InstanceLayer) (inst : ServerNodeInstance) ( initial : Bool) :
    (informationOf L inst initial).map (fun e => e.instanceId) =
      List.replicate (informationCount L inst initial) inst.instanceId := by
  rw [List.eq_replicate_iff]
  constructor
  · cases initial <;>
      simp [informationOf, anchorLines, informationCount] <;> omega
  · intro b hb
    simp only [List.mem_map] at hb
    obtain ⟨e, he, rfl⟩ := hb
    cases initial <;>
      simp only [informationOf, anchorLines, List.mem_append, List.mem_cons, List.mem_map,
        List.mem_filter, Bool.false_eq_true, if_false, if_true, List.not_mem_nil, or_false,
        List.map_cons, List.map_nil, List.mem_singleton] at he <;>
      aesop

theorem informationOf_kinds (L : InstanceLayer) (inst : ServerNodeInstance) ( initial : Bool) :
    (∀ k ∈ plainInformationKinds, ⟨inst.instanceId, k, ""⟩ ∈ informationOf L inst initial) ∧
    (∀ a ∈ anchorLines,
      ⟨inst.instanceId, InformationName.HasAnchor, a⟩ ∈ informationOf L inst initial ∧
      ⟨inst.instanceId, InformationName.Anchor, a⟩ ∈ informationOf L inst initial) := by
  constructor
  · intro k hk
    simp only [plainInformationKinds, List.mem_cons, List.mem_singleton, List.not_mem_nil,
      or_false] at hk
    rcases hk with h | h | h | h | h | h | h | h | h | h | h | h | h <;> subst h <;>
      simp [informationOf]
  · intro a ha
    constructor
    · simp only [informationOf, List.mem_append, List.mem_map]
      exact Or.inl (Or.inl (Or.inl (Or.inr ⟨a, ha, rfl⟩)))
    · simp only [informationOf, List.mem_append, List.mem_map]
      exact Or.inl (Or.inl (Or.inr ⟨a, ha, rfl⟩))

theorem informationOf_anchor_count (L : InstanceLayer) (inst : ServerNodeInstance)
    ( initial : Bool) (a : String) (ha : a ∈ anchorLines) :
    (informationOf L inst initial).countP
        (fun e => decide (e = ⟨inst.instanceId, InformationName.HasAnchor, a⟩)) = 1 ∧
    (informationOf L inst initial).countP
        (fun e => decide (e = ⟨inst.instanceId, InformationName.Anchor, a⟩)) = 1 := by
  simp only [anchorLines, List.mem_cons, List.mem_singleton, List.not_mem_nil, or_false] at ha
  rcases ha with h | h | h | h | h | h | h | h | h <;> subst h <;> cases initial <;>
    simp [informationOf, anchorLines, List.countP_append, List.countP_map, List.countP_cons,
      Function.comp_def, InformationContainer.mk.injEq]

theorem createAllInformationChangedCommand_cons (L : InstanceLayer) (inst : ServerNodeInstance)
    (rest : List ServerNodeInstance) ( initial : Bool) :
    createAllInformationChangedCommand L (inst :: rest) initial =
      informationOf L inst initial ++ createAllInformationChangedCommand L rest initial := by
  simp [createAllInformationChangedCommand]

theorem mem_createAllInformationChangedCommand (L : InstanceLayer)
    (instanceList : List ServerNodeInstance) ( initial : Bool) (e : InformationContainer) :
    e ∈ createAllInformationChangedCommand L instanceList initial ↔
      ∃ inst ∈ instanceList, e ∈ informationOf L inst initial := by
  simp [createAllInformationChangedCommand]

end NodeInstanceServer

/-- C26: `createAllInformationChangedCommand(instances, initial)` has no
InstanceTypeForProperty entry unless `initial` is set; in initial mode its
InstanceTypeForProperty entries are one per property name of each instance,
in instance-list order; without those entries the command of the initial
mode is the command of the other mode; the entries of each instance are
contiguous and in instance-list order (the instance ids of the entries are
one block per instance); and for every instance of the list the command has
an entry of each of the kinds Position, Transform, SceneTransform, Size,
BoundingRect, HasContent, IsMovable, IsResizable, IsInPositioner, PenWidth,
Parent, IsAnchoredByChildren and IsAnchoredBySibling, and a HasAnchor and an
Anchor entry for each of the nine anchor lines, of which the entries of one
instance have exactly one each. -/
theorem createAllInformationChangedCommand_contract (L : InstanceLayer)
    (instanceList : List ServerNodeInstance) :
    (∀ e ∈ NodeInstanceServer.createAllInformationChangedCommand L instanceList false,
      e.name ≠ InformationName.InstanceTypeForProperty) ∧
    ((NodeInstanceServer.createAllInformationChangedCommand L instanceList true).filter
        (fun e => decide (e.name = InformationName.InstanceTypeForProperty)) =
      instanceList.flatMap (fun inst => (L.propertyNames inst).map
        (fun n => ⟨inst.instanceId, InformationName.InstanceTypeForProperty, n⟩))) ∧
    ((NodeInstanceServer.createAllInformationChangedCommand L instanceList true).filter
        (fun e => !decide (e.name = InformationName.InstanceTypeForProperty)) =
      NodeInstanceServer.createAllInformationChangedCommand L instanceList false) ∧
    (∀ initial : Bool,
      (NodeInstanceServer.createAllInformationChangedCommand L instanceList initial).map
          (fun e => e.instanceId) =
        instanceList.flatMap (fun inst =>
          List.replicate (informationCount L inst initial) inst.instanceId)) ∧
    (∀ ( initial : Bool) (inst : ServerNodeInstance), inst ∈ instanceList →
      (∀ k ∈ plainInformationKinds, ⟨inst.instanceId, k, ""⟩ ∈
        NodeInstanceServer.createAllInformationChangedCommand L instanceList initial) ∧
      (∀ a ∈ NodeInstanceServer.anchorLines,
        ⟨inst.instanceId, InformationName.HasAnchor, a⟩ ∈
          NodeInstanceServer.createAllInformationChangedCommand L instanceList initial ∧
        ⟨inst.instanceId, InformationName.Anchor, a⟩ ∈
          NodeInstanceServer.createAllInformationChangedCommand L instanceList initial)) ∧
    (∀ ( initial : Bool) (inst : ServerNodeInstance), ∀ a ∈ NodeInstanceServer.anchorLines,
      (NodeInstanceServer.createAllInformationChangedCommand L [inst] initial).countP
          (fun e => decide (e = ⟨inst.instanceId, InformationName.HasAnchor, a⟩)) = 1 ∧
      (NodeInstanceServer.createAllInformationChangedCommand L [inst] initial).countP
          (fun e => decide (e = ⟨inst.instanceId, InformationName.Anchor, a⟩)) = 1) ∧
    NodeInstanceServer.anchorLines.length = 9 ∧ NodeInstanceServer.anchorLines.Nodup := by
  refine ⟨?_, ?_, ?_, ?_, ?_, ?_, by decide, by decide⟩
  · intro e he
    obtain ⟨inst, _, hi⟩ :=
      (NodeInstanceServer.mem_createAllInformationChangedCommand L instanceList false e).1 he
    exact NodeInstanceServer.informationOf_no_type L inst e hi
  · induction instanceList with
    | nil => rfl
    | cons inst rest ih =>
      rw [NodeInstanceServer.createAllInformationChangedCommand_cons, List.filter_append, ih,
        NodeInstanceServer.informationOf_filter_type]
      simp
  · induction instanceList with
    | nil => rfl
    | cons inst rest ih =>
      rw [NodeInstanceServer.createAllInformationChangedCommand_cons, List.filter_append, ih,
        NodeInstanceServer.informationOf_filter_other,
        NodeInstanceServer.createAllInformationChangedCommand_cons]
  · intro initial
    induction instanceList with
    | nil => rfl
    | cons inst rest ih =>
      rw [NodeInstanceServer.createAllInformationChangedCommand_cons, List.map_append, ih,
        NodeInstanceServer.informationOf_ids]
      simp
  · intro initial inst hmem
    obtain ⟨hk, ha⟩ := NodeInstanceServer.informationOf_kinds L inst initial
    refine ⟨fun k hkm => ?_, fun a ham => ⟨?_, ?_⟩⟩
    · exact (NodeInstanceServer.mem_createAllInformationChangedCommand L instanceList initial
        _).2 ⟨inst, hmem, hk k hkm⟩
    · exact (NodeInstanceServer.mem_createAllInformationChangedCommand L instanceList initial
        _).2 ⟨inst, hmem, (ha a ham).1⟩
    · exact (NodeInstanceServer.mem_createAllInformationChangedCommand L instanceList initial
        _).2 ⟨inst, hmem, (ha a ham).2⟩
  · intro initial inst a ha
    have h1 : NodeInstanceServer.createAllInformationChangedCommand L [inst] initial =
        NodeInstanceServer.informationOf L inst initial := by
      simp [NodeInstanceServer.createAllInformationChangedCommand]
    rw [h1]
    exact NodeInstanceServer.informationOf_anchor_count L inst initial a ha

/-- A witness for C26: the initial command for the sample instances 0 and 1
has 68 entries, 34 for each instance, of which two each are
InstanceTypeForProperty entries, for the property names "x" and "width". -/
theorem createAllInformationChangedCommand_contract_witness :
    ((⟨1, 101, true⟩ : ServerNodeInstance) ∈
      [(⟨0, 100, true⟩ : ServerNodeInstance), ⟨1, 101, true⟩]) ∧
    (⟨1, InformationName.Anchor, "anchors.baseline"⟩ : InformationContainer) ∈
      NodeInstanceServer.createAllInformationChangedCommand sampleLayer
        [⟨0, 100, true⟩, ⟨1, 101, true⟩] true ∧
    (NodeInstanceServer.createAllInformationChangedCommand sampleLayer
        [⟨0, 100, true⟩, ⟨1, 101, true⟩] true).filter
        (fun e => decide (e.name = InformationName.InstanceTypeForProperty)) =
      [⟨0, .InstanceTypeForProperty, "x"⟩, ⟨0, .InstanceTypeForProperty, "width"⟩,
       ⟨1, .InstanceTypeForProperty, "x"⟩, ⟨1, .InstanceTypeForProperty, "width"⟩] ∧
    (NodeInstanceServer.createAllInformationChangedCommand sampleLayer
        [⟨0, 100, true⟩, ⟨1, 101, true⟩] true).length = 68 :=
  ⟨by decide,
   (((createAllInformationChangedCommand_contract sampleLayer
      [⟨0, 100, true⟩, ⟨1, 101, true⟩]).2.2.2.2.1 true ⟨1, 101, true⟩ (by decide)).2
        "anchors.baseline" (by decide)).2,
   by decide, by decide⟩

/-! ## Refreshing file properties -/

/-- C27, the code at the failing input: the file-watch table has the pair
(101, "source") under "a.png" and the pair (102, "source") under "b.png", and
both objects have a registered instance. `refreshLocalFileProperty("a.png")`
refreshes both pairs, the one registered only under "b.png" included, and so
does `refreshLocalFileProperty("b.png")`; for the path "c.png", which has no
entry, nothing is refreshed. -/
theorem refreshLocalFileProperty_refreshes_other_paths :
    sampleTwoWatchedFiles.m_fileSystemWatcherHash =
      [("b.png", (102, "source")), ("a.png", (101, "source"))] ∧
    sampleTwoWatchedFiles.hasInstanceForObject 101 = true ∧
    sampleTwoWatchedFiles.hasInstanceForObject 102 = true ∧
    (sampleTwoWatchedFiles.refreshLocalFileProperty "a.png").map
        (fun s1 => newCalls sampleTwoWatchedFiles s1) =
      some [.refreshProperty ⟨2, 102, true⟩ "source", .refreshProperty ⟨1, 101, true⟩ "source"] ∧
    (sampleTwoWatchedFiles.refreshLocalFileProperty "b.png").map
        (fun s1 => newCalls sampleTwoWatchedFiles s1) =
      some [.refreshProperty ⟨2, 102, true⟩ "source", .refreshProperty ⟨1, 101, true⟩ "source"] ∧
    (sampleTwoWatchedFiles.refreshLocalFileProperty "c.png").map
        (fun s1 => newCalls sampleTwoWatchedFiles s1) = some [] := by
  decide

/-! ## The re-entrancy guard -/

/-- C25: a detection call made while the guard `inFunction` is set returns the
state as it is: no command is emitted and nothing changes. A detection call
that starts with the guard clear returns with the guard clear whenever it
returns, and it returns on each of its branches: without scene and with a
backlog of 100,000 bytes or more it returns the state as it is, and
otherwise it is the pass run between setting and clearing the guard, which
returns whenever every item of the view is a graphics object. Hence the
detection call that follows a finished one with a scene and a backlog below
the threshold runs the pass again. -/
theorem reentrancy_guard (L : InstanceLayer) (s : NodeInstanceServer) :
    (s.inFunction = true → s.findItemChangesAndSendChangeCommands L = some s) ∧
    (s.inFunction = false →
      (∀ s2, s.findItemChangesAndSendChangeCommands L = some s2 → s2.inFunction = false) ∧
      (s.m_declarativeView = none → s.findItemChangesAndSendChangeCommands L = some s) ∧
      (100000 ≤ s.m_nodeInstanceClient.bytesToWrite →
        s.findItemChangesAndSendChangeCommands L = some s) ∧
      (∀ v, s.m_declarativeView = some v → s.m_nodeInstanceClient.bytesToWrite < 100000 →
        s.findItemChangesAndSendChangeCommands L =
          (NodeInstanceServer.detectionPass L (enterPass s) v).map leavePass ∧
        (allGraphicsObjectsList v.items = true →
          (s.findItemChangesAndSendChangeCommands L).isSome = true)) ∧
      (∀ s2 v2, s.findItemChangesAndSendChangeCommands L = some s2 →
        s2.m_declarativeView = some v2 → s2.m_nodeInstanceClient.bytesToWrite < 100000 →
        s2.findItemChangesAndSendChangeCommands L =
          (NodeInstanceServer.detectionPass L (enterPass s2) v2).map leavePass)) := by
  have hclear : s.inFunction = false →
      ∀ s2, s.findItemChangesAndSendChangeCommands L = some s2 → s2.inFunction = false := by
    intro hin s2 h
    unfold NodeInstanceServer.findItemChangesAndSendChangeCommands at h
    split at h
    · simp only [Option.map_eq_some'] at h
      obtain ⟨st, _, rfl⟩ := h
      rfl
    · cases h
      exact hin
  refine ⟨?_, fun hin => ⟨hclear hin, ?_, ?_, ?_, ?_⟩⟩
  · intro hin
    unfold NodeInstanceServer.findItemChangesAndSendChangeCommands
    simp [hin]
  · exact NodeInstanceServer.detection_without_view L s
  · exact NodeInstanceServer.detection_deferred L s
  · intro v hv hb
    have heq := NodeInstanceServer.detection_with_view L s v hin hb hv
    refine ⟨heq, fun hitems => ?_⟩
    rw [heq, Option.isSome_map']
    exact (detectionPass_isSome_of_graphicsObjects L (enterPass s) v hitems).1
  · intro s2 v2 h hv2 hb2
    exact NodeInstanceServer.detection_with_view L s2 v2 (hclear hin s2 h) hb2 hv2

/-- A witness for C25: on the sample server with the guard set the detection
call changes nothing, although a change is queued; with the guard clear it
runs the pass, which reports the queued change, and returns with the guard
clear. -/
theorem reentrancy_guard_witness :
    (enterPass sampleServer).inFunction = true ∧
    (enterPass sampleServer).findItemChangesAndSendChangeCommands sampleLayer =
      some (enterPass sampleServer) ∧
    sampleServer.inFunction = false ∧
    (sampleServer.findItemChangesAndSendChangeCommands sampleLayer).map
        (fun s2 => (s2.inFunction, s2.m_changedPropertyList, newClientCalls sampleServer s2)) =
      some (false, [], [.valuesChanged [(1, "width")], .pixmapChanged ⟨1, 101, true⟩, .flush]) :=
  ⟨rfl, (reentrancy_guard sampleLayer (enterPass sampleServer)).1 rfl, rfl, by decide⟩

/-! ## Overlap of the result sets -/

theorem insertNew_nodup {α : Type} [DecidableEq α] (l : List α) (a : α) (h : l.Nodup) :
    (insertNew l a).Nodup := by
  unfold insertNew
  split
  · exact h
  · rename_i hn
    rw [List.nodup_append]
    refine ⟨h, List.nodup_singleton a, ?_⟩
    intro x hx hx2
    rw [List.mem_singleton] at hx2
    exact hn (hx2 ▸ hx)

namespace NodeInstanceServer

/-- What the scan of one item does to the two sets: each set stays or gets
one instance, and the instance of an item that is dirty while its scene
transform is not dirty is inserted in both. -/
theorem scanItem_sets (s s1 : NodeInstanceServer) (l l1 : DetectionLocals)
    (item : QGraphicsItem) (h : scanItem (s, l) item = some (s1, l1)) :
    (l1.informationChangedInstanceSet = l.informationChangedInstanceSet ∨
      ∃ inst, l1.informationChangedInstanceSet = insertNew l.informationChangedInstanceSet inst) ∧
    (l1.dirtyInstanceSet = l.dirtyInstanceSet ∨
      ∃ inst, l1.dirtyInstanceSet = insertNew l.dirtyInstanceSet inst) ∧
    (∀ inst, s.hasInstanceForObject item.object = true →
      s.instanceForObject item.object = some inst →
      item.dirty = true → item.dirtySceneTransform = false →
      l1.informationChangedInstanceSet = insertNew l.informationChangedInstanceSet inst ∧
      l1.dirtyInstanceSet = insertNew l.dirtyInstanceSet inst) := by
  unfold scanItem at h
  simp only at h
  split at h
  · split at h
    · cases h
    · rename_i inst hinst
      split at h
      · cases h
      · rename_i d hd
        simp only [Option.some.injEq, Prod.mk.injEq] at h
        obtain ⟨h1, h2⟩ := h
        subst h1 h2
        refine ⟨?_, ?_, ?_⟩
        · split <;> split
          · exact Or.inr ⟨inst, rfl⟩
          · exact Or.inl rfl
          · exact Or.inr ⟨inst, rfl⟩
          · exact Or.inl rfl
        · split <;> split
          · exact Or.inr ⟨inst, rfl⟩
          · exact Or.inr ⟨inst, rfl⟩
          · exact Or.inl rfl
          · exact Or.inl rfl
        · intro inst2 _ hi2 hdirty hst
          rw [hinst] at hi2
          cases hi2
          simp only [hdirty, hst, Bool.not_false, Bool.and_true, Bool.or_true, Bool.true_and,
            if_true, Option.some.injEq] at hd
          subst hd
          simp [hdirty]
  · rename_i hc
    simp only [Option.some.injEq, Prod.mk.injEq] at h
    obtain ⟨h1, h2⟩ := h
    subst h1 h2
    refine ⟨Or.inl rfl, Or.inl rfl, ?_⟩
    intro inst hh hi _ _
    exfalso
    apply hc
    have ho : item.object ≠ 0 := by
      intro h0
      rw [h0] at hh
      simp [hasInstanceForObject] at hh
    simp [ho, hh]

theorem forEach_scanItem_sets (items : List QGraphicsItem) (s s1 : NodeInstanceServer)
    (l l1 : DetectionLocals) (h : forEach scanItem (s, l) items = some (s1, l1)) :
    (l.informationChangedInstanceSet.Nodup → l1.informationChangedInstanceSet.Nodup) ∧
    (l.dirtyInstanceSet.Nodup → l1.dirtyInstanceSet.Nodup) ∧
    (∀ x ∈ l.informationChangedInstanceSet, x ∈ l1.informationChangedInstanceSet) ∧
    (∀ x ∈ l.dirtyInstanceSet, x ∈ l1.dirtyInstanceSet) ∧
    (∀ item ∈ items, ∀ inst, s.hasInstanceForObject item.object = true →
      s.instanceForObject item.object = some inst →
      item.dirty = true → item.dirtySceneTransform = false →
      inst ∈ l1.informationChangedInstanceSet ∧ inst ∈ l1.dirtyInstanceSet) := by
  induction items generalizing s l with
  | nil =>
    simp only [forEach, Option.some.injEq, Prod.mk.injEq] at h
    obtain ⟨h1, h2⟩ := h
    subst h1 h2
    exact ⟨id, id, fun _ hx => hx, fun _ hx => hx, fun _ hi => by cases hi⟩
  | cons item rest ih =>
    simp only [forEach] at h
    cases hi : scanItem (s, l) item with
    | none => simp [hi] at h
    | some r =>
      obtain ⟨s2, l2⟩ := r
      simp only [hi] at h
      obtain ⟨hinfo, hdirty, hboth⟩ := scanItem_sets s s2 l l2 item hi
      obtain ⟨hs, _, _⟩ := scanItem_frame s s2 l l2 item hi
      obtain ⟨n1, n2, m1, m2, hitems⟩ := ih s2 l2 h
      have hreg : ∀ o, s2.hasInstanceForObject o = s.hasInstanceForObject o ∧
          s2.instanceForObject o = s.instanceForObject o := by
        intro o
        rcases hs with rfl | ⟨rect, rfl⟩
        · exact ⟨rfl, rfl⟩
        · exact ⟨rfl, rfl⟩
      have minfo : ∀ x ∈ l.informationChangedInstanceSet,
          x ∈ l2.informationChangedInstanceSet := by
        intro x hx
        rcases hinfo with h0 | ⟨i, h0⟩
        · rw [h0]; exact hx
        · rw [h0]; exact (mem_insertNew _ _ _).2 (Or.inl hx)
      have mdirty : ∀ x ∈ l.dirtyInstanceSet, x ∈ l2.dirtyInstanceSet := by
        intro x hx
        rcases hdirty with h0 | ⟨i, h0⟩
        · rw [h0]; exact hx
        · rw [h0]; exact (mem_insertNew _ _ _).2 (Or.inl hx)
      refine ⟨?_, ?_, fun x hx => m1 x (minfo x hx), fun x hx => m2 x (mdirty x hx), ?_⟩
      · intro hn
        apply n1
        rcases hinfo with h0 | ⟨i, h0⟩
        · rw [h0]; exact hn
        · rw [h0]; exact insertNew_nodup _ _ hn
      · intro hn
        apply n2
        rcases hdirty with h0 | ⟨i, h0⟩
        · rw [h0]; exact hn
        · rw [h0]; exact insertNew_nodup _ _ hn
      · intro it hit inst hh hio hd hst
        rcases List.mem_cons.1 hit with rfl | hit
        · obtain ⟨e1, e2⟩ := hboth inst hh hio hd hst
          refine ⟨m1 inst ?_, m2 inst ?_⟩
          · rw [e1]; exact (mem_insertNew _ _ _).2 (Or.inr rfl)
          · rw [e2]; exact (mem_insertNew _ _ _).2 (Or.inr rfl)
        · exact hitems it hit inst ((hreg _).1.trans hh) ((hreg _).2.trans hio) hd hst

theorem scanChangedProperty_nodup (s : NodeInstanceServer) (l : DetectionLocals)
    (p : InstancePropertyPair) :
    (l.informationChangedInstanceSet.Nodup →
      (scanChangedProperty s l p).informationChangedInstanceSet.Nodup) ∧
    (l.dirtyInstanceSet.Nodup → (scanChangedProperty s l p).dirtyInstanceSet.Nodup) := by
  unfold scanChangedProperty
  simp only
  constructor
  · intro hn
    split <;> split <;> split <;> split <;>
      first
        | exact hn
        | exact insertNew_nodup _ _ hn
        | exact insertNew_nodup _ _ (insertNew_nodup _ _ hn)
  · intro hn
    split <;> split <;> split <;> split <;>
      first
        | exact hn
        | exact insertNew_nodup _ _ hn

theorem foldl_scanChangedProperty_nodup (s : NodeInstanceServer)
    (queue : List InstancePropertyPair) (l : DetectionLocals) :
    (l.informationChangedInstanceSet.Nodup →
      (queue.foldl (scanChangedProperty s) l).informationChangedInstanceSet.Nodup) ∧
    (l.dirtyInstanceSet.Nodup →
      (queue.foldl (scanChangedProperty s) l).dirtyInstanceSet.Nodup) := by
  induction queue generalizing l with
  | nil => exact ⟨id, id⟩
  | cons p rest ih =>
    simp only [List.foldl_cons]
    obtain ⟨h1, h2⟩ := scanChangedProperty_nodup s l p
    obtain ⟨h3, h4⟩ := ih (scanChangedProperty s l p)
    exact ⟨fun hn => h3 (h1 hn), fun hn => h4 (h2 hn)⟩

end NodeInstanceServer

/-- C21, counterexample: the sample server has a queued "width" change of the
instance 1, and in its view the item of the instance 1 is dirty while its
scene transform is not. In the pass the instance 1 is in the
information-changed set and in the pixmap-changed set, and it occurs in the
value-changed list; the detection call sends the three commands for it.
Without the queued change the instance still is in both sets. -/
theorem detection_result_sets_not_disjoint :
    (detectionLocals sampleDirtyServer sampleDirtyView).map (fun l =>
        (l.informationChangedInstanceSet, l.dirtyInstanceSet, l.propertyChangedList)) =
      some ([⟨1, 101, true⟩], [⟨1, 101, true⟩], [(⟨1, 101, true⟩, "width")]) ∧
    (sampleDirtyServer.findItemChangesAndSendChangeCommands sampleLayer).map
        (fun s2 => newClientCalls sampleDirtyServer s2) =
      some [.informationChanged
              (NodeInstanceServer.createAllInformationChangedCommand sampleLayer
                [⟨1, 101, true⟩] false),
            .valuesChanged [(1, "width")], .pixmapChanged ⟨1, 101, true⟩, .flush] ∧
    (detectionLocals { sampleDirtyServer with m_changedPropertyList := [] } sampleDirtyView).map
        (fun l => (l.informationChangedInstanceSet, l.dirtyInstanceSet, l.propertyChangedList)) =
      some ([⟨1, 101, true⟩], [⟨1, 101, true⟩], []) := by
  decide

/-- C21, amended: the result collections of a detection pass
overlap. The instance of every item that is dirty while its scene transform
is not dirty is in the information-changed set and in the pixmap-changed
set, and every queued "width" or "height" change has its instance in the
pixmap-changed set and its record in the value-changed list. Each of the two
sets holds an instance at most once. -/
theorem detection_result_sets_overlap (s : NodeInstanceServer) (view : QDeclarativeView)
    (l : NodeInstanceServer.DetectionLocals) (h : detectionLocals s view = some l) :
    l.informationChangedInstanceSet.Nodup ∧ l.dirtyInstanceSet.Nodup ∧
    (∀ item ∈ view.items, ∀ inst, s.hasInstanceForObject item.object = true →
      s.instanceForObject item.object = some inst →
      item.dirty = true → item.dirtySceneTransform = false →
      inst ∈ l.informationChangedInstanceSet ∧ inst ∈ l.dirtyInstanceSet) ∧
    (∀ inst name, (inst, name) ∈ s.m_changedPropertyList → name = "width" ∨ name = "height" →
      inst ∈ l.dirtyInstanceSet ∧ (inst, name) ∈ l.propertyChangedList) := by
  cases hscan : scanItems s view with
  | none => simp [detectionLocals, hscan] at h
  | some r =>
    obtain ⟨s1, l1⟩ := r
    obtain ⟨hl, _, hp, _⟩ := detectionLocals_of_scan s s1 view l1 hscan
    rw [hl] at h
    cases h
    obtain ⟨n1, n2, _, _, hitems⟩ :=
      NodeInstanceServer.forEach_scanItem_sets view.items s s1 _ l1 hscan
    obtain ⟨q1, q2⟩ :=
      NodeInstanceServer.foldl_scanChangedProperty_nodup s1 s.m_changedPropertyList l1
    obtain ⟨f1, f2, f3, _⟩ :=
      NodeInstanceServer.foldl_scanChangedProperty s1 s.m_changedPropertyList l1
    refine ⟨q1 (n1 List.nodup_nil), q2 (n2 List.nodup_nil), ?_, ?_⟩
    · intro item hit inst hh hio hd hst
      obtain ⟨a, b⟩ := hitems item hit inst hh hio hd hst
      exact ⟨(f2 inst).2 (Or.inl a), (f3 inst).2 (Or.inl b)⟩
    · intro inst name hq hname
      constructor
      · rcases hname with rfl | rfl
        · exact (f3 inst).2 (Or.inr (Or.inl hq))
        · exact (f3 inst).2 (Or.inr (Or.inr hq))
      · rw [f1, hp]
        simp only [List.nil_append, List.mem_filter, Bool.not_eq_true', decide_eq_false_iff_not]
        refine ⟨hq, ?_⟩
        rcases hname with rfl | rfl <;> decide

/-- A witness for the amended C21: on the sample server with the dirty item of
the instance 1 the pass has its locals, and the instance 1, whose "width"
change is queued, is in the pixmap-changed set and its record is in the
value-changed list. -/
theorem detection_result_sets_overlap_witness :
    detectionLocals sampleDirtyServer sampleDirtyView =
      some ⟨[⟨1, 101, true⟩], [⟨1, 101, true⟩], [(⟨1, 101, true⟩, "width")], false⟩ ∧
    (⟨1, 101, true⟩ : ServerNodeInstance) ∈ [(⟨1, 101, true⟩ : ServerNodeInstance)] ∧
    ((⟨1, 101, true⟩ : ServerNodeInstance), "width") ∈
      [((⟨1, 101, true⟩ : ServerNodeInstance), "width")] :=
  ⟨by decide,
   (detection_result_sets_overlap sampleDirtyServer sampleDirtyView
      ⟨[⟨1, 101, true⟩], [⟨1, 101, true⟩], [(⟨1, 101, true⟩, "width")], false⟩ (by decide)).2.2.2
      ⟨1, 101, true⟩ "width" (by decide) (Or.inl rfl)⟩

/-! ## The commands of a detection pass -/

namespace NodeInstanceServer

theorem scanItem_of_noDirtyFlag (s : NodeInstanceServer) (l : DetectionLocals)
    (item : QGraphicsItem) (h : noDirtyFlag item = true) :
    scanItem (s, l) item = some (s, l) := by
  cases item with
  | mk o st g d n dc r cs =>
    simp only [noDirtyFlag, QGraphicsItem.dirtySceneTransform, QGraphicsItem.geometryChanged,
      QGraphicsItem.dirty, QGraphicsItem.dirtyChildren, Bool.and_eq_true, Bool.not_eq_true'] at h
    obtain ⟨⟨⟨rfl, rfl⟩, rfl⟩, rfl⟩ := h
    unfold scanItem
    simp only [QGraphicsItem.object, QGraphicsItem.dirtySceneTransform,
      QGraphicsItem.geometryChanged, QGraphicsItem.dirty, QGraphicsItem.notifyBoundingRectChanged]
    split
    · rename_i hc
      simp only [ne_eq, Bool.and_eq_true, decide_eq_true_eq] at hc
      obtain ⟨ho, hh⟩ := hc
      have hcont : s.m_objectInstanceHash.contains o = true := by
        simpa [hasInstanceForObject, ho] using hh
      simp [instanceForObject, hcont, nonInstanceChildIsDirty, ho]
    · rfl

theorem forEach_scanItem_of_noDirtyFlag (items : List QGraphicsItem) (s : NodeInstanceServer)
    (l : DetectionLocals) (h : ∀ item ∈ items, noDirtyFlag item = true) :
    forEach scanItem (s, l) items = some (s, l) := by
  induction items with
  | nil => rfl
  | cons item rest ih =>
    simp only [forEach]
    rw [scanItem_of_noDirtyFlag s l item (h item (List.mem_cons_self _ _))]
    exact ih (fun x hx => h x (List.mem_cons_of_mem _ hx))

end NodeInstanceServer

/-- What a detection call that runs the pass returns: the state in which the
pass, run with the guard set, ends, with the guard cleared. -/
theorem detection_result_of_pass (L : InstanceLayer) (s s2 : NodeInstanceServer)
    (v : QDeclarativeView) (hin : s.inFunction = false)
    (hb : s.m_nodeInstanceClient.bytesToWrite < 100000) (hv : s.m_declarativeView = some v)
    (h : s.findItemChangesAndSendChangeCommands L = some s2) :
    ∃ s3, NodeInstanceServer.detectionPass L (enterPass s) v = some s3 ∧ s2 = leavePass s3 := by
  rw [NodeInstanceServer.detection_with_view L s v hin hb hv] at h
  simp only [Option.map_eq_some'] at h
  obtain ⟨s3, h3, rfl⟩ := h
  exact ⟨s3, h3, rfl⟩

/-- C23: a detection call with a scene, a backlog below 100,000 bytes and the
guard clear runs the pass. Whenever it returns, the calls it made on the
client are, in this order: the information-changed command for the
information-changed set if and only if that set is not empty, the
values-changed command for the value-changed list if and only if that list
is not empty, one pixmap-changed command for each member of the
pixmap-changed set, and the final `flush` of the channel. It returns whenever
every item of the view is a graphics object. With an empty queue and no
dirty flag set on any item it returns and the `flush` is its only call: it
emits no command. -/
theorem detection_pass_commands (L : InstanceLayer) (s : NodeInstanceServer)
    (v : QDeclarativeView) (hin : s.inFunction = false)
    (hb : s.m_nodeInstanceClient.bytesToWrite < 100000) (hv : s.m_declarativeView = some v) :
    (∀ s2, s.findItemChangesAndSendChangeCommands L = some s2 →
      ∃ l, detectionLocals (enterPass s) v = some l ∧
        newClientCalls s s2 =
          (if l.informationChangedInstanceSet.isEmpty then []
           else [ClientCall.informationChanged
             (NodeInstanceServer.createAllInformationChangedCommand L
               l.informationChangedInstanceSet false)])
          ++ (if l.propertyChangedList.isEmpty then []
              else [ClientCall.valuesChanged
                (NodeInstanceServer.createValuesChangedCommandForProperties L
                  l.propertyChangedList)])
          ++ l.dirtyInstanceSet.map (fun inst =>
              ClientCall.pixmapChanged (NodeInstanceServer.createPixmapChangedCommand inst))
          ++ [ClientCall.flush]) ∧
    (allGraphicsObjectsList v.items = true →
      (s.findItemChangesAndSendChangeCommands L).isSome = true) ∧
    (s.m_changedPropertyList = [] → (∀ item ∈ v.items, noDirtyFlag item = true) →
      ∃ s2, s.findItemChangesAndSendChangeCommands L = some s2 ∧
        newClientCalls s s2 = [ClientCall.flush]) := by
  refine ⟨?_, ?_, ?_⟩
  · intro s2 h
    obtain ⟨s3, h3, rfl⟩ := detection_result_of_pass L s s2 v hin hb hv h
    obtain ⟨l, hl, hc⟩ := detectionPass_newClientCalls L (enterPass s) s3 v h3
    refine ⟨l, hl, ?_⟩
    have : newClientCalls s (leavePass s3) = newClientCalls (enterPass s) s3 := rfl
    rw [this, hc]
    rfl
  · intro hitems
    rw [NodeInstanceServer.detection_with_view L s v hin hb hv, Option.isSome_map']
    exact (detectionPass_isSome_of_graphicsObjects L (enterPass s) v hitems).1
  · intro hq hclean
    have hscan : scanItems (enterPass s) v =
        some (enterPass s, NodeInstanceServer.DetectionLocals.init) :=
      NodeInstanceServer.forEach_scanItem_of_noDirtyFlag v.items (enterPass s) _ hclean
    have hpass := NodeInstanceServer.detectionPass_of_scan L (enterPass s) (enterPass s) v _ hscan
    rw [NodeInstanceServer.detection_with_view L s v hin hb hv, hpass]
    refine ⟨_, rfl, ?_⟩
    have hq2 : (enterPass s).m_changedPropertyList = [] := hq
    simp only [hq2, List.foldl_nil]
    unfold newClientCalls leavePass
    simp only [NodeInstanceServer.send, NodeInstanceServer.slowDownRenderTimer_client]
    simp [emittedCommands, NodeInstanceServer.DetectionLocals.init, enterPass]

/-- A witness for C23: on the sample server, whose queue holds a "width"
change of the instance 1 and whose view has no item, the detection call emits
no information-changed command, then the values-changed command, then the
pixmap-changed command of the instance 1. -/
theorem detection_pass_commands_witness :
    sampleServer.inFunction = false ∧ sampleServer.m_nodeInstanceClient.bytesToWrite < 100000 ∧
    sampleServer.m_declarativeView = some sampleView ∧
    (sampleServer.findItemChangesAndSendChangeCommands sampleLayer).isSome = true ∧
    (sampleServer.findItemChangesAndSendChangeCommands sampleLayer).map
        (fun s2 => newClientCalls sampleServer s2) =
      some [.valuesChanged [(1, "width")], .pixmapChanged ⟨1, 101, true⟩, .flush] :=
  ⟨rfl, by decide, rfl,
   (detection_pass_commands sampleLayer sampleServer sampleView rfl (by decide) rfl).2.1
     (by decide),
   by decide⟩

/-! ## The cadence of the tick source -/

namespace NodeInstanceServer

theorem cadenceConsistent_of_timerState (s s1 : NodeInstanceServer)
    (h : timerState s1 = timerState s) (hc : CadenceConsistent s) : CadenceConsistent s1 := by
  simp only [timerState, Prod.mk.injEq] at h
  obtain ⟨h1, h2, h3⟩ := h
  unfold CadenceConsistent cadenceInterval at *
  rw [h1, h2, h3]
  exact hc

theorem armedInterval_of_consistent (s : NodeInstanceServer) (hc : CadenceConsistent s)
    (ht : s.m_timer ≠ 0) : armedInterval s = some (cadenceInterval s) := by
  unfold CadenceConsistent at hc
  unfold armedInterval
  rw [if_neg ht] at hc ⊢
  rw [hc]
  simp

theorem cadenceConsistent_stopRenderTimer (s : NodeInstanceServer) (hc : CadenceConsistent s) :
    CadenceConsistent s.stopRenderTimer ∧ s.stopRenderTimer.m_timer = 0 ∧
    s.stopRenderTimer.m_slowRenderTimer = s.m_slowRenderTimer := by
  unfold CadenceConsistent cadenceInterval at *
  unfold stopRenderTimer
  by_cases h2 : s.m_timer = 0
  · simp only [h2, ne_eq, not_true_eq_false, if_false, if_true] at hc ⊢
    exact ⟨hc, trivial, trivial⟩
  · simp only [h2, ne_eq, not_false_eq_true, if_true, if_false, QTimers.killTimer] at hc ⊢
    rw [hc]
    simp

theorem cadenceConsistent_startRenderTimer (s : NodeInstanceServer) (hc : CadenceConsistent s) :
    CadenceConsistent s.startRenderTimer ∧ s.startRenderTimer.m_timer ≠ 0 ∧
    s.startRenderTimer.m_slowRenderTimer = false := by
  unfold CadenceConsistent cadenceInterval at *
  unfold startRenderTimer stopRenderTimer
  by_cases h1 : s.m_slowRenderTimer = true <;> by_cases h2 : s.m_timer = 0 <;>
    simp only [h1, h2, ne_eq, not_true_eq_false, not_false_eq_true, if_true, if_false,
      Bool.false_eq_true, QTimers.startTimer, QTimers.killTimer] at hc ⊢ <;>
    simp [hc, h2]

theorem cadenceConsistent_slowDownRenderTimer (s : NodeInstanceServer)
    (hc : CadenceConsistent s) :
    CadenceConsistent s.slowDownRenderTimer ∧ s.slowDownRenderTimer.m_timer ≠ 0 ∧
    s.slowDownRenderTimer.m_slowRenderTimer = true := by
  unfold CadenceConsistent cadenceInterval at *
  unfold slowDownRenderTimer stopRenderTimer
  by_cases h1 : s.m_slowRenderTimer = true <;> by_cases h2 : s.m_timer = 0 <;>
    simp only [h1, h2, ne_eq, not_true_eq_false, not_false_eq_true, if_true, if_false,
      Bool.false_eq_true, Bool.not_true, Bool.not_false, QTimers.startTimer,
      QTimers.killTimer] at hc ⊢ <;>
    simp [hc, h2]

theorem startRenderTimer_of_map (r : Option NodeInstanceServer) (s s1 : NodeInstanceServer)
    (hr : ∀ s2, r = some s2 → timerState s2 = timerState s)
    (h : r.map startRenderTimer = some s1) :
    ∃ s2, timerState s2 = timerState s ∧ s1 = s2.startRenderTimer := by
  cases r with
  | none => simp at h
  | some s2 =>
    simp only [Option.map_some', Option.some.injEq] at h
    exact ⟨s2, hr s2 rfl, h.symm⟩

theorem removeInstanceRelationsip_timerState (s : NodeInstanceServer) (id : Int)
    (s1 : NodeInstanceServer) (h : s.removeInstanceRelationsip id = some s1) :
    timerState s1 = timerState s := by
  cases hh : s.hasInstanceForId id with
  | false =>
    rw [removeInstanceRelationsip_unregistered s id hh] at h
    cases h; rfl
  | true =>
    obtain ⟨h0, inst, hl⟩ := (hasInstanceForId_iff s id).1 hh
    rw [removeInstanceRelationsip_registered s id inst h0 hl] at h
    cases h; rfl

theorem resetInstanceProperty_timerState (L : InstanceLayer) (s : NodeInstanceServer)
    (c : PropertyAbstractContainer) (s1 : NodeInstanceServer)
    (h : s.resetInstanceProperty L c = some s1) : timerState s1 = timerState s := by
  cases hh : s.hasInstanceForId c.instanceId with
  | false =>
    simp only [resetInstanceProperty, hh, Bool.false_eq_true, if_false, Option.some.injEq] at h
    subst h; rfl
  | true =>
    obtain ⟨h0, inst, hl⟩ := (hasInstanceForId_iff s _).1 hh
    by_cases hv : inst.isValid = true
    · rw [resetInstanceProperty_registered L s c inst h0 hl hv] at h
      cases h; rfl
    · unfold resetInstanceProperty at h
      rw [if_pos hh, instanceForId_of_lookup s _ inst h0 hl] at h
      simp [hv] at h

theorem setInstancePropertyBinding_timerState (L : InstanceLayer) (s : NodeInstanceServer)
    (c : PropertyBindingContainer) (s1 : NodeInstanceServer)
    (h : s.setInstancePropertyBinding L c = some s1) : timerState s1 = timerState s := by
  cases hh : s.hasInstanceForId c.instanceId with
  | false =>
    simp only [setInstancePropertyBinding, hh, Bool.false_eq_true, if_false,
      Option.some.injEq] at h
    subst h; rfl
  | true =>
    obtain ⟨h0, inst, hl⟩ := (hasInstanceForId_iff s _).1 hh
    rw [setInstancePropertyBinding_registered L s c inst h0 hl] at h
    cases h; rfl

theorem setInstancePropertyVariant_timerState (L : InstanceLayer) (s : NodeInstanceServer)
    (c : PropertyValueContainer) (s1 : NodeInstanceServer)
    (h : s.setInstancePropertyVariant L c = some s1) : timerState s1 = timerState s := by
  cases hh : s.hasInstanceForId c.instanceId with
  | false =>
    simp only [setInstancePropertyVariant, hh, Bool.false_eq_true, if_false,
      Option.some.injEq] at h
    subst h; rfl
  | true =>
    obtain ⟨h0, inst, hl⟩ := (hasInstanceForId_iff s _).1 hh
    rw [setInstancePropertyVariant_registered L s c inst h0 hl] at h
    cases h; rfl

theorem reparentInstance_timerState (s : NodeInstanceServer) (c : ReparentContainer)
    (s1 : NodeInstanceServer) (h : s.reparentInstance c = some s1) :
    timerState s1 = timerState s := by
  rcases reparentInstance_eq s c s1 h with rfl | ⟨call, rfl⟩ <;> rfl

theorem changeId_timerState (s : NodeInstanceServer) (c : IdContainer)
    (s1 : NodeInstanceServer) (h : s.changeId c = some s1) :
    timerState s1 = timerState s := by
  rcases changeId_eq s c s1 h with rfl | ⟨call, rfl⟩ <;> rfl

theorem refreshFileProperty_timerState (s : NodeInstanceServer) (c : ObjectPropertyPair)
    (s1 : NodeInstanceServer) (h : s.refreshFileProperty c = some s1) :
    timerState s1 = timerState s := by
  unfold refreshFileProperty at h
  cases hh : s.hasInstanceForObject c.1 with
  | false =>
    simp only [hh, Bool.false_eq_true, if_false, Option.some.injEq] at h
    subst h; rfl
  | true =>
    simp only [hh, if_true] at h
    cases hi : s.instanceForObject c.1 with
    | none => simp [hi] at h
    | some inst =>
      simp only [hi, Option.some.injEq] at h
      subst h; rfl

theorem addImportPath_timerState (s : NodeInstanceServer) (path : String)
    (s1 : NodeInstanceServer) (h : s.addImportPath path = some s1) :
    timerState s1 = timerState s := by
  unfold addImportPath at h
  cases hv : s.m_declarativeView with
  | none => simp [hv] at h
  | some v =>
    simp only [hv, Option.some.injEq] at h
    subst h; rfl

theorem createInstance_timerState (L : InstanceLayer)
    (acc : NodeInstanceServer × List ServerNodeInstance) (c : InstanceContainer)
    (acc1 : NodeInstanceServer × List ServerNodeInstance)
    (h : createInstance L acc c = some acc1) : timerState acc1.1 = timerState acc.1 := by
  unfold createInstance at h
  cases hi : acc.1.insertInstanceRelationship (L.create c) with
  | none => simp [hi] at h
  | some s2 =>
    obtain ⟨_, _, _, rfl⟩ := insertInstanceRelationship_eq_some acc.1 s2 _ hi
    simp only [hi, Option.some.injEq] at h
    subst h
    by_cases h0 : c.instanceId = 0 <;>
      by_cases hg : L.isGraphicsObject (L.create c).internalObject = true <;>
      simp [h0, hg, call, addItem, setSceneRect, timerState]

theorem addChangedProperty_timerState (s : NodeInstanceServer) (p : InstancePropertyPair) :
    timerState (s.addChangedProperty p) = timerState s := by
  unfold addChangedProperty
  split <;> rfl

/-- Each of the commands that end with `startRenderTimer()` returns the state
that `startRenderTimer` makes of a state with the cadence state of the
start. -/
theorem armsFastCadence_eq (L : InstanceLayer) (s s1 : NodeInstanceServer) (op : ServerOp)
    (hop : op.armsFastCadence = true) (h : applyServerOp L s op = some s1) :
    ∃ s2, timerState s2 = timerState s ∧ s1 = s2.startRenderTimer := by
  cases op with
  | createInstances instances =>
    simp only [applyServerOp] at h
    unfold createInstances at h
    split at h
    · cases h
    · cases hrun : forEach (createInstance L) (s, []) instances with
      | none => simp [hrun] at h
      | some r =>
        obtain ⟨s2, l⟩ := r
        have hkeep := forEach_preserves
          (fun acc : NodeInstanceServer × List ServerNodeInstance => timerState acc.1)
          (createInstance L) (createInstance_timerState L) instances _ _ hrun
        simp only [hrun, foldl_send, Option.some.injEq] at h
        refine ⟨_, ?_, h.symm⟩
        exact hkeep
  | changeFileUrl fileUrl =>
    simp only [applyServerOp, Option.some.injEq] at h
    subst h
    unfold changeFileUrl
    refine ⟨_, ?_, rfl⟩
    simp only
    split <;> rfl
  | createScene =>
    simp only [applyServerOp] at h
    unfold createScene at h
    split at h
    · cases h
    · simp only [Option.some.injEq] at h
      subst h
      refine ⟨_, ?_, rfl⟩
      split <;> rfl
  | removeInstances instanceIds =>
    refine startRenderTimer_of_map _ s s1 ?_ h
    intro s2 h2
    exact forEach_preserves timerState _ removeInstanceRelationsip_timerState _ _ _ h2
  | removeProperties properties =>
    refine startRenderTimer_of_map _ s s1 ?_ h
    intro s2 h2
    exact forEach_preserves timerState _ (resetInstanceProperty_timerState L) _ _ _ h2
  | reparentInstances containers =>
    refine startRenderTimer_of_map _ s s1 ?_ h
    intro s2 h2
    exact forEach_preserves timerState _ reparentInstance_timerState _ _ _ h2
  | changeState stateInstanceId =>
    simp only [applyServerOp] at h
    unfold changeState at h
    refine startRenderTimer_of_map _ s s1 ?_ h
    intro s2 h2
    cases hh : s.hasInstanceForId stateInstanceId with
    | false =>
      simp only [hh, Bool.false_eq_true, if_false] at h2
      by_cases ha : s.activeStateInstance.isValid = true
      · simp only [ha, if_true, Option.some.injEq] at h2
        subst h2; rfl
      · simp only [ha, Bool.false_eq_true, if_false, Option.some.injEq] at h2
        subst h2; rfl
    | true =>
      obtain ⟨h0, inst, hl⟩ := (hasInstanceForId_iff s _).1 hh
      simp only [hh, if_true, instanceForId_of_lookup s _ inst h0 hl, Option.some.injEq] at h2
      subst h2; rfl
  | changePropertyValues valueChanges =>
    refine startRenderTimer_of_map _ s s1 ?_ h
    intro s2 h2
    exact forEach_preserves timerState _ (setInstancePropertyVariant_timerState L) _ _ _ h2
  | changePropertyBindings bindingChanges =>
    refine startRenderTimer_of_map _ s s1 ?_ h
    intro s2 h2
    exact forEach_preserves timerState _ (setInstancePropertyBinding_timerState L) _ _ _ h2
  | changeIds ids =>
    refine startRenderTimer_of_map _ s s1 ?_ h
    intro s2 h2
    exact forEach_preserves timerState _ changeId_timerState _ _ _ h2
  | clearScene => simp [ServerOp.armsFastCadence] at hop
  | addImport command => simp [ServerOp.armsFastCadence] at hop
  | timerEvent timerId => simp [ServerOp.armsFastCadence] at hop
  | notifyPropertyChange instanceid propertyName => simp [ServerOp.armsFastCadence] at hop
  | emitParentChanged child => simp [ServerOp.armsFastCadence] at hop
  | addChangedProperty property => simp [ServerOp.armsFastCadence] at hop
  | refreshLocalFileProperty path => simp [ServerOp.armsFastCadence] at hop
  | addFilePropertyToFileSystemWatcher object propertyName path =>
    simp [ServerOp.armsFastCadence] at hop
  | removeFilePropertyFromFileSystemWatcher object propertyName path =>
    simp [ServerOp.armsFastCadence] at hop
  | setStateInstance stateInstance => simp [ServerOp.armsFastCadence] at hop
  | clearStateInstance => simp [ServerOp.armsFastCadence] at hop

theorem forEach_invariant {σ α : Type} (P : σ → Prop) (body : σ → α → Option σ)
    (hbody : ∀ s a s1, P s → body s a = some s1 → P s1) (xs : List α) (s s1 : σ)
    (hs : P s) (h : forEach body s xs = some s1) : P s1 := by
  induction xs generalizing s with
  | nil =>
    simp only [forEach, Option.some.injEq] at h
    exact h ▸ hs
  | cons a rest ih =>
    simp only [forEach] at h
    cases ha : body s a with
    | none => simp [ha] at h
    | some s2 =>
      simp only [ha] at h
      exact ih s2 (hbody s a s2 hs ha) h

/-- A detection pass that returns keeps the cadence state consistent and
leaves the tick source armed with the cadence flag slow. -/
theorem detectionPass_cadence (L : InstanceLayer) (s s2 : NodeInstanceServer)
    (view : QDeclarativeView) (hc : CadenceConsistent s)
    (h : detectionPass L s view = some s2) :
    CadenceConsistent s2 ∧ s2.m_timer ≠ 0 ∧ s2.m_slowRenderTimer = true := by
  have key : ∀ x : NodeInstanceServer, timerState x = timerState s →
      CadenceConsistent (x.slowDownRenderTimer.send ClientCall.flush) ∧
      (x.slowDownRenderTimer.send ClientCall.flush).m_timer ≠ 0 ∧
      (x.slowDownRenderTimer.send ClientCall.flush).m_slowRenderTimer = true := by
    intro x hx
    obtain ⟨a, b, c⟩ :=
      cadenceConsistent_slowDownRenderTimer x (cadenceConsistent_of_timerState s x hx hc)
    exact ⟨cadenceConsistent_of_timerState _ _ rfl a, b, c⟩
  cases hscan : scanItems s view with
  | none =>
    unfold scanItems at hscan
    simp [detectionPass, hscan] at h
  | some r =>
    obtain ⟨s3, l3⟩ := r
    rw [detectionPass_of_scan L s s3 view l3 hscan] at h
    obtain ⟨_, ⟨v, hv3⟩, _, _⟩ := detectionLocals_of_scan s s3 view l3 hscan
    cases h
    exact key _ (by rw [hv3]; rfl)

theorem detection_cadence (L : InstanceLayer) (s s1 : NodeInstanceServer)
    (hc : CadenceConsistent s) (h : s.findItemChangesAndSendChangeCommands L = some s1) :
    CadenceConsistent s1 := by
  cases hv : s.m_declarativeView with
  | none =>
    rw [detection_without_view L s hv] at h
    cases h; exact hc
  | some view =>
    by_cases hb : s.m_nodeInstanceClient.bytesToWrite < 100000
    · cases hin : s.inFunction with
      | false =>
        obtain ⟨s3, h3, rfl⟩ := detection_result_of_pass L s s1 view hin hb hv h
        exact cadenceConsistent_of_timerState s3 _ rfl
          (detectionPass_cadence L (enterPass s) s3 view
            (cadenceConsistent_of_timerState s _ rfl hc) h3).1
      | true =>
        simp only [findItemChangesAndSendChangeCommands, hin, Bool.not_true, Bool.false_and,
          Bool.false_eq_true, if_false, Option.some.injEq] at h
        exact h ▸ hc
    · rw [detection_deferred L s (not_lt.1 hb)] at h
      cases h; exact hc

end NodeInstanceServer

/-- Every operation of the server keeps the cadence state consistent. -/
theorem applyServerOp_cadence (L : InstanceLayer) (s s1 : NodeInstanceServer) (op : ServerOp)
    (hc : CadenceConsistent s) (h : applyServerOp L s op = some s1) : CadenceConsistent s1 := by
  by_cases hop : op.armsFastCadence = true
  · obtain ⟨s2, h2, rfl⟩ := NodeInstanceServer.armsFastCadence_eq L s s1 op hop h
    exact (NodeInstanceServer.cadenceConsistent_startRenderTimer s2
      (NodeInstanceServer.cadenceConsistent_of_timerState s s2 h2 hc)).1
  · cases op with
    | createInstances instances => exact absurd rfl hop
    | changeFileUrl fileUrl => exact absurd rfl hop
    | createScene => exact absurd rfl hop
    | removeInstances instanceIds => exact absurd rfl hop
    | removeProperties properties => exact absurd rfl hop
    | reparentInstances containers => exact absurd rfl hop
    | changeState stateInstanceId => exact absurd rfl hop
    | changePropertyValues valueChanges => exact absurd rfl hop
    | changePropertyBindings bindingChanges => exact absurd rfl hop
    | changeIds ids => exact absurd rfl hop
    | clearScene =>
      simp only [applyServerOp, Option.some.injEq] at h
      subst h
      obtain ⟨calls, hcs⟩ := NodeInstanceServer.clearScene_fields s
      rw [hcs]
      exact NodeInstanceServer.cadenceConsistent_of_timerState s.stopRenderTimer _ rfl
        (NodeInstanceServer.cadenceConsistent_stopRenderTimer s hc).1
    | addImport command =>
      simp only [applyServerOp, NodeInstanceServer.addImport_eq] at h
      have hk := NodeInstanceServer.forEach_preserves timerState
        NodeInstanceServer.addImportPath NodeInstanceServer.addImportPath_timerState _ _ _ h
      exact NodeInstanceServer.cadenceConsistent_of_timerState s s1 hk hc
    | timerEvent timerId =>
      simp only [applyServerOp, NodeInstanceServer.timerEvent] at h
      split at h
      · exact NodeInstanceServer.detection_cadence L s s1 hc h
      · simp only [Option.some.injEq] at h
        exact h ▸ hc
    | notifyPropertyChange instanceid propertyName =>
      rcases NodeInstanceServer.notifyPropertyChange_eq s instanceid propertyName with
        h1 | ⟨i, h1⟩
      · simp only [applyServerOp, h1, Option.some.injEq] at h
        exact h ▸ hc
      · simp only [applyServerOp, h1, Option.some.injEq] at h
        subst h
        exact NodeInstanceServer.cadenceConsistent_of_timerState s _
          (NodeInstanceServer.addChangedProperty_timerState s _) hc
    | emitParentChanged child =>
      rcases NodeInstanceServer.emitParentChanged_eq s child with h1 | ⟨i, h1⟩
      · simp only [applyServerOp, h1, Option.some.injEq] at h
        exact h ▸ hc
      · simp only [applyServerOp, h1, Option.some.injEq] at h
        subst h
        exact NodeInstanceServer.cadenceConsistent_of_timerState s _
          (NodeInstanceServer.addChangedProperty_timerState s _) hc
    | addChangedProperty property =>
      simp only [applyServerOp, Option.some.injEq] at h
      subst h
      exact NodeInstanceServer.cadenceConsistent_of_timerState s _
        (NodeInstanceServer.addChangedProperty_timerState s _) hc
    | refreshLocalFileProperty path =>
      simp only [applyServerOp, NodeInstanceServer.refreshLocalFileProperty] at h
      split at h
      · exact NodeInstanceServer.cadenceConsistent_of_timerState s s1
          (NodeInstanceServer.forEach_preserves timerState _
            NodeInstanceServer.refreshFileProperty_timerState _ _ _ h) hc
      · simp only [Option.some.injEq] at h
        exact h ▸ hc
    | addFilePropertyToFileSystemWatcher object propertyName path =>
      simp only [applyServerOp, Option.some.injEq] at h
      subst h
      exact NodeInstanceServer.cadenceConsistent_of_timerState s _ rfl hc
    | removeFilePropertyFromFileSystemWatcher object propertyName path =>
      simp only [applyServerOp, Option.some.injEq] at h
      subst h
      exact NodeInstanceServer.cadenceConsistent_of_timerState s _ rfl hc
    | setStateInstance stateInstance =>
      simp only [applyServerOp, Option.some.injEq] at h
      subst h
      exact NodeInstanceServer.cadenceConsistent_of_timerState s _ rfl hc
    | clearStateInstance =>
      simp only [applyServerOp, Option.some.injEq] at h
      subst h
      exact NodeInstanceServer.cadenceConsistent_of_timerState s _ rfl hc

/-- Every state reachable from a consistent state is consistent. -/
theorem runServerOps_cadence (L : InstanceLayer) (ops : List ServerOp)
    (s s1 : NodeInstanceServer) (hc : CadenceConsistent s)
    (h : runServerOps L s ops = some s1) : CadenceConsistent s1 :=
  NodeInstanceServer.forEach_invariant CadenceConsistent (applyServerOp L)
    (fun a op b ha hab => applyServerOp_cadence L a b op ha hab) ops s s1 hc h

theorem cadenceConsistent_init : CadenceConsistent NodeInstanceServer.init := by
  simp [CadenceConsistent, NodeInstanceServer.init]

/-- C22: in every state reachable from the constructed server through the
operations of the server, if the tick source is armed (`m_timer` is not 0)
then it runs at the interval of the cadence flag, 1000 ms when
`m_slowRenderTimer` is set and 16 ms when it is clear. Hence whenever one of
createInstances, createScene, changeFileUrl, removeInstances,
removeProperties, reparentInstances, changeState, changePropertyValues,
changePropertyBindings and changeIds returns from such a state, the tick
source is armed, the cadence flag is fast and the interval is 16 ms. -/
theorem cadence_invariant (L : InstanceLayer) (ops : List ServerOp) (s : NodeInstanceServer)
    (h : runServerOps L NodeInstanceServer.init ops = some s) :
    (s.m_timer ≠ 0 → armedInterval s = some (cadenceInterval s)) ∧
    (cadenceInterval s = if s.m_slowRenderTimer then 1000 else 16) ∧
    (∀ op s1, op.armsFastCadence = true → applyServerOp L s op = some s1 →
      s1.m_timer ≠ 0 ∧ s1.m_slowRenderTimer = false ∧ armedInterval s1 = some 16) := by
  have hc := runServerOps_cadence L ops _ s cadenceConsistent_init h
  refine ⟨NodeInstanceServer.armedInterval_of_consistent s hc, rfl, ?_⟩
  intro op s1 hop h1
  obtain ⟨s2, h2, rfl⟩ := NodeInstanceServer.armsFastCadence_eq L s s1 op hop h1
  obtain ⟨a, b, c⟩ := NodeInstanceServer.cadenceConsistent_startRenderTimer s2
    (NodeInstanceServer.cadenceConsistent_of_timerState s s2 h2 hc)
  refine ⟨b, c, ?_⟩
  rw [NodeInstanceServer.armedInterval_of_consistent _ a b]
  simp [cadenceInterval, c]

/-- A witness for C22: after the scene is created, the instance 1 is created
and the timer 1 has ticked, the tick source is armed as timer 2 with the
cadence flag slow, at the interval 1000 ms of the flag; ChangeIds then
returns with the tick source armed at 16 ms. -/
theorem cadence_invariant_witness :
    ∃ s, runServerOps sampleLayer NodeInstanceServer.init
        [.createScene, .createInstances [⟨1, "Rectangle"⟩], .timerEvent 1] = some s ∧
      s.m_timer = 2 ∧ s.m_slowRenderTimer = true ∧
      armedInterval s = some (cadenceInterval s) ∧ cadenceInterval s = 1000 ∧
      ∃ s1, applyServerOp sampleLayer s (.changeIds [⟨1, "rect"⟩]) = some s1 ∧
        s1.m_timer ≠ 0 ∧ s1.m_slowRenderTimer = false ∧ armedInterval s1 = some 16 :=
  ⟨(runServerOps sampleLayer NodeInstanceServer.init
      [.createScene, .createInstances [⟨1, "Rectangle"⟩], .timerEvent 1]).get (by decide),
   (Option.some_get _).symm, by decide, by decide,
   (cadence_invariant sampleLayer
      [.createScene, .createInstances [⟨1, "Rectangle"⟩], .timerEvent 1] _
      (Option.some_get _).symm).1 (by decide),
   by decide,
   (applyServerOp sampleLayer
      ((runServerOps sampleLayer NodeInstanceServer.init
        [.createScene, .createInstances [⟨1, "Rectangle"⟩], .timerEvent 1]).get (by decide))
      (.changeIds [⟨1, "rect"⟩])).get (by decide),
   (Option.some_get _).symm,
   (cadence_invariant sampleLayer
      [.createScene, .createInstances [⟨1, "Rectangle"⟩], .timerEvent 1] _
      (Option.some_get _).symm).2.2 (.changeIds [⟨1, "rect"⟩]) _ rfl (Option.some_get _).symm⟩

/-! ## After a detection pass -/

namespace NodeInstanceServer

theorem forEach_scanItem_view (items : List QGraphicsItem) (s s1 : NodeInstanceServer)
    (l l1 : DetectionLocals) (h : forEach scanItem (s, l) items = some (s1, l1)) :
    s1.m_declarativeView.isSome = s.m_declarativeView.isSome := by
  induction items generalizing s l with
  | nil =>
    simp only [forEach, Option.some.injEq, Prod.mk.injEq] at h
    rw [h.1]
  | cons item rest ih =>
    simp only [forEach] at h
    cases hi : scanItem (s, l) item with
    | none => simp [hi] at h
    | some r =>
      obtain ⟨s2, l2⟩ := r
      simp only [hi] at h
      obtain ⟨hs, _, _⟩ := scanItem_frame s s2 l l2 item hi
      rw [ih s2 l2 h]
      rcases hs with rfl | ⟨rect, rfl⟩
      · rfl
      · simp [setSceneRect]

end NodeInstanceServer

/-- C24: in a state whose cadence state is consistent (no timer runs while
`m_timer` is 0, and otherwise only `m_timer` runs, at the interval of the
cadence flag), as it is in every state reachable from the constructed
server, a detection call runs the pass when the guard is clear, the backlog
is below 100,000 bytes and the scene is present, and it returns whenever
every item of the view is a graphics object. Whenever it returns, the
Changed-Property queue is empty, the cadence flag is slow and the tick source
is armed at 1000 ms; the pass had every queued change that is not a "parent"
change in its value-changed list; and the scene is still present, so that a
second pass with no notification in between finds the queue empty: its
value-changed list is empty, it does not ask for the scene rect to be
adjusted, and its two sets are those of the scan of the items alone. -/
theorem detection_pass_drains_queue (L : InstanceLayer) (s : NodeInstanceServer)
    (v : QDeclarativeView) (hc : CadenceConsistent s)
    (hin : s.inFunction = false) (hb : s.m_nodeInstanceClient.bytesToWrite < 100000)
    (hv : s.m_declarativeView = some v) :
    (allGraphicsObjectsList v.items = true →
      (s.findItemChangesAndSendChangeCommands L).isSome = true) ∧
    ∀ s2, s.findItemChangesAndSendChangeCommands L = some s2 →
      s2.m_changedPropertyList = [] ∧ s2.m_slowRenderTimer = true ∧ s2.m_timer ≠ 0 ∧
      armedInterval s2 = some 1000 ∧
      (∃ l, detectionLocals (enterPass s) v = some l ∧
        ∀ p ∈ s.m_changedPropertyList, p.2 ≠ "parent" → p ∈ l.propertyChangedList) ∧
      s2.inFunction = false ∧
      ∃ v2, s2.m_declarativeView = some v2 ∧
        detectionLocals (enterPass s2) v2 = (scanItems (enterPass s2) v2).map Prod.snd ∧
        ∀ l2, detectionLocals (enterPass s2) v2 = some l2 →
          l2.propertyChangedList = [] ∧ l2.adjustSceneRect = false := by
  refine ⟨fun hitems => ?_, ?_⟩
  · rw [NodeInstanceServer.detection_with_view L s v hin hb hv, Option.isSome_map']
    exact (detectionPass_isSome_of_graphicsObjects L (enterPass s) v hitems).1
  intro s2 h
  obtain ⟨s3, h3, rfl⟩ := detection_result_of_pass L s s2 v hin hb hv h
  obtain ⟨s1, l1, l, hscan, hl, hview, _, hq⟩ :=
    NodeInstanceServer.detectionPass_view L (enterPass s) s3 v h3
  obtain ⟨c1, c2, c3⟩ := NodeInstanceServer.detectionPass_cadence L (enterPass s) s3 v
    (NodeInstanceServer.cadenceConsistent_of_timerState s _ rfl hc) h3
  have hsome : s1.m_declarativeView.isSome = true := by
    rw [NodeInstanceServer.forEach_scanItem_view v.items (enterPass s) s1 _ l1 hscan]
    show s.m_declarativeView.isSome = true
    rw [hv]; rfl
  have hlocals : ∀ v2, detectionLocals (enterPass (leavePass s3)) v2 =
      (scanItems (enterPass (leavePass s3)) v2).map Prod.snd := by
    intro v2
    unfold detectionLocals
    have hq2 : ∀ r : NodeInstanceServer × NodeInstanceServer.DetectionLocals,
        scanItems (enterPass (leavePass s3)) v2 = some r → r.1.m_changedPropertyList = [] := by
      intro r hr
      obtain ⟨r1, r2⟩ := r
      obtain ⟨⟨w, hw⟩, _, _⟩ := NodeInstanceServer.forEach_scanItem_frame _ _ _ _ _ hr
      rw [hw]
      exact hq
    cases hr : scanItems (enterPass (leavePass s3)) v2 with
    | none => rfl
    | some r =>
      simp only [Option.map_some', Option.some.injEq]
      rw [hq2 r hr]
      rfl
  refine ⟨hq, c3, c2, ?_, ⟨l, hl, ?_⟩, rfl, ?_⟩
  · have ha := NodeInstanceServer.armedInterval_of_consistent s3 c1 c2
    have hci : cadenceInterval s3 = 1000 := by simp [cadenceInterval, c3]
    rw [hci] at ha
    exact ha
  · intro p hp hname
    rw [detectionLocals_value_changed (enterPass s) v l hl]
    simp only [List.mem_filter, Bool.not_eq_true', decide_eq_false_iff_not]
    exact ⟨hp, hname⟩
  · cases hv1 : s1.m_declarativeView with
    | none => simp [hv1] at hsome
    | some w =>
      refine ⟨_, by show s3.m_declarativeView = _; rw [hview, hv1]; rfl, hlocals _, ?_⟩
      intro l2 hl2
      rw [hlocals] at hl2
      cases hr : scanItems (enterPass (leavePass s3))
          (viewAfterPass L (enterPass s).m_rootNodeInstance l w) with
      | none => simp [hr] at hl2
      | some r =>
        obtain ⟨r1, r2⟩ := r
        simp only [hr, Option.map_some', Option.some.injEq] at hl2
        subst hl2
        obtain ⟨_, hp, ha⟩ := NodeInstanceServer.forEach_scanItem_frame _ _ _ _ _ hr
        exact ⟨hp, ha⟩

/-- A witness for C24: the sample server with the dirty item of the instance
1 in its view has the fast timer 1 armed and a "width" change of the instance
1 queued. The detection call reports the change and returns with the queue
empty and the tick source armed as timer 2 at 1000 ms; the second detection
call sends no values-changed command. -/
theorem detection_pass_drains_queue_witness :
    CadenceConsistent sampleDirtyServer ∧
    sampleDirtyServer.inFunction = false ∧
    sampleDirtyServer.m_nodeInstanceClient.bytesToWrite < 100000 ∧
    sampleDirtyServer.m_declarativeView = some sampleDirtyView ∧
    sampleDirtyServer.m_changedPropertyList = [(⟨1, 101, true⟩, "width")] ∧
    (sampleDirtyServer.findItemChangesAndSendChangeCommands sampleLayer).isSome = true ∧
    (sampleDirtyServer.findItemChangesAndSendChangeCommands sampleLayer).map (fun s2 =>
        (s2.m_changedPropertyList, s2.m_slowRenderTimer, s2.m_timer, armedInterval s2)) =
      some ([], true, 2, some 1000) ∧
    ((sampleDirtyServer.findItemChangesAndSendChangeCommands sampleLayer).bind (fun s2 =>
        (s2.findItemChangesAndSendChangeCommands sampleLayer).map (fun s3 =>
          newClientCalls s2 s3))) = some [.flush] :=
  ⟨rfl, rfl, by decide, rfl, rfl,
   (detection_pass_drains_queue sampleLayer sampleDirtyServer sampleDirtyView rfl rfl
      (by decide) rfl).1 (by decide),
   by decide, by decide⟩

/-! ## The Active State Instance after clearing the scene -/

namespace NodeInstanceServer

end NodeInstanceServer

end QmlDesigner
